import Mathlib

/-!
# The PTAXI tag-policy engine of `riscv/ptaxisim.cc`

A shallow embedding of `ptaxi_sim_t` (policy matcher, context store, action
executor) and theorems about it.  Unsigned machine integers are natural
numbers; where the C code narrows or wraps a value the reduction is written out.
-/

namespace Ptaxi

/-! ## Data model -/

/-- Instruction kinds, the enumeration `ptaxi_insn_type_t`. -/
inductive ptaxi_insn_type_t where
  | PTAXI_INSN_TYPE_LOAD
  | PTAXI_INSN_TYPE_LOAD64
  | PTAXI_INSN_TYPE_STORE
  | PTAXI_INSN_TYPE_STORE64
  | PTAXI_INSN_TYPE_OP
  | PTAXI_INSN_TYPE_OPIMM
  | PTAXI_INSN_TYPE_COPY
  | PTAXI_INSN_TYPE_JAL
  | PTAXI_INSN_TYPE_JALR
  | PTAXI_INSN_TYPE_RETURN
  | PTAXI_INSN_TYPE_TAGCMD
  | PTAXI_INSN_TYPE_TAGPOLICY
  | PTAXI_INSN_TYPE_UNKNOWN
  deriving DecidableEq, Repr

/-- Operand roles, the enumeration `insn_var_type_t`. -/
inductive insn_var_type_t where
  | INSN_ARG1
  | INSN_ARG2
  | INSN_OUT
  deriving DecidableEq, Repr

/-- The decoded fields of an instruction that the engine reads through the
accessors of `insn_t` (`opcode()`, `rm()`, `rs1()`, `rs2()`, `rd()`, `i_imm()`,
`s_imm()`).  The immediates are signed. -/
structure insn_t where
  opcode : Nat
  rm : Nat
  rs1 : Nat
  rs2 : Nat
  rd : Nat
  i_imm : Int
  s_imm : Int
  deriving DecidableEq, Repr

/-- The policy record `ptaxi_policy_t`; every field is an unsigned integer. -/
structure ptaxi_policy_t where
  insn_type : Nat
  rs1_mask : Nat
  rs1_match : Nat
  rs2_mask : Nat
  rs2_match : Nat
  priv_mask : Nat
  priv_match : Nat
  rs1val_mask : Nat
  rs1val_match : Nat
  rs2val_mask : Nat
  rs2val_match : Nat
  tag_arg1_mask : Nat
  tag_arg1_match : Nat
  tag_arg2_mask : Nat
  tag_arg2_match : Nat
  tag_out_mask : Nat
  tag_out_match : Nat
  tag_out_tomodify : Nat
  tag_out_set : Nat
  priv_tomodify : Nat
  priv_set : Nat
  ignore_count : Nat
  action : Nat
  deriving DecidableEq, Repr

/-- A policy entry, `ptaxi_policy_context_t`.  The declaration of `match_count`
is in `ptaxisim.h`; it is a count of matches that only grows, kept here as a
natural number. -/
structure ptaxi_policy_context_t where
  policy : ptaxi_policy_t
  match_count : Nat
  deriving DecidableEq, Repr

/-- A context, `ptaxi_context_state_t`. -/
structure ptaxi_context_state_t where
  is_enable : Bool
  priv_bits : Nat
  lowest_sp_addr : Nat
  policy_contexts : List ptaxi_policy_context_t
  deriving DecidableEq, Repr

/-- The benchmark counters of the engine. -/
structure ptaxi_counters_t where
  insns : Nat
  match_insns : Nat
  tag_read : Nat
  tag_write : Nat
  needs : List Nat
  deriving DecidableEq, Repr

/-- The engine object `ptaxi_sim_t`. -/
structure ptaxi_sim_t where
  states : List ptaxi_context_state_t
  benchmark_mode : Bool
  counters : ptaxi_counters_t
  deriving DecidableEq, Repr

/-- The part of the simulated processor the engine touches: the status register
(`CSR_STATUS`), the supervisor flag read by `IS_SUPERVISOR`, the integer register
file with its tag shadow, and the tag memory behind the MMU. -/
structure processor_t (M : Type) where
  sr : Nat
  supervisor : Bool
  XPR : Nat → Nat
  XPR_tag : Nat → Nat
  mem : M

/-- What `ptaxisim.cc` takes from headers that are not part of the sources: the
action bits and the numbering of the instruction kinds (`ptaxisim.h`), the
status-register mask `SR_TAG`, the overlay `ptaxi_policy_serialized` that turns
three words into a policy, and the tag primitives of the MMU over a tag memory
`M`.  All of them are parameters of the embedding. -/
structure host_t (M : Type) where
  PTAXI_ACTION_BLOCK : Nat
  PTAXI_ACTION_ALLOW : Nat
  PTAXI_ACTION_GETTAG : Nat
  PTAXI_ACTION_GC : Nat
  PTAXI_ACTION_DEBUG_LINE : Nat
  PTAXI_ACTION_DEBUG_DETAIL : Nat
  SR_TAG : Nat
  insn_type_code : ptaxi_insn_type_t → Nat
  deserialize : Nat → Nat → Nat → ptaxi_policy_t
  load_tag_only_int8 : M → Nat → Nat
  load_tag_only_int16 : M → Nat → Nat
  load_tag_only_int32 : M → Nat → Nat
  load_tag_only_int64 : M → Nat → Nat
  load_tag_only_uint8 : M → Nat → Nat
  load_tag_only_uint16 : M → Nat → Nat
  load_tag_only_uint32 : M → Nat → Nat
  store_tag_only_uint8 : M → Nat → Nat → M
  store_tag_only_uint16 : M → Nat → Nat → M
  store_tag_only_uint32 : M → Nat → Nat → M
  store_tag_only_uint64 : M → Nat → Nat → M
  store_tagged_uint64 : M → Nat → Nat → Nat → M

/-! ## Constants of `ptaxisim.cc` -/

def OPCODE_LOAD : Nat := 0b0000011
def OPCODE_OPIMM : Nat := 0b0010011
def OPCODE_STORE : Nat := 0b0100011
def OPCODE_OP : Nat := 0b0110011
def OPCODE_JALR : Nat := 0b1100111
def OPCODE_JAL : Nat := 0b1101111
def OPCODE_TAGCMD : Nat := 0b0001011
def OPCODE_TAGPOLICY : Nat := 0b0101011
def REG_SP : Nat := 2
def SR_TAG_SHIFT : Nat := 9
def PTAXI_DEBUG_MODE_CONTEXT_ID : Nat := 42

/-- Two to the 64, the modulus of `reg_t` and `uint64_t` arithmetic. -/
def WORD : Nat := 2 ^ 64

/-- The state pushed by the constructor `ptaxi_sim_t::ptaxi_sim_t`. -/
def default_state : ptaxi_context_state_t :=
  { is_enable := false, priv_bits := 0, lowest_sp_addr := 0, policy_contexts := [] }

/-- The engine right after construction.  The constructor only pushes the
default state; `benchmark_mode` and `counters` are whatever the object held. -/
def ptaxi_sim_new (benchmark_mode : Bool) (counters : ptaxi_counters_t) : ptaxi_sim_t :=
  { states := [default_state], benchmark_mode := benchmark_mode, counters := counters }

/-- Indexing `states[i]`. -/
def state_at (e : ptaxi_sim_t) (i : Nat) : ptaxi_context_state_t :=
  e.states.getD i default_state

/-! ## Instruction classifier -/

/-- The function `ptaxi_sim_t::get_insn_type`. -/
def get_insn_type (insn : insn_t) : ptaxi_insn_type_t :=
  if insn.opcode = OPCODE_LOAD then
    if insn.rm = 3 then .PTAXI_INSN_TYPE_LOAD64 else .PTAXI_INSN_TYPE_LOAD
  else if insn.opcode = OPCODE_STORE then
    if insn.rm = 3 then .PTAXI_INSN_TYPE_STORE64 else .PTAXI_INSN_TYPE_STORE
  else if insn.opcode = OPCODE_OP then .PTAXI_INSN_TYPE_OP
  else if insn.opcode = OPCODE_OPIMM then
    if insn.rm = 0 ∧ insn.i_imm = 0 then .PTAXI_INSN_TYPE_COPY else .PTAXI_INSN_TYPE_OPIMM
  else if insn.opcode = OPCODE_JAL then .PTAXI_INSN_TYPE_JAL
  else if insn.opcode = OPCODE_JALR then
    if insn.i_imm = 0 ∧ insn.rs1 = 1 ∧ insn.rm = 0 ∧ insn.rd = 0 then .PTAXI_INSN_TYPE_RETURN
    else .PTAXI_INSN_TYPE_JALR
  else if insn.opcode = OPCODE_TAGCMD then .PTAXI_INSN_TYPE_TAGCMD
  else if insn.opcode = OPCODE_TAGPOLICY then .PTAXI_INSN_TYPE_TAGPOLICY
  else .PTAXI_INSN_TYPE_UNKNOWN

/-! ## Context store -/

/-- The loop `while (context_id >= states.size()) states.push_back(states[0])`. -/
def grow_states (states : List ptaxi_context_state_t) (context_id : Nat) :
    List ptaxi_context_state_t :=
  states ++ List.replicate (context_id + 1 - states.length) (states.getD 0 default_state)

/-- The function `ptaxi_sim_t::get_ptaxi_context_id`: the id, the engine and the
processor after the call. -/
def get_ptaxi_context_id {M : Type} (H : host_t M) (e : ptaxi_sim_t) (p : processor_t M)
    (add_if_needed : Bool) : Nat × ptaxi_sim_t × processor_t M :=
  let context_id :=
    if e.benchmark_mode then PTAXI_DEBUG_MODE_CONTEXT_ID
    else (p.sr &&& H.SR_TAG) >>> SR_TAG_SHIFT
  if add_if_needed ∧ context_id = 0 then
    let old := p.sr
    let context_id := e.states.length
    if context_id ≥ 1 <<< 7 then (0, e, p)
    else
      (context_id, { e with states := grow_states e.states context_id },
        { p with sr := old ||| (context_id <<< SR_TAG_SHIFT) })
  else
    (context_id, { e with states := grow_states e.states context_id }, p)

/-! ## Operand resolver and tag accessor -/

/-- Result of a call that may throw `trap_tag_violation`. -/
inductive tag_result (α : Type) where
  | ok (a : α)
  | trap

/-- What the `switch` of `get_or_set_tag` resolves an operand to. -/
inductive operand_t where
  | invalid
  | mem (addr : Nat)
  | reg (r : Nat)
  deriving DecidableEq, Repr

/-- The sum `RS1 + imm` in 64-bit arithmetic. -/
def add_imm (rs1val : Nat) (imm : Int) : Nat :=
  (((rs1val : Int) + imm) % (WORD : Int)).toNat

/-- The `switch (insn_type)` at the head of `get_or_set_tag`; `reg` is a
`uint8_t`. -/
def resolve_operand {M : Type} (p : processor_t M) (insn : insn_t)
    (insn_type : ptaxi_insn_type_t) (var_type : insn_var_type_t) : operand_t :=
  match insn_type, var_type with
  | .PTAXI_INSN_TYPE_LOAD64, .INSN_ARG1 => .mem (add_imm (p.XPR insn.rs1) insn.i_imm)
  | .PTAXI_INSN_TYPE_LOAD64, .INSN_ARG2 => .invalid
  | .PTAXI_INSN_TYPE_LOAD64, .INSN_OUT => .reg (insn.rd % 256)
  | .PTAXI_INSN_TYPE_LOAD, .INSN_ARG1 => .mem (add_imm (p.XPR insn.rs1) insn.i_imm)
  | .PTAXI_INSN_TYPE_LOAD, .INSN_ARG2 => .invalid
  | .PTAXI_INSN_TYPE_LOAD, .INSN_OUT => .reg (insn.rd % 256)
  | .PTAXI_INSN_TYPE_STORE64, .INSN_ARG1 => .reg (insn.rs2 % 256)
  | .PTAXI_INSN_TYPE_STORE64, .INSN_ARG2 => .invalid
  | .PTAXI_INSN_TYPE_STORE64, .INSN_OUT => .mem (add_imm (p.XPR insn.rs1) insn.s_imm)
  | .PTAXI_INSN_TYPE_STORE, .INSN_ARG1 => .reg (insn.rs2 % 256)
  | .PTAXI_INSN_TYPE_STORE, .INSN_ARG2 => .invalid
  | .PTAXI_INSN_TYPE_STORE, .INSN_OUT => .mem (add_imm (p.XPR insn.rs1) insn.s_imm)
  | .PTAXI_INSN_TYPE_TAGCMD, .INSN_ARG1 => .reg (insn.rs1 % 256)
  | .PTAXI_INSN_TYPE_TAGCMD, .INSN_ARG2 => .reg (insn.rs2 % 256)
  | .PTAXI_INSN_TYPE_TAGCMD, .INSN_OUT => .reg (insn.rd % 256)
  | .PTAXI_INSN_TYPE_OP, .INSN_ARG1 => .reg (insn.rs1 % 256)
  | .PTAXI_INSN_TYPE_OP, .INSN_ARG2 => .reg (insn.rs2 % 256)
  | .PTAXI_INSN_TYPE_OP, .INSN_OUT => .reg (insn.rd % 256)
  | .PTAXI_INSN_TYPE_OPIMM, .INSN_ARG1 => .reg (insn.rs1 % 256)
  | .PTAXI_INSN_TYPE_OPIMM, .INSN_ARG2 => .invalid
  | .PTAXI_INSN_TYPE_OPIMM, .INSN_OUT => .reg (insn.rd % 256)
  | .PTAXI_INSN_TYPE_COPY, .INSN_ARG1 => .reg (insn.rs1 % 256)
  | .PTAXI_INSN_TYPE_COPY, .INSN_ARG2 => .invalid
  | .PTAXI_INSN_TYPE_COPY, .INSN_OUT => .reg (insn.rd % 256)
  | .PTAXI_INSN_TYPE_JAL, .INSN_ARG1 => .invalid
  | .PTAXI_INSN_TYPE_JAL, .INSN_ARG2 => .invalid
  | .PTAXI_INSN_TYPE_JAL, .INSN_OUT => .reg (insn.rd % 256)
  | .PTAXI_INSN_TYPE_JALR, .INSN_ARG1 => .reg (insn.rs1 % 256)
  | .PTAXI_INSN_TYPE_JALR, .INSN_ARG2 =>
      .mem (add_imm (p.XPR insn.rs1) insn.i_imm &&& (WORD - 2))
  | .PTAXI_INSN_TYPE_JALR, .INSN_OUT => .reg (insn.rd % 256)
  | .PTAXI_INSN_TYPE_RETURN, .INSN_ARG1 => .reg (insn.rs1 % 256)
  | .PTAXI_INSN_TYPE_RETURN, .INSN_ARG2 =>
      .mem (add_imm (p.XPR insn.rs1) insn.i_imm &&& (WORD - 2))
  | .PTAXI_INSN_TYPE_RETURN, .INSN_OUT => .reg (insn.rd % 256)
  | .PTAXI_INSN_TYPE_TAGPOLICY, _ => .invalid
  | .PTAXI_INSN_TYPE_UNKNOWN, _ => .invalid

/-- The function `ptaxi_sim_t::load_tag_from_mem`; its result is a `uint8_t`. -/
def load_tag_from_mem {M : Type} (H : host_t M) (m : M) (addr : Nat) (rm : Nat) :
    tag_result Nat :=
  if rm = 0 then .ok (H.load_tag_only_int8 m addr % 256)
  else if rm = 1 then .ok (H.load_tag_only_int16 m addr % 256)
  else if rm = 2 then .ok (H.load_tag_only_int32 m addr % 256)
  else if rm = 3 then .ok (H.load_tag_only_int64 m addr % 256)
  else if rm = 4 then .ok (H.load_tag_only_uint8 m addr % 256)
  else if rm = 5 then .ok (H.load_tag_only_uint16 m addr % 256)
  else if rm = 6 then .ok (H.load_tag_only_uint32 m addr % 256)
  else .trap

/-- The function `ptaxi_sim_t::store_tag_to_mem`. -/
def store_tag_to_mem {M : Type} (H : host_t M) (m : M) (addr : Nat) (rm : Nat) (val : Nat) :
    tag_result M :=
  if rm = 0 then .ok (H.store_tag_only_uint8 m addr val)
  else if rm = 1 then .ok (H.store_tag_only_uint16 m addr val)
  else if rm = 2 then .ok (H.store_tag_only_uint32 m addr val)
  else if rm = 3 then .ok (H.store_tag_only_uint64 m addr val)
  else .trap

/-- The function `ptaxi_sim_t::get_or_set_tag`: the returned tag and the
processor after the call, or the trap (thrown before anything is written).  The
width passed on is `insn.rm()` narrowed to `uint8_t`. -/
def get_or_set_tag {M : Type} (H : host_t M) (p : processor_t M) (insn : insn_t)
    (insn_type : ptaxi_insn_type_t) (var_type : insn_var_type_t) (set_tag : Bool)
    (tag_val : Nat) : tag_result (Nat × processor_t M) :=
  match resolve_operand p insn insn_type var_type with
  | .invalid => .trap
  | .mem addr =>
    if set_tag then
      match store_tag_to_mem H p.mem addr (insn.rm % 256) tag_val with
      | .ok m => .ok (0, { p with mem := m })
      | .trap => .trap
    else
      match load_tag_from_mem H p.mem addr (insn.rm % 256) with
      | .ok t => .ok (t, p)
      | .trap => .trap
  | .reg r =>
    if r = 0 then .ok (0, p)
    else if set_tag then .ok (0, { p with XPR_tag := Function.update p.XPR_tag r tag_val })
    else .ok (p.XPR_tag r % 256, p)

/-! ## Policy matcher -/

/-- The 8-bit update `(t & ~tomodify) | set` as the C code computes it: the
operands are promoted, the result is stored in a `uint8_t`. -/
def mask_update (t tomodify set : Nat) : Nat :=
  ((t &&& (255 ^^^ (tomodify % 256))) ||| set) % 256

/-- The locals of `determine_ptaxi_action` that live across iterations of the
policy loop, together with the two engine fields the loop body writes besides
the entry itself: `states[context_id].priv_bits` and `counters.tag_read`. -/
structure loop_vars where
  action : Nat
  tag_arg1 : Nat
  tag_arg2 : Nat
  tag_out : Nat
  tag_out_updated : Nat
  is_load_tag_arg1 : Bool
  is_load_tag_arg2 : Bool
  is_load_tag_out : Bool
  has_match : Bool
  priv_bits : Nat
  tag_read : Nat
  deriving DecidableEq, Repr

/-- The value of `match` after a group of predicates of the loop body, or the
trap thrown by a tag load; both carry the loop variables at that point. -/
inductive match_result where
  | ok (m : Bool) (v : loop_vars)
  | trap (v : loop_vars)
  deriving DecidableEq, Repr

/-- One guarded predicate of the loop body, the statement
`if (match && mask) { match = match && c; }`: the value of `match` after it. -/
def guarded (m : Bool) (mask : Nat) (c : Bool) : Bool :=
  if m ∧ mask ≠ 0 then m && c else m

/-- The predicates of lines 156-173, which read no tag: `insn_type`, `rs1`,
`rs2`, `priv`, `rs1val`, `rs2val`. -/
def match_fields {M : Type} (H : host_t M) (p : processor_t M) (insn : insn_t)
    (insn_type : ptaxi_insn_type_t) (priv_bits : Nat) (policy : ptaxi_policy_t) : Bool :=
  let m : Bool := decide (H.insn_type_code insn_type = policy.insn_type)
  let m : Bool :=
    guarded m policy.rs1_mask (decide (insn.rs1 &&& policy.rs1_mask = policy.rs1_match))
  let m : Bool :=
    guarded m policy.rs2_mask (decide (insn.rs2 &&& policy.rs2_mask = policy.rs2_match))
  let m : Bool :=
    guarded m policy.priv_mask (decide (priv_bits &&& policy.priv_mask = policy.priv_match))
  let m : Bool :=
    guarded m policy.rs1val_mask
      (decide (p.XPR insn.rs1 &&& policy.rs1val_mask = policy.rs1val_match))
  let m : Bool :=
    guarded m policy.rs2val_mask
      (decide (p.XPR insn.rs2 &&& policy.rs2val_mask = policy.rs2val_match))
  m

/-- Lines 175-184: the `tag_arg1` predicate with its lazy load. -/
def match_tag_arg1 {M : Type} (H : host_t M) (bench : Bool) (p : processor_t M) (insn : insn_t)
    (insn_type : ptaxi_insn_type_t) (policy : ptaxi_policy_t) (m : Bool) (v : loop_vars) :
    match_result :=
  if m ∧ policy.tag_arg1_mask ≠ 0 then
    if v.is_load_tag_arg1 then
      .ok (m && decide (v.tag_arg1 &&& policy.tag_arg1_mask = policy.tag_arg1_match)) v
    else
      match get_or_set_tag H p insn insn_type .INSN_ARG1 false 0 with
      | .trap => .trap { v with is_load_tag_arg1 := true }
      | .ok (t, _) =>
        .ok (m && decide (t &&& policy.tag_arg1_mask = policy.tag_arg1_match))
          { v with is_load_tag_arg1 := true, tag_arg1 := t,
                   tag_read := if bench then v.tag_read + 1 else v.tag_read }
  else .ok m v

/-- Lines 185-194: the `tag_arg2` predicate with its lazy load. -/
def match_tag_arg2 {M : Type} (H : host_t M) (bench : Bool) (p : processor_t M) (insn : insn_t)
    (insn_type : ptaxi_insn_type_t) (policy : ptaxi_policy_t) (m : Bool) (v : loop_vars) :
    match_result :=
  if m ∧ policy.tag_arg2_mask ≠ 0 then
    if v.is_load_tag_arg2 then
      .ok (m && decide (v.tag_arg2 &&& policy.tag_arg2_mask = policy.tag_arg2_match)) v
    else
      match get_or_set_tag H p insn insn_type .INSN_ARG2 false 0 with
      | .trap => .trap { v with is_load_tag_arg2 := true }
      | .ok (t, _) =>
        .ok (m && decide (t &&& policy.tag_arg2_mask = policy.tag_arg2_match))
          { v with is_load_tag_arg2 := true, tag_arg2 := t,
                   tag_read := if bench then v.tag_read + 1 else v.tag_read }
  else .ok m v

/-- Lines 196-206: the `tag_out` predicate with its lazy load; the load also
resets `tag_out_updated`. -/
def match_tag_out {M : Type} (H : host_t M) (bench : Bool) (p : processor_t M) (insn : insn_t)
    (insn_type : ptaxi_insn_type_t) (policy : ptaxi_policy_t) (m : Bool) (v : loop_vars) :
    match_result :=
  if m ∧ (policy.tag_out_mask ≠ 0 ∨ policy.tag_out_tomodify ≠ 0) then
    if v.is_load_tag_out then
      .ok (m && decide (v.tag_out &&& policy.tag_out_mask = policy.tag_out_match)) v
    else
      match get_or_set_tag H p insn insn_type .INSN_OUT false 0 with
      | .trap => .trap { v with is_load_tag_out := true }
      | .ok (t, _) =>
        .ok (m && decide (t &&& policy.tag_out_mask = policy.tag_out_match))
          { v with is_load_tag_out := true, tag_out := t, tag_out_updated := t,
                   tag_read := if bench then v.tag_read + 1 else v.tag_read }
  else .ok m v

/-- Lines 155-206: the value of `match` when line 208 is reached. -/
def policy_match {M : Type} (H : host_t M) (bench : Bool) (p : processor_t M) (insn : insn_t)
    (insn_type : ptaxi_insn_type_t) (v : loop_vars) (policy : ptaxi_policy_t) : match_result :=
  match match_tag_arg1 H bench p insn insn_type policy
      (match_fields H p insn insn_type v.priv_bits policy) v with
  | .trap v1 => .trap v1
  | .ok m1 v1 =>
    match match_tag_arg2 H bench p insn insn_type policy m1 v1 with
    | .trap v2 => .trap v2
    | .ok m2 v2 => match_tag_out H bench p insn insn_type policy m2 v2

/-- Lines 215-223: what a firing entry does to the loop variables. -/
def fire (v : loop_vars) (policy : ptaxi_policy_t) : loop_vars :=
  { v with
    tag_out_updated := mask_update v.tag_out_updated policy.tag_out_tomodify policy.tag_out_set,
    priv_bits :=
      if policy.priv_tomodify ≠ 0 then mask_update v.priv_bits policy.priv_tomodify policy.priv_set
      else v.priv_bits,
    action := v.action ||| policy.action }

/-- The ways one iteration of the policy loop can end: a tag load threw; `match`
was false; the entry matched and was skipped by `continue` (line 213); the entry
fired, and then either the loop went on or line 225 broke out of it. -/
inductive step_result where
  | trap (v : loop_vars)
  | no_match (v : loop_vars)
  | ignored (v : loop_vars) (entry : ptaxi_policy_context_t)
  | fired (v : loop_vars) (entry : ptaxi_policy_context_t) (brk : Bool)
  deriving DecidableEq, Repr

/-- One iteration of the policy loop (lines 155-227) on one entry. -/
def policy_step {M : Type} (H : host_t M) (bench : Bool) (p : processor_t M) (insn : insn_t)
    (insn_type : ptaxi_insn_type_t) (v : loop_vars) (entry : ptaxi_policy_context_t) :
    step_result :=
  match policy_match H bench p insn insn_type v entry.policy with
  | .trap v1 => .trap v1
  | .ok false v1 => .no_match v1
  | .ok true v1 =>
    let v2 := { v1 with has_match := true }
    let entry1 := { entry with match_count := entry.match_count + 1 }
    if entry1.match_count ≤ entry1.policy.ignore_count then .ignored v2 entry1
    else
      .fired (fire v2 entry.policy) entry1
        (decide (entry.policy.action = H.PTAXI_ACTION_BLOCK
          ∨ entry.policy.action = H.PTAXI_ACTION_ALLOW))

/-- How the policy loop was left, with the value of `i`. -/
structure loop_result where
  vars : loop_vars
  entries : List ptaxi_policy_context_t
  fired : List ptaxi_policy_t
  i : Nat
  trapped : Bool
  deriving DecidableEq, Repr

/-- Puts an entry that the loop has passed back in front of the rest. -/
def loop_result.cons (entry : ptaxi_policy_context_t) (f : List ptaxi_policy_t)
    (r : loop_result) : loop_result :=
  { r with entries := entry :: r.entries, fired := f ++ r.fired }

/-- What the loop does after one iteration on `entry` ended with a given result:
it is left on a trap and on `break`; otherwise it goes on with the rest, which is
`next`. -/
def loop_continue (entry : ptaxi_policy_context_t) (rest : List ptaxi_policy_context_t)
    (i : Nat) (next : loop_vars → loop_result) : step_result → loop_result
  | .trap v1 => { vars := v1, entries := entry :: rest, fired := [], i := i, trapped := true }
  | .no_match v1 => (next v1).cons entry []
  | .ignored v1 entry1 => (next v1).cons entry1 []
  | .fired v1 entry1 brk =>
    if brk then
      { vars := v1, entries := entry1 :: rest, fired := [entry.policy], i := i, trapped := false }
    else (next v1).cons entry1 [entry.policy]

/-- The policy loop of `determine_ptaxi_action` (lines 154-228) from index `i`
on: the loop variables and the entries when it is left, the policies that fired
in order, the final `i`, and whether a tag load threw. -/
def policy_loop {M : Type} (H : host_t M) (bench : Bool) (p : processor_t M) (insn : insn_t)
    (insn_type : ptaxi_insn_type_t) :
    List ptaxi_policy_context_t → loop_vars → Nat → loop_result
  | [], v, i => { vars := v, entries := [], fired := [], i := i, trapped := false }
  | entry :: rest, v, i =>
    loop_continue entry rest i
      (fun v1 => policy_loop H bench p insn insn_type rest v1 (i + 1))
      (policy_step H bench p insn insn_type v entry)

/-- The loop variables on entry to the policy loop (lines 148-151). -/
def loop_init (priv_bits tag_read : Nat) : loop_vars :=
  { action := 0, tag_arg1 := 0, tag_arg2 := 0, tag_out := 0, tag_out_updated := 0,
    is_load_tag_arg1 := false, is_load_tag_arg2 := false, is_load_tag_out := false,
    has_match := false, priv_bits := priv_bits, tag_read := tag_read }

/-- Replaces `states[context_id]`. -/
def set_state (e : ptaxi_sim_t) (context_id : Nat) (s : ptaxi_context_state_t) : ptaxi_sim_t :=
  { e with states := e.states.set context_id s }

/-- The engine after the policy loop: the entries and `priv_bits` of the current
context and `counters.tag_read` as the loop left them. -/
def store_loop (e : ptaxi_sim_t) (context_id : Nat) (r : loop_result) : ptaxi_sim_t :=
  { set_state e context_id
      { state_at e context_id with priv_bits := r.vars.priv_bits, policy_contexts := r.entries }
    with counters := { e.counters with tag_read := r.vars.tag_read } }

/-- Lines 236-247: the counters after an instruction in benchmark mode. -/
def count_insn (c : ptaxi_counters_t) (v : loop_vars) (real_tag_update : Bool) :
    ptaxi_counters_t :=
  let bits := (v.is_load_tag_arg1.toNat <<< 3) + (v.is_load_tag_arg2.toNat <<< 2)
    + (v.is_load_tag_out.toNat <<< 1) + real_tag_update.toNat
  { c with
    tag_write := if real_tag_update then c.tag_write + 1 else c.tag_write,
    insns := c.insns + 1,
    needs := c.needs.set bits (c.needs.getD bits 0 + 1),
    match_insns := if v.has_match then c.match_insns + 1 else c.match_insns }

/-- Outcome of `determine_ptaxi_action`: the returned pair, or the tag-violation
trap; both with the engine and the processor at that point.  `detail` is the
result of the policy loop when the loop was entered. -/
inductive action_result (M : Type) where
  | ok (action : Nat) (idx : Int) (detail : Option loop_result) (e : ptaxi_sim_t)
      (p : processor_t M)
  | trap (detail : loop_result) (e : ptaxi_sim_t) (p : processor_t M)

/-- Lines 230-249 of `determine_ptaxi_action`, after the policy loop was left with
result `r` (or the trap that a tag load threw inside the loop): the write-back of
the destination tag, the benchmark counters and the returned pair. -/
def determine_finish {M : Type} (H : host_t M) (e0 : ptaxi_sim_t) (p0 : processor_t M)
    (context_id : Nat) (insn : insn_t) (r : loop_result) : action_result M :=
  let e1 := store_loop e0 context_id r
  if r.trapped then .trap r e1 p0
  else
    let real_tag_update : Bool :=
      r.vars.is_load_tag_out && decide (r.vars.tag_out ≠ r.vars.tag_out_updated)
    let finish (p1 : processor_t M) : action_result M :=
      .ok r.vars.action (r.i : Int) (some r)
        (if e1.benchmark_mode then
          { e1 with counters := count_insn e1.counters r.vars real_tag_update }
         else e1) p1
    if real_tag_update then
      match get_or_set_tag H p0 insn (get_insn_type insn) .INSN_OUT true
          r.vars.tag_out_updated with
      | .trap => .trap r e1 p0
      | .ok (_, p1) => finish p1
    else finish p0

/-- Lines 147-249 of `determine_ptaxi_action`: what the function does once it has
found that the context `context_id` enforces. -/
def determine_enforcing {M : Type} (H : host_t M) (e0 : ptaxi_sim_t) (p0 : processor_t M)
    (context_id : Nat) (insn : insn_t) : action_result M :=
  determine_finish H e0 p0 context_id insn
    (policy_loop H e0.benchmark_mode p0 insn (get_insn_type insn)
      (state_at e0 context_id).policy_contexts
      (loop_init (state_at e0 context_id).priv_bits e0.counters.tag_read) 0)

/-- The function `ptaxi_sim_t::determine_ptaxi_action`. -/
def determine_ptaxi_action {M : Type} (H : host_t M) (e : ptaxi_sim_t) (p : processor_t M)
    (insn : insn_t) : action_result M :=
  match get_ptaxi_context_id H e p false with
  | (context_id, e0, p0) =>
    if context_id = 0 ∨ (state_at e0 context_id).is_enable = false ∨ p0.supervisor = true then
      .ok 0 (-2) none e0 p0
    else determine_enforcing H e0 p0 context_id insn

/-! ## Action executor -/

/-- What the functional step `fetch.func` of the host did: the value it returned
(`none` when it threw a trap) and the processor it left. -/
abbrev func_t (M : Type) : Type := processor_t M → Option Nat × processor_t M

/-- Outcome of `execute_insn`: the instruction retired with the result of the
functional step; or the engine threw `trap_tag_violation`; or the functional
step threw; or the scrub loop was still running after `fuel` iterations. -/
inductive exec_result (M : Type) where
  | retired (res : Nat) (e : ptaxi_sim_t) (p : processor_t M)
  | trap_tag_violation (e : ptaxi_sim_t) (p : processor_t M)
  | trap_func (e : ptaxi_sim_t) (p : processor_t M)
  | running

/-- Lines 264-289, which only run with benchmark mode off: the two debug
actions print, and `BLOCK` throws (result `true`).  Printing leaves no trace in
the state, but `DEBUG_DETAIL` and `BLOCK` call `get_ptaxi_context_id(p, true)`. -/
def action_debug_block {M : Type} (H : host_t M) (e : ptaxi_sim_t) (p : processor_t M)
    (action : Nat) : Bool × ptaxi_sim_t × processor_t M :=
  if e.benchmark_mode then (false, e, p)
  else
    let ep : ptaxi_sim_t × processor_t M :=
      if action &&& H.PTAXI_ACTION_DEBUG_DETAIL ≠ 0 then (get_ptaxi_context_id H e p true).2
      else (e, p)
    if action &&& H.PTAXI_ACTION_BLOCK ≠ 0 then
      (true, (get_ptaxi_context_id H ep.1 ep.2 true).2)
    else (false, ep)

/-- The scrub loop `for (clean_at = clean_from; clean_at < clean_to; clean_at += 8)`
run for at most `fuel` iterations; `none` when it has not ended by then. -/
def scrub_loop {M : Type} (H : host_t M) (clean_to : Nat) : Nat → Nat → M → Option M
  | 0, clean_at, m => if clean_at < clean_to then none else some m
  | fuel + 1, clean_at, m =>
    if clean_at < clean_to then
      scrub_loop H clean_to fuel ((clean_at + 8) % WORD) (H.store_tagged_uint64 m clean_at 0 0)
    else some m

/-- Lines 291-308: the `GC` action. -/
def action_gc {M : Type} (H : host_t M) (fuel : Nat) (e : ptaxi_sim_t) (p : processor_t M)
    (action : Nat) : Option (ptaxi_sim_t × processor_t M) :=
  if action &&& H.PTAXI_ACTION_GC ≠ 0 then
    match get_ptaxi_context_id H e p false with
    | (context_id, e1, p1) =>
      let cur_sp := p1.XPR REG_SP
      let lowest := (state_at e1 context_id).lowest_sp_addr
      let clean_from := (lowest + WORD - 8) % WORD
      let clean_to := (cur_sp + WORD - 8) % WORD
      match scrub_loop H clean_to fuel clean_from p1.mem with
      | none => none
      | some m =>
        some (set_state e1 context_id { state_at e1 context_id with lowest_sp_addr := cur_sp },
          { p1 with mem := m })
  else some (e, p)

/-- The macro `WRITE_RD`: a write of the register `insn.rd()`. -/
def WRITE_RD {M : Type} (p : processor_t M) (insn : insn_t) (value : Nat) : processor_t M :=
  { p with XPR := Function.update p.XPR insn.rd value }

/-- Lines 311-319: the write of `rd` for a TAGCMD. -/
def action_gettag {M : Type} (H : host_t M) (p : processor_t M) (insn : insn_t)
    (insn_type : ptaxi_insn_type_t) (action : Nat) (before_tag_val : Nat) : processor_t M :=
  if insn_type = .PTAXI_INSN_TYPE_TAGCMD ∧ insn.rd ≠ 0 then
    if action &&& H.PTAXI_ACTION_GETTAG ≠ 0 then WRITE_RD p insn before_tag_val
    else WRITE_RD p insn (p.XPR insn.rs2)
  else p

/-- Lines 323-335: the stack-pointer watermark after the functional step. -/
def track_sp {M : Type} (H : host_t M) (e : ptaxi_sim_t) (p : processor_t M) (insn : insn_t) :
    ptaxi_sim_t × processor_t M :=
  if insn.rd = REG_SP ∧ p.supervisor = false then
    match get_ptaxi_context_id H e p false with
    | (context_id, e1, p1) =>
      if context_id ≠ 0 then
        let cur_sp := p1.XPR REG_SP
        if cur_sp < (state_at e1 context_id).lowest_sp_addr
            ∨ (state_at e1 context_id).lowest_sp_addr = 0 then
          (set_state e1 context_id { state_at e1 context_id with lowest_sp_addr := cur_sp }, p1)
        else (e1, p1)
      else (e1, p1)
  else (e, p)

/-- The function `ptaxi_sim_t::execute_insn`; `TAG_S2` is the tag of register
`insn.rs2()`. -/
def execute_insn {M : Type} (H : host_t M) (fuel : Nat) (e : ptaxi_sim_t) (p : processor_t M)
    (insn : insn_t) (func : func_t M) : exec_result M :=
  let insn_type := get_insn_type insn
  let before_tag_val :=
    if insn_type = .PTAXI_INSN_TYPE_TAGCMD ∧ insn.rd ≠ 0 then p.XPR_tag insn.rs2 else 0
  match determine_ptaxi_action H e p insn with
  | .trap _ e1 p1 => .trap_tag_violation e1 p1
  | .ok action _ _ e1 p1 =>
    match action_debug_block H e1 p1 action with
    | (true, e2, p2) => .trap_tag_violation e2 p2
    | (false, e2, p2) =>
      match action_gc H fuel e2 p2 action with
      | none => .running
      | some (e3, p3) =>
        match func (action_gettag H p3 insn insn_type action before_tag_val) with
        | (none, p4) => .trap_func e3 p4
        | (some res, p4) =>
          match track_sp H e3 p4 insn with
          | (e5, p5) => .retired res e5 p5

/-! ## The other verbs of the engine -/

/-- The function `ptaxi_sim_t::add_policy`. -/
def add_policy {M : Type} (H : host_t M) (e : ptaxi_sim_t) (p : processor_t M) (a b c : Nat) :
    ptaxi_sim_t × processor_t M :=
  match get_ptaxi_context_id H e p true with
  | (context_id, e1, p1) =>
    let policy_context : ptaxi_policy_context_t :=
      { policy := H.deserialize a b c, match_count := 0 }
    (set_state e1 context_id
      { state_at e1 context_id with
        policy_contexts := (state_at e1 context_id).policy_contexts ++ [policy_context] }, p1)

/-- The function `ptaxi_sim_t::run_tag_command` (`print_policies` only prints). -/
def run_tag_command {M : Type} (H : host_t M) (e : ptaxi_sim_t) (p : processor_t M) (cmd : Nat) :
    ptaxi_sim_t × processor_t M :=
  match get_ptaxi_context_id H e p true with
  | (context_id, e1, p1) =>
    if cmd = 0 then (set_state e1 context_id { state_at e1 context_id with is_enable := true }, p1)
    else (e1, p1)

/-- What `memset(&counters, 0, sizeof(counters))` leaves. -/
def zero_counters : ptaxi_counters_t :=
  { insns := 0, match_insns := 0, tag_read := 0, tag_write := 0, needs := List.replicate 16 0 }

/-- The function `ptaxi_sim_t::start_benchmark`. -/
def start_benchmark (e : ptaxi_sim_t) : ptaxi_sim_t :=
  if e.benchmark_mode then e
  else { e with counters := zero_counters, benchmark_mode := true }

/-- The function `ptaxi_sim_t::stop_benchmark` (what it prints is not kept). -/
def stop_benchmark (e : ptaxi_sim_t) : ptaxi_sim_t :=
  if e.benchmark_mode = false then e
  else { e with benchmark_mode := false }

/-! ## Runs of the engine -/

/-- A call of one of the verbs of the engine by the host, with its arguments. -/
inductive engine_op (M : Type) where
  | execute_insn (fuel : Nat) (insn : insn_t) (func : func_t M)
  | add_policy (a b c : Nat)
  | run_tag_command (cmd : Nat)
  | start_benchmark
  | stop_benchmark

/-- The engine and the processor after a call, whether it returned or threw;
`none` when `execute_insn` was still running after its `fuel`. -/
def engine_op.run {M : Type} (H : host_t M) (e : ptaxi_sim_t) (p : processor_t M) :
    engine_op M → Option (ptaxi_sim_t × processor_t M)
  | .execute_insn fuel insn func =>
    match Ptaxi.execute_insn H fuel e p insn func with
    | .retired _ e1 p1 => some (e1, p1)
    | .trap_tag_violation e1 p1 => some (e1, p1)
    | .trap_func e1 p1 => some (e1, p1)
    | .running => none
  | .add_policy a b c => some (Ptaxi.add_policy H e p a b c)
  | .run_tag_command cmd => some (Ptaxi.run_tag_command H e p cmd)
  | .start_benchmark => some (Ptaxi.start_benchmark e, p)
  | .stop_benchmark => some (Ptaxi.stop_benchmark e, p)

/-- The engines the host can bring about: from a freshly constructed engine, by
calls of the verbs, each on whatever processor state the host has by then. -/
inductive reachable {M : Type} (H : host_t M) : ptaxi_sim_t → Prop where
  | new (benchmark_mode : Bool) (counters : ptaxi_counters_t) :
      reachable H (ptaxi_sim_new benchmark_mode counters)
  | step (e : ptaxi_sim_t) (p : processor_t M) (op : engine_op M) (e1 : ptaxi_sim_t)
      (p1 : processor_t M) :
      reachable H e → op.run H e p = some (e1, p1) → reachable H e1

/-! ## A concrete host for examples -/

/-- Modelled from the spec: the declarations of `ptaxisim.h`, `decode.h` and
`mmu.h`, which the sources do not include.  The action is a bitset over BLOCK,
ALLOW, GETTAG, GC, DEBUG_LINE and DEBUG_DETAIL, here one bit each; the context
id is the 7-bit field of the status register at offset 9; the kinds are numbered
in the order the spec lists them; a tag is attached to every address of the tag
memory, and the tag primitives read and write the tag at the address given.  The
spec gives the order of the policy fields in the three words but not their
widths; the overlay here (one byte per field, two for `ignore_count`) is one way
to fill the 192 bits, and no statement depends on it.  This host only serves to
run the code on concrete inputs; the general theorems hold for every host. -/
def spec_host : host_t (Nat → Nat) :=
  { PTAXI_ACTION_BLOCK := 1
    PTAXI_ACTION_ALLOW := 2
    PTAXI_ACTION_GETTAG := 4
    PTAXI_ACTION_GC := 8
    PTAXI_ACTION_DEBUG_LINE := 16
    PTAXI_ACTION_DEBUG_DETAIL := 32
    SR_TAG := 127 <<< 9
    insn_type_code := fun t =>
      match t with
      | .PTAXI_INSN_TYPE_LOAD => 0
      | .PTAXI_INSN_TYPE_LOAD64 => 1
      | .PTAXI_INSN_TYPE_STORE => 2
      | .PTAXI_INSN_TYPE_STORE64 => 3
      | .PTAXI_INSN_TYPE_OP => 4
      | .PTAXI_INSN_TYPE_OPIMM => 5
      | .PTAXI_INSN_TYPE_COPY => 6
      | .PTAXI_INSN_TYPE_JAL => 7
      | .PTAXI_INSN_TYPE_JALR => 8
      | .PTAXI_INSN_TYPE_RETURN => 9
      | .PTAXI_INSN_TYPE_TAGCMD => 10
      | .PTAXI_INSN_TYPE_TAGPOLICY => 11
      | .PTAXI_INSN_TYPE_UNKNOWN => 12
    deserialize := fun a b c =>
      { insn_type := a % 256
        rs1_mask := a / 2 ^ 8 % 256
        rs1_match := a / 2 ^ 16 % 256
        rs2_mask := a / 2 ^ 24 % 256
        rs2_match := a / 2 ^ 32 % 256
        priv_mask := a / 2 ^ 40 % 256
        priv_match := a / 2 ^ 48 % 256
        rs1val_mask := a / 2 ^ 56 % 256
        rs1val_match := b % 256
        rs2val_mask := b / 2 ^ 8 % 256
        rs2val_match := b / 2 ^ 16 % 256
        tag_arg1_mask := b / 2 ^ 24 % 256
        tag_arg1_match := b / 2 ^ 32 % 256
        tag_arg2_mask := b / 2 ^ 40 % 256
        tag_arg2_match := b / 2 ^ 48 % 256
        tag_out_mask := b / 2 ^ 56 % 256
        tag_out_match := c % 256
        tag_out_tomodify := c / 2 ^ 8 % 256
        tag_out_set := c / 2 ^ 16 % 256
        priv_tomodify := c / 2 ^ 24 % 256
        priv_set := c / 2 ^ 32 % 256
        ignore_count := c / 2 ^ 40 % 65536
        action := c / 2 ^ 56 % 256 }
    load_tag_only_int8 := fun m addr => m addr
    load_tag_only_int16 := fun m addr => m addr
    load_tag_only_int32 := fun m addr => m addr
    load_tag_only_int64 := fun m addr => m addr
    load_tag_only_uint8 := fun m addr => m addr
    load_tag_only_uint16 := fun m addr => m addr
    load_tag_only_uint32 := fun m addr => m addr
    store_tag_only_uint8 := fun m addr val => Function.update m addr val
    store_tag_only_uint16 := fun m addr val => Function.update m addr val
    store_tag_only_uint32 := fun m addr val => Function.update m addr val
    store_tag_only_uint64 := fun m addr val => Function.update m addr val
    store_tagged_uint64 := fun m addr _ tag => Function.update m addr tag }

/-- A policy all of whose fields are zero; the examples set the fields they
need. -/
def zero_policy : ptaxi_policy_t :=
  { insn_type := 0, rs1_mask := 0, rs1_match := 0, rs2_mask := 0, rs2_match := 0,
    priv_mask := 0, priv_match := 0, rs1val_mask := 0, rs1val_match := 0,
    rs2val_mask := 0, rs2val_match := 0, tag_arg1_mask := 0, tag_arg1_match := 0,
    tag_arg2_mask := 0, tag_arg2_match := 0, tag_out_mask := 0, tag_out_match := 0,
    tag_out_tomodify := 0, tag_out_set := 0, priv_tomodify := 0, priv_set := 0,
    ignore_count := 0, action := 0 }

/-- A user-mode processor whose status register holds context id 1, with the
register tags and register values given and no memory tag set. -/
def user_proc (tags vals : Nat → Nat) : processor_t (Nat → Nat) :=
  { sr := 1 <<< 9, supervisor := false, XPR := vals, XPR_tag := tags, mem := fun _ => 0 }

/-- An engine out of benchmark mode with the default context 0 and one enforcing
context 1 holding the given entries. -/
def one_context (entries : List ptaxi_policy_context_t) : ptaxi_sim_t :=
  { states := [default_state,
      { is_enable := true, priv_bits := 0, lowest_sp_addr := 0, policy_contexts := entries }],
    benchmark_mode := false, counters := zero_counters }

/-- The instruction `ADDI x5, x6, 0`. -/
def addi_x5_x6_0 : insn_t :=
  { opcode := OPCODE_OPIMM, rm := 0, rs1 := 6, rs2 := 0, rd := 5, i_imm := 0, s_imm := 5 }

/-- The instruction `SB x7, 0(x6)`. -/
def sb_x7_0_x6 : insn_t :=
  { opcode := OPCODE_STORE, rm := 0, rs1 := 6, rs2 := 7, rd := 0, i_imm := 7, s_imm := 0 }

/-! ## Notions used by the statements -/

/-- The id that `get_ptaxi_context_id` starts from (lines 112-117): the benchmark
id, or the field of the status register. -/
def status_id {M : Type} (H : host_t M) (e : ptaxi_sim_t) (p : processor_t M) : Nat :=
  if e.benchmark_mode then PTAXI_DEBUG_MODE_CONTEXT_ID else (p.sr &&& H.SR_TAG) >>> SR_TAG_SHIFT

/-- The engine that `determine_ptaxi_action` leaves, whether it returns or throws. -/
def action_result.engine {M : Type} : action_result M → ptaxi_sim_t
  | .ok _ _ _ e _ => e
  | .trap _ e _ => e

/-- The processor that `determine_ptaxi_action` leaves, whether it returns or throws. -/
def action_result.proc {M : Type} : action_result M → processor_t M
  | .ok _ _ _ _ p => p
  | .trap _ _ p => p

/-- The policy records of a context in order, without their match counts. -/
def policy_records (s : ptaxi_context_state_t) : List ptaxi_policy_t :=
  s.policy_contexts.map (fun x => x.policy)

/-- Every context of `e` is still there in `e1`, at the same index, and stands in
the relation `Q` to what it was. -/
def contexts_kept (Q : Nat → ptaxi_context_state_t → ptaxi_context_state_t → Prop)
    (e e1 : ptaxi_sim_t) : Prop :=
  e.states.length ≤ e1.states.length ∧ ∀ i, i < e.states.length → Q i (state_at e i) (state_at e1 i)

/-- The entry that an iteration of the loop leaves: the one it found, with the
match count one higher when it matched. -/
def step_result.entry_after (entry : ptaxi_policy_context_t) :
    step_result → ptaxi_policy_context_t
  | .trap _ => entry
  | .no_match _ => entry
  | .ignored _ entry1 => entry1
  | .fired _ entry1 _ => entry1

/-- What the matcher may change in a context: `priv_bits` and the match counts of
the entries, nothing else. -/
def matcher_changed (s s1 : ptaxi_context_state_t) : Prop :=
  s1.is_enable = s.is_enable ∧ s1.lowest_sp_addr = s.lowest_sp_addr
    ∧ policy_records s1 = policy_records s

/-- The action that `determine_ptaxi_action` returns; `none` when it throws. -/
def action_result.returned {M : Type} : action_result M → Option Nat
  | .ok action _ _ _ _ => some action
  | .trap _ _ _ => none

/-- An engine whose context 0 has been given a set `is_enable` flag. -/
def context0_enabled : ptaxi_sim_t :=
  { states := [{ default_state with is_enable := true }], benchmark_mode := false,
    counters := zero_counters }

/-- A user-mode processor whose status register holds context id 0. -/
def zero_id_proc : processor_t (Nat → Nat) :=
  { sr := 0, supervisor := false, XPR := fun _ => 0, XPR_tag := fun _ => 3, mem := fun _ => 0 }

/-- The policy of scenario 2 of the spec: block a store whose source register
carries tag bit 0. -/
def block_tagged_store : ptaxi_policy_t :=
  { zero_policy with
    insn_type := 2, tag_arg1_mask := 1, tag_arg1_match := 1, action := 1 }

/-- A functional step that writes every register and returns. -/
def clobber_func : func_t (Nat → Nat) :=
  fun p => (some 4, { p with XPR := fun _ => 77, XPR_tag := fun _ => 9 })

/-- Register tags with tag 1 on x7 and no tag elsewhere. -/
def tagged_x7 : Nat → Nat := fun r => if r = 7 then 1 else 0

/-- The policies that fired during a call of `determine_ptaxi_action`, in list
order (none when the policy loop was not entered). -/
def action_result.fired {M : Type} : action_result M → List ptaxi_policy_t
  | .ok _ _ (some r) _ _ => r.fired
  | .ok _ _ none _ _ => []
  | .trap r _ _ => r.fired

/-- The tag obtained from `old` by applying `t -> (t & ~tag_out_tomodify) | tag_out_set`
once for each policy of the list, in order. -/
def apply_fired (old : Nat) (fired : List ptaxi_policy_t) : Nat :=
  fired.foldl (fun t q => mask_update t q.tag_out_tomodify q.tag_out_set) old

/-- How the loop variables for the destination tag stand to the tag `old` that
the destination had before matching and to the policies `F` fired so far. -/
def tag_out_inv (old : Nat) (v : loop_vars) (F : List ptaxi_policy_t) : Prop :=
  (v.is_load_tag_out = true → v.tag_out = old ∧ v.tag_out_updated = apply_fired old F)
    ∧ (v.is_load_tag_out = false → apply_fired old F = old)

/-- A policy for COPY instructions that sets bit 1 of the destination tag without
naming it in `tag_out_tomodify` or `tag_out_mask`. -/
def set_only_policy : ptaxi_policy_t :=
  { zero_policy with insn_type := 6, tag_out_set := 2 }

/-- The policy of scenario 3 of the spec: on a COPY whose source has tag 2, the
destination tag becomes 2. -/
def copy_policy : ptaxi_policy_t :=
  { zero_policy with
    insn_type := 6, tag_arg1_mask := 0xFF, tag_arg1_match := 2,
    tag_out_tomodify := 0xFF, tag_out_set := 2 }

/-- Register tags with tag 2 on x6 and no tag elsewhere. -/
def tagged_x6 : Nat → Nat := fun r => if r = 6 then 2 else 0

/-- The circumstances in which the loop body evaluates an entry: benchmark mode,
the processor, the instruction, and the loop variables on arrival at the
entry. -/
structure evaluation (M : Type) where
  bench : Bool
  p : processor_t M
  insn : insn_t
  v : loop_vars

/-- The iteration of the policy loop on `entry` in the circumstances `x`. -/
def evaluation.step {M : Type} (H : host_t M) (x : evaluation M)
    (entry : ptaxi_policy_context_t) : step_result :=
  policy_step H x.bench x.p x.insn (get_insn_type x.insn) x.v entry

/-- Whether the policy matches in the circumstances `x`: `match` is true at line
208. -/
def evaluation.matched {M : Type} (H : host_t M) (x : evaluation M)
    (policy : ptaxi_policy_t) : Bool :=
  match policy_match H x.bench x.p x.insn (get_insn_type x.insn) x.v policy with
  | .ok true _ => true
  | _ => false

/-- Whether an iteration ended with the entry firing. -/
def step_result.is_fired : step_result → Bool
  | .fired _ _ _ => true
  | _ => false

/-- The loop variables that an iteration of the loop body leaves. -/
def step_result.vars : step_result → loop_vars
  | .trap v => v
  | .no_match v => v
  | .ignored v _ => v
  | .fired v _ _ => v

/-- A policy for COPY instructions whose action has the BLOCK bit and the
DEBUG_LINE bit. -/
def block_and_debug : ptaxi_policy_t :=
  { zero_policy with insn_type := 6, action := 17 }

/-- A policy for COPY instructions with `priv_set = 1` and `priv_tomodify = 0`. -/
def priv_set_only : ptaxi_policy_t :=
  { zero_policy with insn_type := 6, priv_set := 1 }

/-- A policy for COPY instructions that clears the low four privilege bits and
sets bit 0. -/
def priv_policy : ptaxi_policy_t :=
  { zero_policy with insn_type := 6, priv_tomodify := 15, priv_set := 1 }

/-- The cached operand tags of the loop are the tags of the operands: a role
marked as loaded holds what reading that role returns. -/
def caches_ok {M : Type} (H : host_t M) (p : processor_t M) (insn : insn_t) (v : loop_vars) :
    Prop :=
  (v.is_load_tag_arg1 = true →
      get_or_set_tag H p insn (get_insn_type insn) .INSN_ARG1 false 0 = .ok (v.tag_arg1, p))
  ∧ (v.is_load_tag_arg2 = true →
      get_or_set_tag H p insn (get_insn_type insn) .INSN_ARG2 false 0 = .ok (v.tag_arg2, p))
  ∧ (v.is_load_tag_out = true →
      get_or_set_tag H p insn (get_insn_type insn) .INSN_OUT false 0 = .ok (v.tag_out, p))

/-- The matching rule in the words of claim C6: the kind is the policy's, and
every field whose mask is non-zero satisfies `(value & mask) == match`. -/
def matches_as_stated {M : Type} (H : host_t M) (p : processor_t M) (insn : insn_t)
    (priv_bits tag_arg1 tag_arg2 tag_out : Nat) (policy : ptaxi_policy_t) : Prop :=
  H.insn_type_code (get_insn_type insn) = policy.insn_type
  ∧ (policy.rs1_mask ≠ 0 → insn.rs1 &&& policy.rs1_mask = policy.rs1_match)
  ∧ (policy.rs2_mask ≠ 0 → insn.rs2 &&& policy.rs2_mask = policy.rs2_match)
  ∧ (policy.priv_mask ≠ 0 → priv_bits &&& policy.priv_mask = policy.priv_match)
  ∧ (policy.rs1val_mask ≠ 0 → p.XPR insn.rs1 &&& policy.rs1val_mask = policy.rs1val_match)
  ∧ (policy.rs2val_mask ≠ 0 → p.XPR insn.rs2 &&& policy.rs2val_mask = policy.rs2val_match)
  ∧ (policy.tag_arg1_mask ≠ 0 → tag_arg1 &&& policy.tag_arg1_mask = policy.tag_arg1_match)
  ∧ (policy.tag_arg2_mask ≠ 0 → tag_arg2 &&& policy.tag_arg2_mask = policy.tag_arg2_match)
  ∧ (policy.tag_out_mask ≠ 0 → tag_out &&& policy.tag_out_mask = policy.tag_out_match)

/-- The matching rule as amended: as `matches_as_stated`, but the `tag_out` field
is compared whenever `tag_out_mask` or `tag_out_tomodify` is non-zero. -/
def matches_amended {M : Type} (H : host_t M) (p : processor_t M) (insn : insn_t)
    (priv_bits tag_arg1 tag_arg2 tag_out : Nat) (policy : ptaxi_policy_t) : Prop :=
  H.insn_type_code (get_insn_type insn) = policy.insn_type
  ∧ (policy.rs1_mask ≠ 0 → insn.rs1 &&& policy.rs1_mask = policy.rs1_match)
  ∧ (policy.rs2_mask ≠ 0 → insn.rs2 &&& policy.rs2_mask = policy.rs2_match)
  ∧ (policy.priv_mask ≠ 0 → priv_bits &&& policy.priv_mask = policy.priv_match)
  ∧ (policy.rs1val_mask ≠ 0 → p.XPR insn.rs1 &&& policy.rs1val_mask = policy.rs1val_match)
  ∧ (policy.rs2val_mask ≠ 0 → p.XPR insn.rs2 &&& policy.rs2val_mask = policy.rs2val_match)
  ∧ (policy.tag_arg1_mask ≠ 0 → tag_arg1 &&& policy.tag_arg1_mask = policy.tag_arg1_match)
  ∧ (policy.tag_arg2_mask ≠ 0 → tag_arg2 &&& policy.tag_arg2_mask = policy.tag_arg2_match)
  ∧ (policy.tag_out_mask ≠ 0 ∨ policy.tag_out_tomodify ≠ 0 →
      tag_out &&& policy.tag_out_mask = policy.tag_out_match)

/-- A policy for COPY instructions with a zero `tag_out_mask`, a non-zero
`tag_out_match` and a non-zero `tag_out_tomodify`. -/
def unmasked_out_policy : ptaxi_policy_t :=
  { zero_policy with insn_type := 6, tag_out_match := 1, tag_out_tomodify := 1 }

/-- What `execute_insn` may change in a context: `priv_bits`, `lowest_sp_addr` and
the match counts of the entries; not `is_enable`, not the policy records. -/
def exec_changed (s s1 : ptaxi_context_state_t) : Prop :=
  s1.is_enable = s.is_enable ∧ policy_records s1 = policy_records s

/-- The engine that `execute_insn` leaves, whether it returns or throws; `none`
while it is still running. -/
def exec_result.engine {M : Type} : exec_result M → Option ptaxi_sim_t
  | .retired _ e _ => some e
  | .trap_tag_violation e _ => some e
  | .trap_func e _ => some e
  | .running => none

/-- The engine after `n` calls of `run_tag_command(1)` on a fresh engine, each
made while the status register holds context id 0 (as for a new process), so that
each call allocates a context. -/
def fill_store : Nat → ptaxi_sim_t
  | 0 => ptaxi_sim_new false zero_counters
  | n + 1 => (run_tag_command spec_host (fill_store n) zero_id_proc 1).1

/-- The engine after 127 allocations and then `run_tag_command(0)`, again with
context id 0 in the status register. -/
def full_store_enabled : ptaxi_sim_t :=
  (run_tag_command spec_host (fill_store 127) zero_id_proc 0).1

/-- The policy of scenario 4 of the spec: `copy_policy` with `ignore_count = 2`. -/
def ignore2_policy : ptaxi_policy_t :=
  { copy_policy with ignore_count := 2 }

/-- Scenario 4 on the engine: the engine and the processor after the matcher has
run `n` times on `ADDI x5, x6, 0`, starting with `ignore2_policy` freshly
installed in context 1, tag 2 on x6 and no tag on x5. -/
def repeat_matcher : Nat → ptaxi_sim_t × processor_t (Nat → Nat)
  | 0 => (one_context [⟨ignore2_policy, 0⟩], user_proc tagged_x6 (fun _ => 0))
  | n + 1 =>
    ((determine_ptaxi_action spec_host (repeat_matcher n).1 (repeat_matcher n).2
        addi_x5_x6_0).engine,
     (determine_ptaxi_action spec_host (repeat_matcher n).1 (repeat_matcher n).2
        addi_x5_x6_0).proc)

/-! ## The tables of the specification -/

/-- The classifier as the specification tabulates it, by the value of the 7-bit
opcode: a function of the opcode, the width sub-code, the I-immediate, `rs1` and
`rd`. -/
def insn_type_table (opcode rm : Nat) (i_imm : Int) (rs1 rd : Nat) : ptaxi_insn_type_t :=
  match opcode with
  | 0x03 => if rm = 3 then .PTAXI_INSN_TYPE_LOAD64 else .PTAXI_INSN_TYPE_LOAD
  | 0x23 => if rm = 3 then .PTAXI_INSN_TYPE_STORE64 else .PTAXI_INSN_TYPE_STORE
  | 0x33 => .PTAXI_INSN_TYPE_OP
  | 0x13 => if rm = 0 ∧ i_imm = 0 then .PTAXI_INSN_TYPE_COPY else .PTAXI_INSN_TYPE_OPIMM
  | 0x6F => .PTAXI_INSN_TYPE_JAL
  | 0x67 =>
    if i_imm = 0 ∧ rs1 = 1 ∧ rm = 0 ∧ rd = 0 then .PTAXI_INSN_TYPE_RETURN
    else .PTAXI_INSN_TYPE_JALR
  | 0x0B => .PTAXI_INSN_TYPE_TAGCMD
  | 0x2B => .PTAXI_INSN_TYPE_TAGPOLICY
  | _ => .PTAXI_INSN_TYPE_UNKNOWN

/-- Whether an instruction kind is one of the two load kinds. -/
def ptaxi_insn_type_t.is_load : ptaxi_insn_type_t → Bool
  | .PTAXI_INSN_TYPE_LOAD => true
  | .PTAXI_INSN_TYPE_LOAD64 => true
  | _ => false

/-- Whether an instruction kind is one of the two store kinds. -/
def ptaxi_insn_type_t.is_store : ptaxi_insn_type_t → Bool
  | .PTAXI_INSN_TYPE_STORE => true
  | .PTAXI_INSN_TYPE_STORE64 => true
  | _ => false

/-- Whether an instruction kind is JALR or RETURN. -/
def ptaxi_insn_type_t.is_jalr : ptaxi_insn_type_t → Bool
  | .PTAXI_INSN_TYPE_JALR => true
  | .PTAXI_INSN_TYPE_RETURN => true
  | _ => false

/-- Whether an instruction kind has no operand at all: TAGPOLICY and UNKNOWN. -/
def ptaxi_insn_type_t.no_operand : ptaxi_insn_type_t → Bool
  | .PTAXI_INSN_TYPE_TAGPOLICY => true
  | .PTAXI_INSN_TYPE_UNKNOWN => true
  | _ => false

/-- The operand table of the specification, read role by role; `rs1val` is the
value of register `rs1`, and clearing bit 0 of an address is written `2 * (a / 2)`. -/
def operand_table (rs1val : Nat) (insn : insn_t) (insn_type : ptaxi_insn_type_t) :
    insn_var_type_t → operand_t
  | .INSN_ARG1 =>
    if insn_type.is_load then .mem (add_imm rs1val insn.i_imm)
    else if insn_type.is_store then .reg insn.rs2
    else if insn_type = .PTAXI_INSN_TYPE_JAL ∨ insn_type.no_operand then .invalid
    else .reg insn.rs1
  | .INSN_ARG2 =>
    if insn_type = .PTAXI_INSN_TYPE_OP ∨ insn_type = .PTAXI_INSN_TYPE_TAGCMD then .reg insn.rs2
    else if insn_type.is_jalr then .mem (2 * (add_imm rs1val insn.i_imm / 2))
    else .invalid
  | .INSN_OUT =>
    if insn_type.is_store then .mem (add_imm rs1val insn.s_imm)
    else if insn_type.no_operand then .invalid
    else .reg insn.rd

/-- Whether a call that may throw `trap_tag_violation` threw. -/
def tag_result.trapped {α : Type} : tag_result α → Bool
  | .ok _ => false
  | .trap => true

/-- The value a call returned, when it did not throw. -/
def tag_result.value {α : Type} : tag_result α → Option α
  | .ok a => some a
  | .trap => none

/-- The instruction `ADDI x0, x6, 0`, whose destination is the zero register. -/
def addi_x0_x6_0 : insn_t :=
  { opcode := OPCODE_OPIMM, rm := 0, rs1 := 6, rs2 := 0, rd := 0, i_imm := 0, s_imm := 0 }

/-- A store-opcode instruction with width sub-code 5, base x6 and source x7. -/
def store_width5 : insn_t :=
  { opcode := OPCODE_STORE, rm := 5, rs1 := 6, rs2 := 7, rd := 0, i_imm := 7, s_imm := 0 }

/-- The instruction `JALR x1, 8(x6)`. -/
def jalr_x1_8_x6 : insn_t :=
  { opcode := OPCODE_JALR, rm := 0, rs1 := 6, rs2 := 8, rd := 1, i_imm := 8, s_imm := 1 }

/-- The instruction `LUI x5, 0`; its opcode is none of those the classifier
names. -/
def lui_x5 : insn_t :=
  { opcode := 0b0110111, rm := 0, rs1 := 0, rs2 := 0, rd := 5, i_imm := 0, s_imm := 5 }

/-- A policy whose `insn_type` is the code of the kind UNKNOWN: it sets privilege
bit 0 and its action is GETTAG. -/
def unknown_kind_policy : ptaxi_policy_t :=
  { zero_policy with insn_type := 12, priv_tomodify := 1, priv_set := 1, action := 4 }

/-- A policy whose `insn_type` is the code of the kind UNKNOWN and which compares
the tag of the first operand. -/
def unknown_kind_tag_policy : ptaxi_policy_t :=
  { zero_policy with insn_type := 12, tag_arg1_mask := 1 }

/-- Lines 252-319 of `execute_insn`, what the function does before it calls the
functional step: either it is left early (the outcome is the error), or the
functional step is called; then the result is the matcher's action, the engine,
and the processor handed to the functional step. -/
def before_func {M : Type} (H : host_t M) (fuel : Nat) (e : ptaxi_sim_t) (p : processor_t M)
    (insn : insn_t) : Except (exec_result M) (Nat × ptaxi_sim_t × processor_t M) :=
  let insn_type := get_insn_type insn
  let before_tag_val :=
    if insn_type = .PTAXI_INSN_TYPE_TAGCMD ∧ insn.rd ≠ 0 then p.XPR_tag insn.rs2 else 0
  match determine_ptaxi_action H e p insn with
  | .trap _ e1 p1 => .error (.trap_tag_violation e1 p1)
  | .ok action _ _ e1 p1 =>
    match action_debug_block H e1 p1 action with
    | (true, e2, p2) => .error (.trap_tag_violation e2 p2)
    | (false, e2, p2) =>
      match action_gc H fuel e2 p2 action with
      | none => .error .running
      | some (e3, p3) =>
        .ok (action, e3, action_gettag H p3 insn insn_type action before_tag_val)

/-- Lines 321-337 of `execute_insn`: the functional step on the processor `q` and
the watermark update after it. -/
def after_func {M : Type} (H : host_t M) (e3 : ptaxi_sim_t) (q : processor_t M)
    (insn : insn_t) (func : func_t M) : exec_result M :=
  match func q with
  | (none, p4) => .trap_func e3 p4
  | (some res, p4) =>
    match track_sp H e3 p4 insn with
    | (e5, p5) => .retired res e5 p5

/-- The processor an `execute_insn` call leaves, whether it returns or throws. -/
def exec_result.proc {M : Type} : exec_result M → Option (processor_t M)
  | .retired _ _ p => some p
  | .trap_tag_violation _ p => some p
  | .trap_func _ p => some p
  | .running => none

/-- Whether an `execute_insn` call returned (the instruction retired). -/
def exec_result.is_retired {M : Type} : exec_result M → Bool
  | .retired _ _ _ => true
  | _ => false

/-- The instruction `TAGCMD x9, x9`: a tag command with `rd = rs2 = x9`. -/
def tagcmd_x9_x9 : insn_t :=
  { opcode := OPCODE_TAGCMD, rm := 0, rs1 := 0, rs2 := 9, rd := 9, i_imm := 0, s_imm := 0 }

/-- A policy for TAGCMD instructions that clears the destination tag and whose
action is GETTAG. -/
def gettag_policy : ptaxi_policy_t :=
  { zero_policy with insn_type := 10, tag_out_tomodify := 0xFF, action := 4 }

/-- Register tags with tag 3 on x9 and no tag elsewhere. -/
def tagged_x9 : Nat → Nat := fun r => if r = 9 then 3 else 0

/-- A functional step that changes nothing and returns 0. -/
def skip_func : func_t (Nat → Nat) := fun p => (some 0, p)

/-- The instruction `ADDI x2, x2, -16`, which moves the stack pointer. -/
def addi_sp_m16 : insn_t :=
  { opcode := OPCODE_OPIMM, rm := 0, rs1 := 2, rs2 := 0, rd := 2, i_imm := -16, s_imm := 0 }

/-- The functional step of `ADDI x2, x2, -16`. -/
def addi_sp_m16_func : func_t (Nat → Nat) :=
  fun p => (some 0, { p with XPR := Function.update p.XPR 2 (add_imm (p.XPR 2) (-16)) })

/-- An engine out of benchmark mode with the default context 0 and one enforcing
context 1 without policies whose watermark is `lowest`. -/
def watermark_context (lowest : Nat) : ptaxi_sim_t :=
  { states := [default_state,
      { is_enable := true, priv_bits := 0, lowest_sp_addr := lowest, policy_contexts := [] }],
    benchmark_mode := false, counters := zero_counters }

/-- The watermark that context `i` has in `e`, or starts with when the store does
not hold it yet (a context added by `get_ptaxi_context_id` is a copy of context
0). -/
def lowest_before (e : ptaxi_sim_t) (i : Nat) : Nat :=
  (if i < e.states.length then state_at e i else state_at e 0).lowest_sp_addr

/-- Between `e` and `e1` the store has at most grown by copies of context 0, and
no watermark has changed. -/
def lowest_kept (e e1 : ptaxi_sim_t) : Prop :=
  e.states.length ≤ e1.states.length ∧ e1.benchmark_mode = e.benchmark_mode
    ∧ ∀ i, i < e1.states.length → (state_at e1 i).lowest_sp_addr = lowest_before e i

/-- The addresses the specification has the GC action clear, for the watermark
`lowest` and the stack pointer `cur_sp`: from `lowest - 8` in steps of 8, as long
as they are below `cur_sp - 8` (64-bit values). -/
def scrub_addresses (lowest cur_sp : Nat) : List Nat :=
  (List.range (((cur_sp + WORD - 8) % WORD - (lowest + WORD - 8) % WORD + 7) / 8)).map
    (fun k => (lowest + WORD - 8) % WORD + 8 * k)

/-- The tag memory after the 64-bit tag was set to 0 at each address of the list,
in order. -/
def clear_tags {M : Type} (H : host_t M) (m : M) (addrs : List Nat) : M :=
  addrs.foldl (fun m1 addr => H.store_tagged_uint64 m1 addr 0 0) m

/-- A policy for COPY instructions whose action is GC. -/
def gc_policy : ptaxi_policy_t :=
  { zero_policy with insn_type := 6, action := 8 }

/-- An engine out of benchmark mode with the default context 0 and one enforcing
context 1 that holds `gc_policy` and whose watermark is `lowest`. -/
def gc_context (lowest : Nat) : ptaxi_sim_t :=
  { states := [default_state,
      { is_enable := true, priv_bits := 0, lowest_sp_addr := lowest,
        policy_contexts := [⟨gc_policy, 0⟩] }],
    benchmark_mode := false, counters := zero_counters }

/-! ## The tag reads of the matcher -/

/-- Whether a policy refers to the tag of a role: the guards of lines 175, 185
and 196. -/
def ptaxi_policy_t.references (policy : ptaxi_policy_t) : insn_var_type_t → Bool
  | .INSN_ARG1 => decide (policy.tag_arg1_mask ≠ 0)
  | .INSN_ARG2 => decide (policy.tag_arg2_mask ≠ 0)
  | .INSN_OUT => decide (policy.tag_out_mask ≠ 0 ∨ policy.tag_out_tomodify ≠ 0)

/-- The flag `is_load_tag_*` of a role. -/
def loop_vars.is_load (v : loop_vars) : insn_var_type_t → Bool
  | .INSN_ARG1 => v.is_load_tag_arg1
  | .INSN_ARG2 => v.is_load_tag_arg2
  | .INSN_OUT => v.is_load_tag_out

/-- The call `get_or_set_tag(p, insn, role, false, 0)` that one of the three tag
predicates makes for its role (lines 178, 188 and 199), as a list: the role when
the predicate is reached with `match` true, the policy refers to the role and the
flag of the role is not set yet; nothing otherwise. -/
def tag_reads (policy : ptaxi_policy_t) (m : Bool) (v : loop_vars) (role : insn_var_type_t) :
    List insn_var_type_t :=
  if m ∧ policy.references role = true then
    if v.is_load role then [] else [role]
  else []

/-- The loop variables a group of predicates leaves, thrown or not. -/
def match_result.vars : match_result → loop_vars
  | .ok _ v => v
  | .trap v => v

/-- The calls `get_or_set_tag(.., false, 0)` made while one entry is evaluated
(lines 155-206), in order: those of the `tag_arg1` predicate, then, unless that
one threw, those of `tag_arg2`, then those of `tag_out`. -/
def policy_match_reads {M : Type} (H : host_t M) (bench : Bool) (p : processor_t M)
    (insn : insn_t) (insn_type : ptaxi_insn_type_t) (v : loop_vars) (policy : ptaxi_policy_t) :
    List insn_var_type_t :=
  tag_reads policy (match_fields H p insn insn_type v.priv_bits policy) v .INSN_ARG1
    ++ match match_tag_arg1 H bench p insn insn_type policy
        (match_fields H p insn insn_type v.priv_bits policy) v with
      | .trap _ => []
      | .ok m1 v1 =>
        tag_reads policy m1 v1 .INSN_ARG2
          ++ match match_tag_arg2 H bench p insn insn_type policy m1 v1 with
            | .trap _ => []
            | .ok m2 v2 => tag_reads policy m2 v2 .INSN_OUT

/-- Whether the loop goes on after an iteration, and with which loop variables. -/
def step_result.next : step_result → Option loop_vars
  | .trap _ => none
  | .no_match v1 => some v1
  | .ignored v1 _ => some v1
  | .fired v1 _ brk => if brk then none else some v1

/-- The calls `get_or_set_tag(.., false, 0)` made during the policy loop, in
order. -/
def policy_loop_reads {M : Type} (H : host_t M) (bench : Bool) (p : processor_t M)
    (insn : insn_t) (insn_type : ptaxi_insn_type_t) :
    List ptaxi_policy_context_t → loop_vars → List insn_var_type_t
  | [], _ => []
  | entry :: rest, v =>
    policy_match_reads H bench p insn insn_type v entry.policy
      ++ match (policy_step H bench p insn insn_type v entry).next with
        | none => []
        | some v1 => policy_loop_reads H bench p insn insn_type rest v1

/-- The calls `get_or_set_tag(.., false, 0)` made during a call of
`determine_ptaxi_action`, in order: none when the context does not enforce,
those of the policy loop otherwise. -/
def determine_reads {M : Type} (H : host_t M) (e : ptaxi_sim_t) (p : processor_t M)
    (insn : insn_t) : List insn_var_type_t :=
  match get_ptaxi_context_id H e p false with
  | (context_id, e0, p0) =>
    if context_id = 0 ∨ (state_at e0 context_id).is_enable = false ∨ p0.supervisor = true then []
    else
      policy_loop_reads H e0.benchmark_mode p0 insn (get_insn_type insn)
        (state_at e0 context_id).policy_contexts
        (loop_init (state_at e0 context_id).priv_bits e0.counters.tag_read)

/-- The result of the policy loop, when `determine_ptaxi_action` entered it. -/
def action_result.detail {M : Type} : action_result M → Option loop_result
  | .ok _ _ d _ _ => d
  | .trap r _ _ => some r

/-- A policy for JAL instructions that compares the tag of the destination. -/
def jal_out_policy : ptaxi_policy_t :=
  { zero_policy with insn_type := 7, tag_out_mask := 1 }

/-- The instruction `JAL x1, 0`. -/
def jal_x1 : insn_t :=
  { opcode := OPCODE_JAL, rm := 0, rs1 := 0, rs2 := 0, rd := 1, i_imm := 0, s_imm := 1 }

/-! ## The indexings of the context store -/

/-- One indexing `states[index]` of the context store, with `states.size()` at
the time. -/
structure store_access where
  index : Nat
  size : Nat
  deriving DecidableEq, Repr

/-- The indexings made by the loop of lines 127-129 of `get_ptaxi_context_id`:
every `push_back(states[0])` reads `states[0]`, the first at the size the call
found, each next one at a size one larger. -/
def get_ptaxi_context_id_accesses {M : Type} (H : host_t M) (e : ptaxi_sim_t)
    (p : processor_t M) (add_if_needed : Bool) : List store_access :=
  (List.range ((get_ptaxi_context_id H e p add_if_needed).2.1.states.length
      - e.states.length)).map (fun k => { index := 0, size := e.states.length + k })

/-- The indexings made by `print_policies(context_id)` (lines 340-349): it reads
`states[context_id]` several times while the store stays as it is; one entry
stands for them. -/
def print_policies_accesses (e : ptaxi_sim_t) (context_id : Nat) : List store_access :=
  [{ index := context_id, size := e.states.length }]

/-- The indexings made by `determine_ptaxi_action`: those of
`get_ptaxi_context_id`, then `states[context_id]` at line 143 unless the id is 0
(the later ones have the same index, and the store has the same size). -/
def determine_accesses {M : Type} (H : host_t M) (e : ptaxi_sim_t) (p : processor_t M) :
    List store_access :=
  get_ptaxi_context_id_accesses H e p false
    ++ match get_ptaxi_context_id H e p false with
      | (context_id, e0, _) =>
        if context_id = 0 then [] else [{ index := context_id, size := e0.states.length }]

/-- The indexings made by lines 264-289 of `execute_insn`. -/
def action_debug_block_accesses {M : Type} (H : host_t M) (e : ptaxi_sim_t) (p : processor_t M)
    (action : Nat) : List store_access :=
  if e.benchmark_mode then []
  else
    let detail : Bool := decide (action &&& H.PTAXI_ACTION_DEBUG_DETAIL ≠ 0)
    let ep : ptaxi_sim_t × processor_t M :=
      if detail then (get_ptaxi_context_id H e p true).2 else (e, p)
    (if detail then
        get_ptaxi_context_id_accesses H e p true
          ++ print_policies_accesses ep.1 (get_ptaxi_context_id H e p true).1
      else [])
    ++ (if action &&& H.PTAXI_ACTION_BLOCK ≠ 0 then
        get_ptaxi_context_id_accesses H ep.1 ep.2 true
          ++ print_policies_accesses (get_ptaxi_context_id H ep.1 ep.2 true).2.1
              (get_ptaxi_context_id H ep.1 ep.2 true).1
      else [])

/-- The indexings made by lines 291-308 of `execute_insn`: line 294 reads
`states[context_id]` (line 307 has the same index and size). -/
def action_gc_accesses {M : Type} (H : host_t M) (e : ptaxi_sim_t) (p : processor_t M)
    (action : Nat) : List store_access :=
  if action &&& H.PTAXI_ACTION_GC ≠ 0 then
    get_ptaxi_context_id_accesses H e p false
      ++ [{ index := (get_ptaxi_context_id H e p false).1,
            size := (get_ptaxi_context_id H e p false).2.1.states.length }]
  else []

/-- The indexings made by lines 323-335 of `execute_insn`. -/
def track_sp_accesses {M : Type} (H : host_t M) (e : ptaxi_sim_t) (p : processor_t M)
    (insn : insn_t) : List store_access :=
  if insn.rd = REG_SP ∧ p.supervisor = false then
    get_ptaxi_context_id_accesses H e p false
      ++ (if (get_ptaxi_context_id H e p false).1 ≠ 0 then
          [{ index := (get_ptaxi_context_id H e p false).1,
             size := (get_ptaxi_context_id H e p false).2.1.states.length }]
        else [])
  else []

/-- The indexings made by a call of `execute_insn`, stage by stage along the path
the call takes. -/
def execute_insn_accesses {M : Type} (H : host_t M) (fuel : Nat) (e : ptaxi_sim_t)
    (p : processor_t M) (insn : insn_t) (func : func_t M) : List store_access :=
  let insn_type := get_insn_type insn
  let before_tag_val :=
    if insn_type = .PTAXI_INSN_TYPE_TAGCMD ∧ insn.rd ≠ 0 then p.XPR_tag insn.rs2 else 0
  determine_accesses H e p
    ++ match determine_ptaxi_action H e p insn with
      | .trap _ _ _ => []
      | .ok action _ _ e1 p1 =>
        action_debug_block_accesses H e1 p1 action
          ++ match action_debug_block H e1 p1 action with
            | (true, _, _) => []
            | (false, e2, p2) =>
              action_gc_accesses H e2 p2 action
                ++ match action_gc H fuel e2 p2 action with
                  | none => []
                  | some (e3, p3) =>
                    match func (action_gettag H p3 insn insn_type action before_tag_val) with
                    | (none, _) => []
                    | (some _, p4) => track_sp_accesses H e3 p4 insn

/-- The indexings made by `add_policy`: line 361. -/
def add_policy_accesses {M : Type} (H : host_t M) (e : ptaxi_sim_t) (p : processor_t M) :
    List store_access :=
  get_ptaxi_context_id_accesses H e p true
    ++ [{ index := (get_ptaxi_context_id H e p true).1,
          size := (get_ptaxi_context_id H e p true).2.1.states.length }]

/-- The indexings made by `run_tag_command`: line 368 when `cmd == 0`, and the
`print_policies(context_id)` of line 373 (`PTAXI_VERBOSE` is defined). -/
def run_tag_command_accesses {M : Type} (H : host_t M) (e : ptaxi_sim_t) (p : processor_t M)
    (cmd : Nat) : List store_access :=
  get_ptaxi_context_id_accesses H e p true
    ++ (if cmd = 0 then
          [{ index := (get_ptaxi_context_id H e p true).1,
             size := (get_ptaxi_context_id H e p true).2.1.states.length }]
        else [])
    ++ print_policies_accesses (get_ptaxi_context_id H e p true).2.1
        (get_ptaxi_context_id H e p true).1

/-- The indexings made by `stop_benchmark`: in benchmark mode line 547 calls
`print_policies(PTAXI_DEBUG_MODE_CONTEXT_ID)` on the store as it is. -/
def stop_benchmark_accesses (e : ptaxi_sim_t) : List store_access :=
  if e.benchmark_mode = false then []
  else print_policies_accesses e PTAXI_DEBUG_MODE_CONTEXT_ID

/-- The indexings of the context store made by a call of a verb. -/
def engine_op.accesses {M : Type} (H : host_t M) (e : ptaxi_sim_t) (p : processor_t M) :
    engine_op M → List store_access
  | .execute_insn fuel insn func => execute_insn_accesses H fuel e p insn func
  | .add_policy _ _ _ => add_policy_accesses H e p
  | .run_tag_command cmd => run_tag_command_accesses H e p cmd
  | .start_benchmark => []
  | .stop_benchmark => stop_benchmark_accesses e

/-- A fresh engine on which `start_benchmark` has been called. -/
def benchmark_started : ptaxi_sim_t :=
  start_benchmark (ptaxi_sim_new false zero_counters)

theorem getD_set_eq {α : Type} (l : List α) (i j : Nat) (a d : α) :
    (l.set i a).getD j d = if i = j ∧ i < l.length then a else l.getD j d := by
  simp only [List.getD_eq_getElem?_getD, List.getElem?_set]
  by_cases h1 : i = j
  · by_cases h2 : i < l.length
    · subst h1
      simp [h2]
    · subst h1
      have : l[i]? = none := List.getElem?_eq_none (by omega)
      simp [h2, this]
  · simp [h1]

theorem state_at_set_state (e : ptaxi_sim_t) (c i : Nat) (s : ptaxi_context_state_t) :
    state_at (set_state e c s) i = if c = i ∧ c < e.states.length then s else state_at e i := by
  simp only [state_at, set_state, getD_set_eq]

theorem length_set_state (e : ptaxi_sim_t) (c : Nat) (s : ptaxi_context_state_t) :
    (set_state e c s).states.length = e.states.length := by
  simp [set_state]

theorem length_grow_states (l : List ptaxi_context_state_t) (c : Nat) :
    (grow_states l c).length = max l.length (c + 1) := by
  simp only [grow_states, List.length_append, List.length_replicate]
  omega

theorem getD_grow_states (l : List ptaxi_context_state_t) (c i : Nat) (h : i < l.length) :
    (grow_states l c).getD i default_state = l.getD i default_state := by
  simp only [grow_states]
  exact List.getD_append _ _ _ _ h

theorem getD_grow_states_new (l : List ptaxi_context_state_t) (c i : Nat) (h : l.length ≤ i)
    (hi : i ≤ c) :
    (grow_states l c).getD i default_state = l.getD 0 default_state := by
  simp only [grow_states]
  rw [List.getD_append_right _ _ _ _ h, List.getD_eq_getElem?_getD, List.getElem?_replicate]
  have : i - l.length < c + 1 - l.length := by omega
  simp [this]

theorem get_ptaxi_context_id_false {M : Type} (H : host_t M) (e : ptaxi_sim_t)
    (p : processor_t M) :
    get_ptaxi_context_id H e p false
      = (status_id H e p, { e with states := grow_states e.states (status_id H e p) }, p) := by
  simp [get_ptaxi_context_id, status_id]

theorem get_ptaxi_context_id_true {M : Type} (H : host_t M) (e : ptaxi_sim_t)
    (p : processor_t M) :
    get_ptaxi_context_id H e p true
      = if status_id H e p = 0 then
          if e.states.length ≥ 128 then (0, e, p)
          else (e.states.length, { e with states := grow_states e.states e.states.length },
            { p with sr := p.sr ||| (e.states.length <<< SR_TAG_SHIFT) })
        else (status_id H e p, { e with states := grow_states e.states (status_id H e p) }, p) := by
  simp only [get_ptaxi_context_id, status_id]
  split_ifs <;> simp_all

/-- Whatever the flag, the call keeps the contexts and appends copies of context 0. -/
theorem get_ptaxi_context_id_states {M : Type} (H : host_t M) (e : ptaxi_sim_t)
    (p : processor_t M) (b : Bool) :
    ∃ k, (get_ptaxi_context_id H e p b).2.1
      = { e with states := e.states ++ List.replicate k (state_at e 0) } := by
  cases b
  · rw [get_ptaxi_context_id_false]; exact ⟨_, rfl⟩
  · rw [get_ptaxi_context_id_true]
    split_ifs
    · exact ⟨0, by simp⟩
    · exact ⟨_, rfl⟩
    · exact ⟨_, rfl⟩

theorem get_ptaxi_context_id_lt {M : Type} (H : host_t M) (e : ptaxi_sim_t)
    (p : processor_t M) (b : Bool) :
    (get_ptaxi_context_id H e p b).1 < (get_ptaxi_context_id H e p b).2.1.states.length := by
  cases b
  · rw [get_ptaxi_context_id_false]; simp only [length_grow_states]; omega
  · rw [get_ptaxi_context_id_true]
    split_ifs
    · simp only; omega
    · simp only [length_grow_states]; omega
    · simp only [length_grow_states]; omega


/-! ## Facts about the matcher -/

theorem policy_loop_nil {M : Type} (H : host_t M) (bench : Bool) (p : processor_t M)
    (insn : insn_t) (ty : ptaxi_insn_type_t) (v : loop_vars) (i : Nat) :
    policy_loop H bench p insn ty [] v i
      = { vars := v, entries := [], fired := [], i := i, trapped := false } := by
  rw [policy_loop]

theorem policy_loop_cons {M : Type} (H : host_t M) (bench : Bool) (p : processor_t M)
    (insn : insn_t) (ty : ptaxi_insn_type_t) (v : loop_vars) (i : Nat)
    (entry : ptaxi_policy_context_t) (rest : List ptaxi_policy_context_t) :
    policy_loop H bench p insn ty (entry :: rest) v i
      = loop_continue entry rest i (fun v1 => policy_loop H bench p insn ty rest v1 (i + 1))
          (policy_step H bench p insn ty v entry) := by
  rw [policy_loop]

theorem determine_ptaxi_action_eq {M : Type} (H : host_t M) (e : ptaxi_sim_t) (p : processor_t M)
    (insn : insn_t) :
    determine_ptaxi_action H e p insn
      = if status_id H e p = 0
            ∨ (state_at { e with states := grow_states e.states (status_id H e p) }
                (status_id H e p)).is_enable = false
            ∨ p.supervisor = true then
          .ok 0 (-2) none { e with states := grow_states e.states (status_id H e p) } p
        else determine_enforcing H { e with states := grow_states e.states (status_id H e p) } p
          (status_id H e p) insn := by
  simp only [determine_ptaxi_action, get_ptaxi_context_id_false]

theorem policy_step_policy {M : Type} (H : host_t M) (bench : Bool) (p : processor_t M)
    (insn : insn_t) (ty : ptaxi_insn_type_t) (v : loop_vars) (entry : ptaxi_policy_context_t) :
    ((policy_step H bench p insn ty v entry).entry_after entry).policy = entry.policy := by
  unfold policy_step
  cases policy_match H bench p insn ty v entry.policy with
  | trap v1 => rfl
  | ok m v1 =>
    cases m
    · rfl
    · simp only []
      split_ifs <;> rfl

theorem loop_continue_records (entry : ptaxi_policy_context_t)
    (rest : List ptaxi_policy_context_t) (i : Nat) (next : loop_vars → loop_result)
    (s : step_result)
    (hnext : ∀ v, (next v).entries.map (fun x => x.policy) = rest.map (fun x => x.policy)) :
    (loop_continue entry rest i next s).entries.map (fun x => x.policy)
      = (s.entry_after entry).policy :: rest.map (fun x => x.policy) := by
  cases s with
  | trap v1 => simp [loop_continue, step_result.entry_after]
  | no_match v1 => simp [loop_continue, step_result.entry_after, loop_result.cons, hnext]
  | ignored v1 entry1 => simp [loop_continue, step_result.entry_after, loop_result.cons, hnext]
  | fired v1 entry1 b =>
    cases b <;> simp [loop_continue, step_result.entry_after, loop_result.cons, hnext]

theorem policy_loop_records {M : Type} (H : host_t M) (bench : Bool) (p : processor_t M)
    (insn : insn_t) (ty : ptaxi_insn_type_t) (l : List ptaxi_policy_context_t) :
    ∀ (v : loop_vars) (i : Nat),
      (policy_loop H bench p insn ty l v i).entries.map (fun x => x.policy)
        = l.map (fun x => x.policy) := by
  induction l with
  | nil => intro v i; rw [policy_loop_nil]
  | cons entry rest ih =>
    intro v i
    rw [policy_loop_cons, loop_continue_records _ _ _ _ _ (fun v1 => ih v1 (i + 1)),
      policy_step_policy]
    rfl

theorem determine_finish_engine {M : Type} (H : host_t M) (e0 : ptaxi_sim_t)
    (p0 : processor_t M) (c : Nat) (insn : insn_t) (r : loop_result) :
    (determine_finish H e0 p0 c insn r).engine.states
        = e0.states.set c
          { state_at e0 c with priv_bits := r.vars.priv_bits, policy_contexts := r.entries }
      ∧ (determine_finish H e0 p0 c insn r).engine.benchmark_mode = e0.benchmark_mode := by
  unfold determine_finish
  simp only []
  split_ifs with h1 h2 h3 h3
  · exact ⟨rfl, rfl⟩
  · cases get_or_set_tag H p0 insn (get_insn_type insn) insn_var_type_t.INSN_OUT true
      r.vars.tag_out_updated with
    | trap => exact ⟨rfl, rfl⟩
    | ok a => exact ⟨rfl, rfl⟩
  · cases get_or_set_tag H p0 insn (get_insn_type insn) insn_var_type_t.INSN_OUT true
      r.vars.tag_out_updated with
    | trap => exact ⟨rfl, rfl⟩
    | ok a => exact ⟨rfl, rfl⟩
  · exact ⟨rfl, rfl⟩
  · exact ⟨rfl, rfl⟩


/-! ## Contexts that are kept -/

theorem contexts_kept_refl (Q : Nat → ptaxi_context_state_t → ptaxi_context_state_t → Prop)
    (hQ : ∀ i s, Q i s s) (e : ptaxi_sim_t) : contexts_kept Q e e :=
  ⟨Nat.le_refl _, fun i _ => hQ i _⟩

theorem contexts_kept_trans (Q : Nat → ptaxi_context_state_t → ptaxi_context_state_t → Prop)
    (hQ : ∀ i a b c, Q i a b → Q i b c → Q i a c) (e e1 e2 : ptaxi_sim_t)
    (h1 : contexts_kept Q e e1) (h2 : contexts_kept Q e1 e2) : contexts_kept Q e e2 :=
  ⟨Nat.le_trans h1.1 h2.1,
    fun i hi => hQ i _ _ _ (h1.2 i hi) (h2.2 i (Nat.lt_of_lt_of_le hi h1.1))⟩

theorem contexts_kept_mono (Q R : Nat → ptaxi_context_state_t → ptaxi_context_state_t → Prop)
    (hQR : ∀ i a b, Q i a b → R i a b) (e e1 : ptaxi_sim_t) (h : contexts_kept Q e e1) :
    contexts_kept R e e1 :=
  ⟨h.1, fun i hi => hQR i _ _ (h.2 i hi)⟩

theorem contexts_kept_of_states_eq
    (Q : Nat → ptaxi_context_state_t → ptaxi_context_state_t → Prop)
    (e e1 e2 : ptaxi_sim_t) (h : contexts_kept Q e e1) (heq : e2.states = e1.states) :
    contexts_kept Q e e2 := by
  unfold contexts_kept state_at at *
  rw [heq]; exact h

theorem contexts_kept_append (e : ptaxi_sim_t) (l : List ptaxi_context_state_t)
    (e1 : ptaxi_sim_t) (h : e1.states = e.states ++ l) :
    contexts_kept (fun _ s s1 => s1 = s) e e1 := by
  refine ⟨by rw [h]; simp, fun i hi => ?_⟩
  simp only [state_at, h]
  exact List.getD_append _ _ _ _ hi

theorem contexts_kept_get_ptaxi_context_id {M : Type} (H : host_t M) (e : ptaxi_sim_t)
    (p : processor_t M) (b : Bool) :
    contexts_kept (fun _ s s1 => s1 = s) e (get_ptaxi_context_id H e p b).2.1 := by
  obtain ⟨k, hk⟩ := get_ptaxi_context_id_states H e p b
  exact contexts_kept_append e _ _ (by rw [hk])

theorem contexts_kept_set (Q : Nat → ptaxi_context_state_t → ptaxi_context_state_t → Prop)
    (hQ : ∀ i s, Q i s s) (e e1 : ptaxi_sim_t) (c : Nat) (s : ptaxi_context_state_t)
    (hs : Q c (state_at e c) s) (h : e1.states = e.states.set c s) :
    contexts_kept Q e e1 := by
  refine ⟨by rw [h]; simp, fun i hi => ?_⟩
  simp only [state_at, h, getD_set_eq]
  split_ifs with hc
  · rw [← hc.1]; exact hs
  · exact hQ i _

/-! ## What the tag accessor and the matcher leave alone -/

theorem get_or_set_tag_frame {M : Type} (H : host_t M) (p : processor_t M) (insn : insn_t)
    (ty : ptaxi_insn_type_t) (var : insn_var_type_t) (set_tag : Bool) (tag_val t : Nat)
    (p1 : processor_t M)
    (h : get_or_set_tag H p insn ty var set_tag tag_val = .ok (t, p1)) :
    p1.sr = p.sr ∧ p1.supervisor = p.supervisor ∧ p1.XPR = p.XPR
      ∧ (set_tag = false → p1 = p) := by
  unfold get_or_set_tag at h
  cases hres : resolve_operand p insn ty var with
  | invalid => rw [hres] at h; simp at h
  | mem addr =>
    rw [hres] at h
    simp only [] at h
    cases set_tag
    · simp only [Bool.false_eq_true, if_false] at h
      cases hl : load_tag_from_mem H p.mem addr (insn.rm % 256) with
      | trap => rw [hl] at h; simp at h
      | ok t1 =>
        rw [hl] at h
        simp only [tag_result.ok.injEq, Prod.mk.injEq] at h
        rw [← h.2]; simp
    · simp only [if_true] at h
      cases hl : store_tag_to_mem H p.mem addr (insn.rm % 256) tag_val with
      | trap => rw [hl] at h; simp at h
      | ok m1 =>
        rw [hl] at h
        simp only [tag_result.ok.injEq, Prod.mk.injEq] at h
        rw [← h.2]; simp
  | reg r =>
    rw [hres] at h
    simp only [] at h
    split_ifs at h with h0 h1
    · simp only [tag_result.ok.injEq, Prod.mk.injEq] at h
      rw [← h.2]; simp
    · simp only [tag_result.ok.injEq, Prod.mk.injEq] at h
      rw [← h.2]; simp [h1]
    · simp only [tag_result.ok.injEq, Prod.mk.injEq] at h
      rw [← h.2]; simp

theorem determine_finish_proc {M : Type} (H : host_t M) (e0 : ptaxi_sim_t)
    (p0 : processor_t M) (c : Nat) (insn : insn_t) (r : loop_result) :
    (determine_finish H e0 p0 c insn r).proc.sr = p0.sr
      ∧ (determine_finish H e0 p0 c insn r).proc.supervisor = p0.supervisor
      ∧ (determine_finish H e0 p0 c insn r).proc.XPR = p0.XPR := by
  unfold determine_finish
  simp only []
  split_ifs with h1 h2 h3 h3
  · exact ⟨rfl, rfl, rfl⟩
  · cases hg : get_or_set_tag H p0 insn (get_insn_type insn) insn_var_type_t.INSN_OUT true
      r.vars.tag_out_updated with
    | trap => exact ⟨rfl, rfl, rfl⟩
    | ok a =>
      obtain ⟨t, p1⟩ := a
      have := get_or_set_tag_frame H p0 insn _ _ _ _ t p1 hg
      exact ⟨this.1, this.2.1, this.2.2.1⟩
  · cases hg : get_or_set_tag H p0 insn (get_insn_type insn) insn_var_type_t.INSN_OUT true
      r.vars.tag_out_updated with
    | trap => exact ⟨rfl, rfl, rfl⟩
    | ok a =>
      obtain ⟨t, p1⟩ := a
      have := get_or_set_tag_frame H p0 insn _ _ _ _ t p1 hg
      exact ⟨this.1, this.2.1, this.2.2.1⟩
  · exact ⟨rfl, rfl, rfl⟩
  · exact ⟨rfl, rfl, rfl⟩

/-- The matcher leaves the status register, the privilege level and the register
values as they were. -/
theorem determine_ptaxi_action_proc {M : Type} (H : host_t M) (e : ptaxi_sim_t)
    (p : processor_t M) (insn : insn_t) :
    (determine_ptaxi_action H e p insn).proc.sr = p.sr
      ∧ (determine_ptaxi_action H e p insn).proc.supervisor = p.supervisor
      ∧ (determine_ptaxi_action H e p insn).proc.XPR = p.XPR := by
  rw [determine_ptaxi_action_eq]
  split_ifs
  · exact ⟨rfl, rfl, rfl⟩
  · exact determine_finish_proc _ _ _ _ _ _

theorem matcher_changed_refl (s : ptaxi_context_state_t) : matcher_changed s s :=
  ⟨rfl, rfl, rfl⟩

theorem matcher_changed_trans (a b c : ptaxi_context_state_t) (h1 : matcher_changed a b)
    (h2 : matcher_changed b c) : matcher_changed a c :=
  ⟨h2.1.trans h1.1, h2.2.1.trans h1.2.1, h2.2.2.trans h1.2.2⟩

/-- The matcher keeps every context, changing at most `priv_bits` and match
counts; it adds copies of context 0 when the current id is new. -/
theorem determine_ptaxi_action_engine {M : Type} (H : host_t M) (e : ptaxi_sim_t)
    (p : processor_t M) (insn : insn_t) :
    contexts_kept (fun _ => matcher_changed) e (determine_ptaxi_action H e p insn).engine
      ∧ (determine_ptaxi_action H e p insn).engine.benchmark_mode = e.benchmark_mode
      ∧ status_id H e p < (determine_ptaxi_action H e p insn).engine.states.length := by
  have hgrow : contexts_kept (fun _ => matcher_changed) e
      { e with states := grow_states e.states (status_id H e p) } :=
    contexts_kept_mono _ _ (fun _ a b h => by rw [h]; exact matcher_changed_refl a) _ _
      (contexts_kept_append e _ _ rfl)
  rw [determine_ptaxi_action_eq]
  split_ifs
  · refine ⟨hgrow, rfl, ?_⟩
    simp only [action_result.engine, length_grow_states]; omega
  · obtain ⟨hst, hbm⟩ := determine_finish_engine H
      { e with states := grow_states e.states (status_id H e p) } p (status_id H e p) insn
      (policy_loop H e.benchmark_mode p insn (get_insn_type insn)
        (state_at { e with states := grow_states e.states (status_id H e p) }
          (status_id H e p)).policy_contexts
        (loop_init (state_at { e with states := grow_states e.states (status_id H e p) }
          (status_id H e p)).priv_bits e.counters.tag_read) 0)
    refine ⟨?_, hbm, ?_⟩
    · refine contexts_kept_trans _ (fun _ => matcher_changed_trans) _ _ _ hgrow ?_
      refine contexts_kept_set _ (fun _ => matcher_changed_refl) _ _ _ _ ?_ hst
      refine ⟨rfl, rfl, ?_⟩
      simp only [policy_records]
      exact policy_loop_records _ _ _ _ _ _ _ _
    · unfold determine_enforcing
      rw [hst]
      simp only [List.length_set, length_grow_states]; omega


theorem grow_states_of_lt (l : List ptaxi_context_state_t) (c : Nat) (h : c < l.length) :
    grow_states l c = l := by
  have : c + 1 - l.length = 0 := by omega
  simp [grow_states, this]

theorem get_ptaxi_context_id_of_pos {M : Type} (H : host_t M) (e : ptaxi_sim_t)
    (p : processor_t M) (b : Bool) (h0 : status_id H e p ≠ 0)
    (hlt : status_id H e p < e.states.length) :
    get_ptaxi_context_id H e p b = (status_id H e p, e, p) := by
  cases b
  · rw [get_ptaxi_context_id_false, grow_states_of_lt _ _ hlt]
  · rw [get_ptaxi_context_id_true, if_neg h0, grow_states_of_lt _ _ hlt]

/-- A returned action other than 0 comes from an enforcing context with a
non-zero id. -/
theorem determine_ptaxi_action_returned_ne_zero {M : Type} (H : host_t M) (e : ptaxi_sim_t)
    (p : processor_t M) (insn : insn_t) (a : Nat)
    (h : (determine_ptaxi_action H e p insn).returned = some a) (ha : a ≠ 0) :
    status_id H e p ≠ 0 := by
  intro h0
  rw [determine_ptaxi_action_eq, if_pos (Or.inl h0)] at h
  simp only [action_result.returned, Option.some.injEq] at h
  exact ha h.symm

/-- C1. When the current context id is 0, or the current context is not enabled,
or the processor is in supervisor mode, `determine_ptaxi_action` returns action 0
and leaves the processor (so every register and memory tag) as it was; every
context of the store is unchanged (so its `priv_bits` and the match counts of its
entries), the store at most grows by copies of context 0. -/
theorem determine_ptaxi_action_disabled {M : Type} (H : host_t M) (e : ptaxi_sim_t)
    (p : processor_t M) (insn : insn_t)
    (h : (get_ptaxi_context_id H e p false).1 = 0
      ∨ (state_at (get_ptaxi_context_id H e p false).2.1
            (get_ptaxi_context_id H e p false).1).is_enable = false
      ∨ p.supervisor = true) :
    ∃ e1 : ptaxi_sim_t, ∃ k : Nat,
      determine_ptaxi_action H e p insn = .ok 0 (-2) none e1 p
      ∧ e1.states = e.states ++ List.replicate k (state_at e 0)
      ∧ (∀ i, i < e.states.length → state_at e1 i = state_at e i)
      ∧ e1.benchmark_mode = e.benchmark_mode ∧ e1.counters = e.counters := by
  rw [get_ptaxi_context_id_false] at h
  refine ⟨{ e with states := grow_states e.states (status_id H e p) },
    status_id H e p + 1 - e.states.length, ?_, rfl, ?_, rfl, rfl⟩
  · rw [determine_ptaxi_action_eq, if_pos h]
  · intro i hi
    exact getD_grow_states _ _ _ hi

theorem determine_ptaxi_action_disabled_witness :
    (state_at context0_enabled 0).is_enable = true
    ∧ ∃ e1 : ptaxi_sim_t, ∃ k : Nat,
      determine_ptaxi_action spec_host context0_enabled zero_id_proc addi_x5_x6_0
        = .ok 0 (-2) none e1 zero_id_proc
      ∧ e1.states = context0_enabled.states ++ List.replicate k (state_at context0_enabled 0)
      ∧ (∀ i, i < context0_enabled.states.length → state_at e1 i = state_at context0_enabled i)
      ∧ e1.benchmark_mode = context0_enabled.benchmark_mode
      ∧ e1.counters = context0_enabled.counters :=
  ⟨by decide,
    determine_ptaxi_action_disabled spec_host context0_enabled zero_id_proc addi_x5_x6_0
      (Or.inl (by decide))⟩

/-- C2. With benchmark mode off, when the matcher returns an action with the
BLOCK bit, `execute_insn` throws the tag-violation trap in the very state the
matcher left: whatever the functional step and the fuel, nothing after the
matcher has run (no functional step, no scrub, no write of `rd`, no watermark
update); the register values and every context's `lowest_sp_addr` are those from
before the call. -/
theorem execute_insn_block {M : Type} (H : host_t M) (fuel : Nat) (e : ptaxi_sim_t)
    (p : processor_t M) (insn : insn_t) (func : func_t M) (a : Nat)
    (hbm : e.benchmark_mode = false)
    (hret : (determine_ptaxi_action H e p insn).returned = some a)
    (hblock : a &&& H.PTAXI_ACTION_BLOCK ≠ 0) :
    execute_insn H fuel e p insn func
        = .trap_tag_violation (determine_ptaxi_action H e p insn).engine
            (determine_ptaxi_action H e p insn).proc
      ∧ (determine_ptaxi_action H e p insn).proc.XPR = p.XPR
      ∧ ∀ i, i < e.states.length →
          (state_at (determine_ptaxi_action H e p insn).engine i).lowest_sp_addr
            = (state_at e i).lowest_sp_addr := by
  have ha : a ≠ 0 := by
    intro h0; rw [h0] at hblock; simp at hblock
  have h0 := determine_ptaxi_action_returned_ne_zero H e p insn a hret ha
  obtain ⟨hsr, _, hxpr⟩ := determine_ptaxi_action_proc H e p insn
  obtain ⟨hkept, hbm1, hlt⟩ := determine_ptaxi_action_engine H e p insn
  refine ⟨?_, hxpr, fun i hi => (hkept.2 i hi).2.1⟩
  unfold execute_insn
  cases hdet : determine_ptaxi_action H e p insn with
  | trap d e1 p1 => rw [hdet] at hret; simp [action_result.returned] at hret
  | ok a1 idx d e1 p1 =>
    rw [hdet] at hret hsr hbm1 hlt
    simp only [action_result.returned, Option.some.injEq] at hret
    simp only [action_result.engine, action_result.proc] at hsr hbm1 hlt ⊢
    subst hret
    have hid : status_id H e1 p1 = status_id H e p := by
      simp only [status_id, hsr, hbm1]
    have hget : ∀ b, get_ptaxi_context_id H e1 p1 b = (status_id H e p, e1, p1) := by
      intro b
      have := get_ptaxi_context_id_of_pos H e1 p1 b (by rw [hid]; exact h0)
        (by rw [hid]; exact hlt)
      rw [this, hid]
    have hadb : action_debug_block H e1 p1 a1 = (true, e1, p1) := by
      unfold action_debug_block
      rw [hbm1, hbm]
      simp only [Bool.false_eq_true, if_false, hget, if_pos hblock]
      split_ifs <;> simp [hget]
    simp only [hadb]

theorem execute_insn_block_witness :
    (one_context [⟨block_tagged_store, 0⟩]).benchmark_mode = false
    ∧ (determine_ptaxi_action spec_host (one_context [⟨block_tagged_store, 0⟩])
        (user_proc tagged_x7 (fun _ => 0)) sb_x7_0_x6).returned = some 1
    ∧ 1 &&& spec_host.PTAXI_ACTION_BLOCK ≠ 0
    ∧ execute_insn spec_host 0 (one_context [⟨block_tagged_store, 0⟩])
          (user_proc tagged_x7 (fun _ => 0)) sb_x7_0_x6 clobber_func
        = .trap_tag_violation
            (determine_ptaxi_action spec_host (one_context [⟨block_tagged_store, 0⟩])
              (user_proc tagged_x7 (fun _ => 0)) sb_x7_0_x6).engine
            (determine_ptaxi_action spec_host (one_context [⟨block_tagged_store, 0⟩])
              (user_proc tagged_x7 (fun _ => 0)) sb_x7_0_x6).proc
      ∧ (determine_ptaxi_action spec_host (one_context [⟨block_tagged_store, 0⟩])
          (user_proc tagged_x7 (fun _ => 0)) sb_x7_0_x6).proc.XPR
          = (user_proc tagged_x7 (fun _ => 0)).XPR
      ∧ ∀ i, i < (one_context [⟨block_tagged_store, 0⟩]).states.length →
          (state_at (determine_ptaxi_action spec_host (one_context [⟨block_tagged_store, 0⟩])
            (user_proc tagged_x7 (fun _ => 0)) sb_x7_0_x6).engine i).lowest_sp_addr
            = (state_at (one_context [⟨block_tagged_store, 0⟩]) i).lowest_sp_addr :=
  ⟨by decide, by decide, by decide,
    execute_insn_block spec_host 0 (one_context [⟨block_tagged_store, 0⟩])
      (user_proc tagged_x7 (fun _ => 0)) sb_x7_0_x6 clobber_func 1 (by decide) (by decide)
      (by decide)⟩


/-! ## The destination tag -/

theorem mask_update_lt (t m s : Nat) : mask_update t m s < 256 := by
  unfold mask_update
  exact Nat.mod_lt _ (by decide)

theorem mask_update_zero (t : Nat) (h : t < 256) : mask_update t 0 0 = t := by
  unfold mask_update
  have h1 : t &&& 255 = t := by
    have := Nat.and_pow_two_sub_one_eq_mod t 8
    simp at this
    rw [this]; exact Nat.mod_eq_of_lt h
  simp [h1, Nat.mod_eq_of_lt h]

theorem apply_fired_append (old : Nat) (F G : List ptaxi_policy_t) :
    apply_fired old (F ++ G) = apply_fired (apply_fired old F) G := by
  simp [apply_fired, List.foldl_append]

theorem apply_fired_lt (old : Nat) (h : old < 256) (F : List ptaxi_policy_t) :
    apply_fired old F < 256 := by
  induction F using List.reverseRecOn with
  | nil => exact h
  | append_singleton F q _ =>
    rw [apply_fired_append]
    exact mask_update_lt _ _ _

theorem get_or_set_tag_read_lt {M : Type} (H : host_t M) (p : processor_t M) (insn : insn_t)
    (ty : ptaxi_insn_type_t) (var : insn_var_type_t) (t : Nat) (p1 : processor_t M)
    (h : get_or_set_tag H p insn ty var false 0 = .ok (t, p1)) : t < 256 := by
  unfold get_or_set_tag at h
  cases hres : resolve_operand p insn ty var with
  | invalid => rw [hres] at h; simp at h
  | mem addr =>
    rw [hres] at h
    simp only [Bool.false_eq_true, if_false] at h
    cases hl : load_tag_from_mem H p.mem addr (insn.rm % 256) with
    | trap => rw [hl] at h; simp at h
    | ok t1 =>
      rw [hl] at h
      simp only [tag_result.ok.injEq, Prod.mk.injEq] at h
      rw [← h.1]
      unfold load_tag_from_mem at hl
      split_ifs at hl <;>
        (simp only [tag_result.ok.injEq] at hl; rw [← hl]; exact Nat.mod_lt _ (by decide))
  | reg r =>
    rw [hres] at h
    simp only [Bool.false_eq_true, if_false] at h
    split_ifs at h with h0
    · simp only [tag_result.ok.injEq, Prod.mk.injEq] at h
      omega
    · simp only [tag_result.ok.injEq, Prod.mk.injEq] at h
      rw [← h.1]; exact Nat.mod_lt _ (by decide)


/-- The `tag_arg1` predicate touches only the cache of the first operand and the
read counter. -/
theorem match_tag_arg1_frame {M : Type} (H : host_t M) (bench : Bool) (p : processor_t M)
    (insn : insn_t) (ty : ptaxi_insn_type_t) (policy : ptaxi_policy_t) (m m1 : Bool)
    (v v1 : loop_vars) (h : match_tag_arg1 H bench p insn ty policy m v = .ok m1 v1) :
    v1.tag_out = v.tag_out ∧ v1.tag_out_updated = v.tag_out_updated
      ∧ v1.is_load_tag_out = v.is_load_tag_out ∧ v1.priv_bits = v.priv_bits
      ∧ v1.action = v.action ∧ v1.has_match = v.has_match
      ∧ v1.tag_arg2 = v.tag_arg2 ∧ v1.is_load_tag_arg2 = v.is_load_tag_arg2
      ∧ (m1 = true → m = true) := by
  unfold match_tag_arg1 at h
  by_cases h1 : m = true ∧ policy.tag_arg1_mask ≠ 0
  · rw [if_pos h1] at h
    by_cases h2 : v.is_load_tag_arg1 = true
    · rw [if_pos h2] at h
      cases h
      exact ⟨rfl, rfl, rfl, rfl, rfl, rfl, rfl, rfl, fun _ => h1.1⟩
    · rw [if_neg h2] at h
      cases hg : get_or_set_tag H p insn ty insn_var_type_t.INSN_ARG1 false 0 with
      | trap => rw [hg] at h; simp at h
      | ok a =>
        obtain ⟨t, p1⟩ := a
        rw [hg] at h
        cases h
        exact ⟨rfl, rfl, rfl, rfl, rfl, rfl, rfl, rfl, fun _ => h1.1⟩
  · rw [if_neg h1] at h
    cases h
    exact ⟨rfl, rfl, rfl, rfl, rfl, rfl, rfl, rfl, fun h => h⟩

/-- The `tag_arg2` predicate touches only the cache of the second operand and the
read counter. -/
theorem match_tag_arg2_frame {M : Type} (H : host_t M) (bench : Bool) (p : processor_t M)
    (insn : insn_t) (ty : ptaxi_insn_type_t) (policy : ptaxi_policy_t) (m m1 : Bool)
    (v v1 : loop_vars) (h : match_tag_arg2 H bench p insn ty policy m v = .ok m1 v1) :
    v1.tag_out = v.tag_out ∧ v1.tag_out_updated = v.tag_out_updated
      ∧ v1.is_load_tag_out = v.is_load_tag_out ∧ v1.priv_bits = v.priv_bits
      ∧ v1.action = v.action ∧ v1.has_match = v.has_match
      ∧ v1.tag_arg1 = v.tag_arg1 ∧ v1.is_load_tag_arg1 = v.is_load_tag_arg1
      ∧ (m1 = true → m = true) := by
  unfold match_tag_arg2 at h
  by_cases h1 : m = true ∧ policy.tag_arg2_mask ≠ 0
  · rw [if_pos h1] at h
    by_cases h2 : v.is_load_tag_arg2 = true
    · rw [if_pos h2] at h
      cases h
      exact ⟨rfl, rfl, rfl, rfl, rfl, rfl, rfl, rfl, fun _ => h1.1⟩
    · rw [if_neg h2] at h
      cases hg : get_or_set_tag H p insn ty insn_var_type_t.INSN_ARG2 false 0 with
      | trap => rw [hg] at h; simp at h
      | ok a =>
        obtain ⟨t, p1⟩ := a
        rw [hg] at h
        cases h
        exact ⟨rfl, rfl, rfl, rfl, rfl, rfl, rfl, rfl, fun _ => h1.1⟩
  · rw [if_neg h1] at h
    cases h
    exact ⟨rfl, rfl, rfl, rfl, rfl, rfl, rfl, rfl, fun h => h⟩

/-- The `tag_out` predicate keeps the relation of the loop variables to the
destination tag; a policy that passes it without the tag being loaded has
neither `tag_out_mask` nor `tag_out_tomodify`. -/
theorem match_tag_out_inv {M : Type} (H : host_t M) (bench : Bool) (p : processor_t M)
    (insn : insn_t) (ty : ptaxi_insn_type_t) (policy : ptaxi_policy_t) (m m1 : Bool)
    (v v1 : loop_vars) (old : Nat) (F : List ptaxi_policy_t)
    (hold : get_or_set_tag H p insn ty .INSN_OUT false 0 = .ok (old, p))
    (h : match_tag_out H bench p insn ty policy m v = .ok m1 v1)
    (hinv : tag_out_inv old v F) :
    tag_out_inv old v1 F
      ∧ (m1 = true → v1.is_load_tag_out = false →
          policy.tag_out_mask = 0 ∧ policy.tag_out_tomodify = 0)
      ∧ v1.priv_bits = v.priv_bits ∧ v1.action = v.action ∧ v1.has_match = v.has_match
      ∧ (m1 = true → m = true) := by
  unfold match_tag_out at h
  by_cases h1 : m = true ∧ (policy.tag_out_mask ≠ 0 ∨ policy.tag_out_tomodify ≠ 0)
  · rw [if_pos h1] at h
    by_cases h2 : v.is_load_tag_out = true
    · rw [if_pos h2] at h
      cases h
      refine ⟨hinv, fun _ hl => ?_, rfl, rfl, rfl, fun _ => h1.1⟩
      rw [h2] at hl; exact absurd hl (by simp)
    · rw [if_neg h2, hold] at h
      cases h
      refine ⟨⟨fun _ => ⟨rfl, ?_⟩, fun hl => ?_⟩, fun _ hl => ?_, rfl, rfl, rfl, fun _ => h1.1⟩
      · exact (hinv.2 (by simpa using h2)).symm
      · simp at hl
      · simp at hl
  · rw [if_neg h1] at h
    cases h
    refine ⟨hinv, fun hm _ => ?_, rfl, rfl, rfl, fun h => h⟩
    have : ¬ (policy.tag_out_mask ≠ 0 ∨ policy.tag_out_tomodify ≠ 0) := fun hc => h1 ⟨hm, hc⟩
    constructor
    · by_contra hc; exact this (Or.inl hc)
    · by_contra hc; exact this (Or.inr hc)

theorem policy_match_inv {M : Type} (H : host_t M) (bench : Bool) (p : processor_t M)
    (insn : insn_t) (ty : ptaxi_insn_type_t) (policy : ptaxi_policy_t) (m1 : Bool)
    (v v1 : loop_vars) (old : Nat) (F : List ptaxi_policy_t)
    (hold : get_or_set_tag H p insn ty .INSN_OUT false 0 = .ok (old, p))
    (h : policy_match H bench p insn ty v policy = .ok m1 v1)
    (hinv : tag_out_inv old v F) :
    tag_out_inv old v1 F
      ∧ (m1 = true → v1.is_load_tag_out = false →
          policy.tag_out_mask = 0 ∧ policy.tag_out_tomodify = 0)
      ∧ v1.priv_bits = v.priv_bits ∧ v1.action = v.action ∧ v1.has_match = v.has_match := by
  unfold policy_match at h
  cases h1 : match_tag_arg1 H bench p insn ty policy
      (match_fields H p insn ty v.priv_bits policy) v with
  | trap va => rw [h1] at h; simp at h
  | ok ma va =>
    rw [h1] at h
    simp only [] at h
    cases h2 : match_tag_arg2 H bench p insn ty policy ma va with
    | trap vb => rw [h2] at h; simp at h
    | ok mb vb =>
      rw [h2] at h
      simp only [] at h
      have f1 := match_tag_arg1_frame H bench p insn ty policy _ _ _ _ h1
      have f2 := match_tag_arg2_frame H bench p insn ty policy _ _ _ _ h2
      have hinvb : tag_out_inv old vb F := by
        unfold tag_out_inv at hinv ⊢
        rw [f2.1, f2.2.1, f2.2.2.1, f1.1, f1.2.1, f1.2.2.1]
        exact hinv
      obtain ⟨g1, g2, g3, g4, g5, _⟩ :=
        match_tag_out_inv H bench p insn ty policy mb m1 vb v1 old F hold h hinvb
      refine ⟨g1, g2, ?_, ?_, ?_⟩
      · rw [g3, f2.2.2.2.1, f1.2.2.2.1]
      · rw [g4, f2.2.2.2.2.1, f1.2.2.2.2.1]
      · rw [g5, f2.2.2.2.2.2.1, f1.2.2.2.2.2.1]


theorem policy_step_eq {M : Type} (H : host_t M) (bench : Bool) (p : processor_t M)
    (insn : insn_t) (ty : ptaxi_insn_type_t) (v : loop_vars) (entry : ptaxi_policy_context_t) :
    policy_step H bench p insn ty v entry
      = match policy_match H bench p insn ty v entry.policy with
        | .trap v1 => .trap v1
        | .ok false v1 => .no_match v1
        | .ok true v1 =>
          if entry.match_count + 1 ≤ entry.policy.ignore_count then
            .ignored { v1 with has_match := true }
              { entry with match_count := entry.match_count + 1 }
          else
            .fired (fire { v1 with has_match := true } entry.policy)
              { entry with match_count := entry.match_count + 1 }
              (decide (entry.policy.action = H.PTAXI_ACTION_BLOCK
                ∨ entry.policy.action = H.PTAXI_ACTION_ALLOW)) := by
  rfl

theorem fire_tag_out_inv (old : Nat) (hlt : old < 256) (v : loop_vars)
    (F : List ptaxi_policy_t) (policy : ptaxi_policy_t) (hinv : tag_out_inv old v F)
    (hnl : v.is_load_tag_out = false →
      policy.tag_out_mask = 0 ∧ policy.tag_out_tomodify = 0)
    (hset : policy.tag_out_mask = 0 → policy.tag_out_tomodify = 0 → policy.tag_out_set = 0) :
    tag_out_inv old (fire v policy) (F ++ [policy]) := by
  have happ : apply_fired old (F ++ [policy])
      = mask_update (apply_fired old F) policy.tag_out_tomodify policy.tag_out_set := by
    rw [apply_fired_append]; rfl
  constructor
  · intro hl
    have := hinv.1 hl
    refine ⟨this.1, ?_⟩
    rw [happ, ← this.2]
    rfl
  · intro hl
    have h0 := hnl hl
    rw [happ, hinv.2 hl, h0.2, hset h0.1 h0.2]
    exact mask_update_zero old hlt

theorem tag_out_inv_has_match (old : Nat) (v : loop_vars) (F : List ptaxi_policy_t) (b : Bool)
    (h : tag_out_inv old v F) : tag_out_inv old { v with has_match := b } F := h

/-- After one iteration of the loop the loop variables still stand in the same
relation to the destination tag, with the policy added when it fired. -/
theorem policy_step_inv {M : Type} (H : host_t M) (bench : Bool) (p : processor_t M)
    (insn : insn_t) (ty : ptaxi_insn_type_t) (v : loop_vars) (entry : ptaxi_policy_context_t)
    (old : Nat) (F : List ptaxi_policy_t)
    (hold : get_or_set_tag H p insn ty .INSN_OUT false 0 = .ok (old, p))
    (hinv : tag_out_inv old v F) :
    match policy_step H bench p insn ty v entry with
    | .trap _ => True
    | .no_match v1 => tag_out_inv old v1 F
    | .ignored v1 _ => tag_out_inv old v1 F
    | .fired v1 _ _ =>
      (entry.policy.tag_out_mask = 0 → entry.policy.tag_out_tomodify = 0 →
        entry.policy.tag_out_set = 0) → tag_out_inv old v1 (F ++ [entry.policy]) := by
  have hlt := get_or_set_tag_read_lt H p insn ty _ old p hold
  rw [policy_step_eq]
  cases hm : policy_match H bench p insn ty v entry.policy with
  | trap v1 => trivial
  | ok m v1 =>
    obtain ⟨g1, g2, _⟩ := policy_match_inv H bench p insn ty entry.policy m v v1 old F hold hm hinv
    cases m
    · exact g1
    · simp only []
      split_ifs
      · exact g1
      · intro hset
        exact fire_tag_out_inv old hlt _ F entry.policy (tag_out_inv_has_match old v1 F true g1)
          (g2 rfl) hset

theorem policy_loop_inv {M : Type} (H : host_t M) (bench : Bool) (p : processor_t M)
    (insn : insn_t) (ty : ptaxi_insn_type_t) (old : Nat)
    (hold : get_or_set_tag H p insn ty .INSN_OUT false 0 = .ok (old, p))
    (l : List ptaxi_policy_context_t) :
    ∀ (v : loop_vars) (i : Nat) (F : List ptaxi_policy_t), tag_out_inv old v F →
      (policy_loop H bench p insn ty l v i).trapped = false →
      (∀ q ∈ (policy_loop H bench p insn ty l v i).fired,
        q.tag_out_mask = 0 → q.tag_out_tomodify = 0 → q.tag_out_set = 0) →
      tag_out_inv old (policy_loop H bench p insn ty l v i).vars
        (F ++ (policy_loop H bench p insn ty l v i).fired) := by
  induction l with
  | nil =>
    intro v i F hinv _ _
    rw [policy_loop_nil]
    simpa using hinv
  | cons entry rest ih =>
    intro v i F hinv
    have hs := policy_step_inv H bench p insn ty v entry old F hold hinv
    rw [policy_loop_cons]
    cases hstep : policy_step H bench p insn ty v entry with
    | trap v1 => intro ht; simp [loop_continue] at ht
    | no_match v1 =>
      rw [hstep] at hs
      simp only [loop_continue, loop_result.cons, List.nil_append]
      exact ih v1 (i + 1) F hs
    | ignored v1 entry1 =>
      rw [hstep] at hs
      simp only [loop_continue, loop_result.cons, List.nil_append]
      exact ih v1 (i + 1) F hs
    | fired v1 entry1 b =>
      rw [hstep] at hs
      cases b
      · simp only [loop_continue, loop_result.cons, Bool.false_eq_true, if_false]
        intro ht hset
        have := ih v1 (i + 1) (F ++ [entry.policy])
          (hs (hset entry.policy (by simp))) ht (fun q hq => hset q (by simp [hq]))
        simpa using this
      · simp only [loop_continue, if_true]
        intro _ hset
        exact hs (hset entry.policy (by simp))

theorem resolve_operand_congr {M : Type} (p p1 : processor_t M) (insn : insn_t)
    (ty : ptaxi_insn_type_t) (var : insn_var_type_t) (h : p1.XPR = p.XPR) :
    resolve_operand p1 insn ty var = resolve_operand p insn ty var := by
  cases ty <;> cases var <;> simp [resolve_operand, h]

/-- Reading the destination tag after it was written gives the written tag: for
a register other than x0 always, for memory when the tag memory gives back what
was stored at that address and width. -/
theorem get_or_set_tag_write_read {M : Type} (H : host_t M) (p p1 : processor_t M)
    (insn : insn_t) (ty : ptaxi_insn_type_t) (var : insn_var_type_t) (val x : Nat)
    (hval : val < 256)
    (hw : get_or_set_tag H p insn ty var true val = .ok (x, p1))
    (hx0 : resolve_operand p insn ty var ≠ .reg 0)
    (hmem : ∀ addr m1, resolve_operand p insn ty var = .mem addr →
      store_tag_to_mem H p.mem addr (insn.rm % 256) val = .ok m1 →
      load_tag_from_mem H m1 addr (insn.rm % 256) = .ok val) :
    get_or_set_tag H p1 insn ty var false 0 = .ok (val, p1) := by
  have hfr := get_or_set_tag_frame H p insn ty var true val x p1 hw
  have hres := resolve_operand_congr p p1 insn ty var hfr.2.2.1
  unfold get_or_set_tag at hw ⊢
  rw [hres]
  cases hr : resolve_operand p insn ty var with
  | invalid => rw [hr] at hw; simp at hw
  | mem addr =>
    rw [hr] at hw
    simp only [if_true] at hw
    simp only [Bool.false_eq_true, if_false]
    cases hst : store_tag_to_mem H p.mem addr (insn.rm % 256) val with
    | trap => rw [hst] at hw; simp at hw
    | ok m1 =>
      rw [hst] at hw
      simp only [tag_result.ok.injEq, Prod.mk.injEq] at hw
      have hl := hmem addr m1 hr hst
      rw [← hw.2]
      simp only [hl]
  | reg r =>
    rw [hr] at hw hx0
    have hr0 : r ≠ 0 := fun h => hx0 (by rw [h])
    simp only [if_neg hr0, if_true] at hw
    simp only [if_neg hr0, Bool.false_eq_true, if_false]
    simp only [tag_result.ok.injEq, Prod.mk.injEq] at hw
    rw [← hw.2]
    simp [Function.update_same, Nat.mod_eq_of_lt hval]


theorem determine_finish_fired {M : Type} (H : host_t M) (e0 : ptaxi_sim_t)
    (p0 : processor_t M) (c : Nat) (insn : insn_t) (r : loop_result) :
    (determine_finish H e0 p0 c insn r).fired = r.fired := by
  unfold determine_finish
  simp only []
  split_ifs with h1 h2 h3 h3
  · rfl
  · cases get_or_set_tag H p0 insn (get_insn_type insn) insn_var_type_t.INSN_OUT true
      r.vars.tag_out_updated <;> rfl
  · cases get_or_set_tag H p0 insn (get_insn_type insn) insn_var_type_t.INSN_OUT true
      r.vars.tag_out_updated <;> rfl
  · rfl
  · rfl

/-- What `determine_finish` leaves of the processor when it returns: the one it
got, or the one after writing `tag_out_updated` to the destination. -/
theorem determine_finish_returned {M : Type} (H : host_t M) (e0 : ptaxi_sim_t)
    (p0 : processor_t M) (c : Nat) (insn : insn_t) (r : loop_result)
    (hret : (determine_finish H e0 p0 c insn r).returned ≠ none) :
    r.trapped = false
      ∧ (determine_finish H e0 p0 c insn r).returned = some r.vars.action
      ∧ ((r.vars.is_load_tag_out = true ∧ r.vars.tag_out ≠ r.vars.tag_out_updated
            ∧ ∃ x, get_or_set_tag H p0 insn (get_insn_type insn) .INSN_OUT true
                r.vars.tag_out_updated = .ok (x, (determine_finish H e0 p0 c insn r).proc))
          ∨ ((r.vars.is_load_tag_out = true → r.vars.tag_out = r.vars.tag_out_updated)
              ∧ (determine_finish H e0 p0 c insn r).proc = p0)) := by
  unfold determine_finish at hret ⊢
  simp only [] at hret ⊢
  by_cases h1 : r.trapped = true
  · rw [if_pos h1] at hret; simp [action_result.returned] at hret
  · rw [if_neg h1] at hret ⊢
    refine ⟨by simpa using h1, ?_⟩
    by_cases h2 : (r.vars.is_load_tag_out
        && decide (r.vars.tag_out ≠ r.vars.tag_out_updated)) = true
    · rw [if_pos h2] at hret ⊢
      cases hg : get_or_set_tag H p0 insn (get_insn_type insn) insn_var_type_t.INSN_OUT true
          r.vars.tag_out_updated with
      | trap => rw [hg] at hret; simp [action_result.returned] at hret
      | ok a =>
        obtain ⟨x, p1⟩ := a
        simp only [Bool.and_eq_true, decide_eq_true_eq] at h2
        exact ⟨rfl, Or.inl ⟨h2.1, h2.2, x, rfl⟩⟩
    · rw [if_neg h2]
      refine ⟨rfl, Or.inr ⟨fun hl => ?_, rfl⟩⟩
      simp only [Bool.and_eq_true, decide_eq_true_eq, not_and, not_not] at h2
      exact h2 hl

theorem tag_out_inv_init (old priv_bits tag_read : Nat) :
    tag_out_inv old (loop_init priv_bits tag_read) [] :=
  ⟨fun h => by simp [loop_init] at h, fun _ => rfl⟩

/-- C3, amended. When `determine_ptaxi_action` returns, and the destination
operand is valid and is not register x0, and every policy that fired with
`tag_out_set` non-zero also has `tag_out_mask` or `tag_out_tomodify` non-zero, the
destination tag afterwards is the result of applying
`t -> (t & ~tag_out_tomodify) | tag_out_set` once for each policy that fired, in
list order, to the tag the destination had before.  For a memory destination the
tag memory is assumed to give back the tag just stored at that address and
width. -/
theorem destination_tag_after {M : Type} (H : host_t M) (e : ptaxi_sim_t) (p : processor_t M)
    (insn : insn_t) (old : Nat)
    (hret : (determine_ptaxi_action H e p insn).returned ≠ none)
    (hold : get_or_set_tag H p insn (get_insn_type insn) .INSN_OUT false 0 = .ok (old, p))
    (hx0 : resolve_operand p insn (get_insn_type insn) .INSN_OUT ≠ .reg 0)
    (hmem : ∀ addr m1 val, val < 256 →
      resolve_operand p insn (get_insn_type insn) .INSN_OUT = .mem addr →
      store_tag_to_mem H p.mem addr (insn.rm % 256) val = .ok m1 →
      load_tag_from_mem H m1 addr (insn.rm % 256) = .ok val)
    (hset : ∀ q ∈ (determine_ptaxi_action H e p insn).fired,
      q.tag_out_mask = 0 → q.tag_out_tomodify = 0 → q.tag_out_set = 0) :
    get_or_set_tag H (determine_ptaxi_action H e p insn).proc insn (get_insn_type insn)
        .INSN_OUT false 0
      = .ok (apply_fired old (determine_ptaxi_action H e p insn).fired,
          (determine_ptaxi_action H e p insn).proc) := by
  have hlt := get_or_set_tag_read_lt H p insn _ _ old p hold
  rw [determine_ptaxi_action_eq] at hret hset ⊢
  split_ifs at hret hset ⊢ with hdis
  · exact hold
  · unfold determine_enforcing at hret hset ⊢
    generalize hr : policy_loop H _ p insn (get_insn_type insn) _ _ 0 = r at hret hset ⊢
    rw [determine_finish_fired] at hset ⊢
    obtain ⟨hnt, _, hcase⟩ := determine_finish_returned H _ p _ insn r hret
    have hinv : tag_out_inv old r.vars r.fired := by
      have := policy_loop_inv H _ p insn (get_insn_type insn) old hold _ _ 0 []
        (tag_out_inv_init old _ _) (by rw [hr]; exact hnt) (by rw [hr]; exact hset)
      rw [hr] at this
      simpa using this
    rcases hcase with ⟨hl, _, x, hw⟩ | ⟨heq, hp⟩
    · have hupd : r.vars.tag_out_updated = apply_fired old r.fired := (hinv.1 hl).2
      rw [← hupd]
      exact get_or_set_tag_write_read H p _ insn _ _ _ x
        (by rw [hupd]; exact apply_fired_lt old hlt _) hw hx0
        (fun addr m1 => hmem addr m1 _ (by rw [hupd]; exact apply_fired_lt old hlt _))
    · rw [hp, hold]
      cases hl : r.vars.is_load_tag_out
      · rw [hinv.2 hl]
      · have := hinv.1 hl
        rw [← this.2, ← heq hl, this.1]


/-- C3 as stated fails: the policy `set_only_policy` fires on `ADDI x5, x6, 0` in
the enforcing context 1, the destination x5 is valid and had tag 0, so the
stated update gives `(0 & ~0) | 2 = 2`; the code leaves the tag of x5 at 0. -/
theorem destination_tag_counterexample :
    (state_at (one_context [⟨set_only_policy, 0⟩]) 1).is_enable = true
    ∧ resolve_operand (user_proc (fun _ => 0) (fun _ => 0)) addi_x5_x6_0
        (get_insn_type addi_x5_x6_0) .INSN_OUT = .reg 5
    ∧ (determine_ptaxi_action spec_host (one_context [⟨set_only_policy, 0⟩])
        (user_proc (fun _ => 0) (fun _ => 0)) addi_x5_x6_0).returned = some 0
    ∧ (determine_ptaxi_action spec_host (one_context [⟨set_only_policy, 0⟩])
        (user_proc (fun _ => 0) (fun _ => 0)) addi_x5_x6_0).fired = [set_only_policy]
    ∧ apply_fired ((user_proc (fun _ => 0) (fun _ => 0)).XPR_tag 5) [set_only_policy] = 2
    ∧ (determine_ptaxi_action spec_host (one_context [⟨set_only_policy, 0⟩])
        (user_proc (fun _ => 0) (fun _ => 0)) addi_x5_x6_0).proc.XPR_tag 5 = 0 := by
  refine ⟨by decide, by decide, by decide, by decide, by decide, by decide⟩

theorem destination_tag_after_witness :
    (determine_ptaxi_action spec_host (one_context [⟨copy_policy, 0⟩])
        (user_proc tagged_x6 (fun _ => 0)) addi_x5_x6_0).fired = [copy_policy]
    ∧ (determine_ptaxi_action spec_host (one_context [⟨copy_policy, 0⟩])
        (user_proc tagged_x6 (fun _ => 0)) addi_x5_x6_0).proc.XPR_tag 5 = 2
    ∧ get_or_set_tag spec_host
          (determine_ptaxi_action spec_host (one_context [⟨copy_policy, 0⟩])
            (user_proc tagged_x6 (fun _ => 0)) addi_x5_x6_0).proc
          addi_x5_x6_0 (get_insn_type addi_x5_x6_0) .INSN_OUT false 0
        = .ok (apply_fired 0
            (determine_ptaxi_action spec_host (one_context [⟨copy_policy, 0⟩])
              (user_proc tagged_x6 (fun _ => 0)) addi_x5_x6_0).fired,
          (determine_ptaxi_action spec_host (one_context [⟨copy_policy, 0⟩])
            (user_proc tagged_x6 (fun _ => 0)) addi_x5_x6_0).proc) :=
  ⟨by decide, by decide,
    destination_tag_after spec_host (one_context [⟨copy_policy, 0⟩])
      (user_proc tagged_x6 (fun _ => 0)) addi_x5_x6_0 0 (by decide) rfl (by decide)
      (fun addr m1 val _ h => by
        have h5 : resolve_operand (user_proc tagged_x6 (fun _ => 0)) addi_x5_x6_0
            (get_insn_type addi_x5_x6_0) .INSN_OUT = .reg 5 := by decide
        rw [h5] at h
        cases h)
      (by decide)⟩


/-! ## Match counting -/

/-- The policy loop changes an entry only by evaluating it: every entry it leaves
is the entry it found, or what one iteration of the loop body made of it. -/
theorem policy_loop_entries {M : Type} (H : host_t M) (bench : Bool) (p : processor_t M)
    (insn : insn_t) (l : List ptaxi_policy_context_t) :
    ∀ (v : loop_vars) (i : Nat),
      List.Forall₂
        (fun entry entry1 => entry1 = entry
          ∨ ∃ x : evaluation M, x.bench = bench ∧ x.p = p ∧ x.insn = insn
              ∧ entry1 = (x.step H entry).entry_after entry)
        l (policy_loop H bench p insn (get_insn_type insn) l v i).entries := by
  induction l with
  | nil => intro v i; rw [policy_loop_nil]; exact List.Forall₂.nil
  | cons entry rest ih =>
    intro v i
    have hrefl : List.Forall₂
        (fun entry entry1 => entry1 = entry
          ∨ ∃ x : evaluation M, x.bench = bench ∧ x.p = p ∧ x.insn = insn
              ∧ entry1 = (x.step H entry).entry_after entry) rest rest :=
      List.forall₂_same.mpr (fun _ _ => Or.inl rfl)
    have hx : (policy_step H bench p insn (get_insn_type insn) v entry).entry_after entry
        = ((⟨bench, p, insn, v⟩ : evaluation M).step H entry).entry_after entry := rfl
    rw [policy_loop_cons]
    cases hstep : policy_step H bench p insn (get_insn_type insn) v entry with
    | trap v1 => exact List.Forall₂.cons (Or.inl rfl) hrefl
    | no_match v1 => exact List.Forall₂.cons (Or.inl rfl) (ih v1 (i + 1))
    | ignored v1 entry1 =>
      rw [hstep] at hx
      exact List.Forall₂.cons (Or.inr ⟨_, rfl, rfl, rfl, hx⟩) (ih v1 (i + 1))
    | fired v1 entry1 b =>
      rw [hstep] at hx
      cases b
      · exact List.Forall₂.cons (Or.inr ⟨_, rfl, rfl, rfl, hx⟩) (ih v1 (i + 1))
      · exact List.Forall₂.cons (Or.inr ⟨_, rfl, rfl, rfl, hx⟩) hrefl


/-! ## Leaving the loop early -/

/-- The loop over a list `pre ++ suf`: when the loop over `pre` runs to its end,
the loop goes on over `suf` from there; when it is left inside `pre`, `suf` stays
as it is. -/
theorem policy_loop_append {M : Type} (H : host_t M) (bench : Bool) (p : processor_t M)
    (insn : insn_t) (ty : ptaxi_insn_type_t) (suf : List ptaxi_policy_context_t)
    (pre : List ptaxi_policy_context_t) :
    ∀ (v : loop_vars) (i : Nat),
      policy_loop H bench p insn ty (pre ++ suf) v i
        = if (policy_loop H bench p insn ty pre v i).trapped = false
              ∧ (policy_loop H bench p insn ty pre v i).i = i + pre.length then
            { vars := (policy_loop H bench p insn ty suf
                (policy_loop H bench p insn ty pre v i).vars (i + pre.length)).vars,
              entries := (policy_loop H bench p insn ty pre v i).entries
                ++ (policy_loop H bench p insn ty suf
                    (policy_loop H bench p insn ty pre v i).vars (i + pre.length)).entries,
              fired := (policy_loop H bench p insn ty pre v i).fired
                ++ (policy_loop H bench p insn ty suf
                    (policy_loop H bench p insn ty pre v i).vars (i + pre.length)).fired,
              i := (policy_loop H bench p insn ty suf
                (policy_loop H bench p insn ty pre v i).vars (i + pre.length)).i,
              trapped := (policy_loop H bench p insn ty suf
                (policy_loop H bench p insn ty pre v i).vars (i + pre.length)).trapped }
          else
            { policy_loop H bench p insn ty pre v i with
              entries := (policy_loop H bench p insn ty pre v i).entries ++ suf } := by
  induction pre with
  | nil =>
    intro v i
    simp [policy_loop_nil]
  | cons entry rest ih =>
    intro v i
    have hlen : i + (entry :: rest).length = i + 1 + rest.length := by
      simp only [List.length_cons]; omega
    rw [List.cons_append, policy_loop_cons, policy_loop_cons, hlen]
    cases policy_step H bench p insn ty v entry with
    | trap v1 => simp [loop_continue]
    | no_match v1 =>
      simp only [loop_continue, loop_result.cons]
      rw [ih v1 (i + 1)]
      split_ifs <;> simp
    | ignored v1 entry1 =>
      simp only [loop_continue, loop_result.cons]
      rw [ih v1 (i + 1)]
      split_ifs <;> simp
    | fired v1 entry1 b =>
      cases b
      · simp only [loop_continue, loop_result.cons, Bool.false_eq_true, if_false]
        rw [ih v1 (i + 1)]
        split_ifs <;> simp
      · simp only [loop_continue, if_true]
        have : ¬ (i = i + 1 + rest.length) := by omega
        simp [this]


theorem policy_step_fired_eq {M : Type} (H : host_t M) (bench : Bool) (p : processor_t M)
    (insn : insn_t) (ty : ptaxi_insn_type_t) (v : loop_vars) (entry : ptaxi_policy_context_t)
    (h : (policy_step H bench p insn ty v entry).is_fired = true) :
    policy_step H bench p insn ty v entry
      = .fired (policy_step H bench p insn ty v entry).vars
          ((policy_step H bench p insn ty v entry).entry_after entry)
          (decide (entry.policy.action = H.PTAXI_ACTION_BLOCK
            ∨ entry.policy.action = H.PTAXI_ACTION_ALLOW)) := by
  rw [policy_step_eq] at h ⊢
  revert h
  cases policy_match H bench p insn ty v entry.policy with
  | trap v1 => intro h; simp [step_result.is_fired] at h
  | ok m v1 =>
    cases m
    · intro h; simp [step_result.is_fired] at h
    · intro h
      simp only [] at h ⊢
      by_cases hk : entry.match_count + 1 ≤ entry.policy.ignore_count
      · rw [if_pos hk] at h; simp [step_result.is_fired] at h
      · rw [if_neg hk]; rfl

theorem determine_finish_returned_eq {M : Type} (H : host_t M) (e0 : ptaxi_sim_t)
    (p0 : processor_t M) (c : Nat) (insn : insn_t) (r : loop_result) :
    (determine_finish H e0 p0 c insn r).returned
      = if r.trapped = true then none
        else if (r.vars.is_load_tag_out
            && decide (r.vars.tag_out ≠ r.vars.tag_out_updated)) = true then
          match get_or_set_tag H p0 insn (get_insn_type insn) .INSN_OUT true
              r.vars.tag_out_updated with
          | .trap => none
          | .ok _ => some r.vars.action
        else some r.vars.action := by
  unfold determine_finish
  simp only []
  by_cases h1 : r.trapped = true
  · rw [if_pos h1, if_pos h1]; rfl
  · rw [if_neg h1, if_neg h1]
    by_cases h2 : (r.vars.is_load_tag_out
        && decide (r.vars.tag_out ≠ r.vars.tag_out_updated)) = true
    · rw [if_pos h2, if_pos h2]
      cases get_or_set_tag H p0 insn (get_insn_type insn) insn_var_type_t.INSN_OUT true
        r.vars.tag_out_updated <;> rfl
    · rw [if_neg h2, if_neg h2]; rfl

theorem determine_finish_proc_eq {M : Type} (H : host_t M) (e0 : ptaxi_sim_t)
    (p0 : processor_t M) (c : Nat) (insn : insn_t) (r : loop_result) :
    (determine_finish H e0 p0 c insn r).proc
      = if r.trapped = true then p0
        else if (r.vars.is_load_tag_out
            && decide (r.vars.tag_out ≠ r.vars.tag_out_updated)) = true then
          match get_or_set_tag H p0 insn (get_insn_type insn) .INSN_OUT true
              r.vars.tag_out_updated with
          | .trap => p0
          | .ok a => a.2
        else p0 := by
  unfold determine_finish
  simp only []
  by_cases h1 : r.trapped = true
  · rw [if_pos h1, if_pos h1]; rfl
  · rw [if_neg h1, if_neg h1]
    by_cases h2 : (r.vars.is_load_tag_out
        && decide (r.vars.tag_out ≠ r.vars.tag_out_updated)) = true
    · rw [if_pos h2, if_pos h2]
      cases get_or_set_tag H p0 insn (get_insn_type insn) insn_var_type_t.INSN_OUT true
        r.vars.tag_out_updated <;> rfl
    · rw [if_neg h2, if_neg h2]; rfl

theorem determine_finish_congr {M : Type} (H : host_t M) (e0 : ptaxi_sim_t)
    (p0 : processor_t M) (c : Nat) (insn : insn_t) (r r1 : loop_result)
    (hv : r.vars = r1.vars) (ht : r.trapped = r1.trapped) :
    (determine_finish H e0 p0 c insn r).returned = (determine_finish H e0 p0 c insn r1).returned
      ∧ (determine_finish H e0 p0 c insn r).proc = (determine_finish H e0 p0 c insn r1).proc := by
  rw [determine_finish_returned_eq, determine_finish_returned_eq, determine_finish_proc_eq,
    determine_finish_proc_eq, hv, ht]
  exact ⟨rfl, rfl⟩

/-- C5 as stated fails: `block_and_debug` has the BLOCK bit in its action and
fires on `ADDI x5, x6, 0`, yet the loop goes on: the next entry is evaluated, its
match count goes from 0 to 1, it fires too and changes the tag of x5 from 0 to
2. -/
theorem block_allow_counterexample :
    block_and_debug.action &&& spec_host.PTAXI_ACTION_BLOCK ≠ 0
    ∧ (determine_ptaxi_action spec_host (one_context [⟨block_and_debug, 0⟩, ⟨copy_policy, 0⟩])
        (user_proc tagged_x6 (fun _ => 0)) addi_x5_x6_0).fired = [block_and_debug, copy_policy]
    ∧ (state_at (determine_ptaxi_action spec_host
          (one_context [⟨block_and_debug, 0⟩, ⟨copy_policy, 0⟩])
          (user_proc tagged_x6 (fun _ => 0)) addi_x5_x6_0).engine 1).policy_contexts
        = [⟨block_and_debug, 1⟩, ⟨copy_policy, 1⟩]
    ∧ (user_proc tagged_x6 (fun _ => 0)).XPR_tag 5 = 0
    ∧ (determine_ptaxi_action spec_host (one_context [⟨block_and_debug, 0⟩, ⟨copy_policy, 0⟩])
        (user_proc tagged_x6 (fun _ => 0)) addi_x5_x6_0).proc.XPR_tag 5 = 2 := by
  refine ⟨by decide, by decide, by decide, by decide, by decide⟩

/-- C5, amended. When the loop reaches an entry (it ran through the entries `pre`
before it without a trap or a break) and the entry fires with an action that is
exactly BLOCK or exactly ALLOW, the loop is left there: the loop variables are
those the firing left, the index is that of the entry, and the entries `rest`
after it are as they were, match counts included.  The returned action and the
processor after the write-back are then the same whatever `rest` is. -/
theorem block_allow_ends_loop {M : Type} (H : host_t M) (bench : Bool) (p : processor_t M)
    (insn : insn_t) (pre rest : List ptaxi_policy_context_t) (entry : ptaxi_policy_context_t)
    (v : loop_vars) (i : Nat)
    (hpre : (policy_loop H bench p insn (get_insn_type insn) pre v i).trapped = false
      ∧ (policy_loop H bench p insn (get_insn_type insn) pre v i).i = i + pre.length)
    (hfire : (policy_step H bench p insn (get_insn_type insn)
      (policy_loop H bench p insn (get_insn_type insn) pre v i).vars entry).is_fired = true)
    (hact : entry.policy.action = H.PTAXI_ACTION_BLOCK
      ∨ entry.policy.action = H.PTAXI_ACTION_ALLOW) :
    policy_loop H bench p insn (get_insn_type insn) (pre ++ entry :: rest) v i
        = { vars := (policy_step H bench p insn (get_insn_type insn)
              (policy_loop H bench p insn (get_insn_type insn) pre v i).vars entry).vars,
            entries := (policy_loop H bench p insn (get_insn_type insn) pre v i).entries
              ++ (policy_step H bench p insn (get_insn_type insn)
                  (policy_loop H bench p insn (get_insn_type insn) pre v i).vars
                  entry).entry_after entry :: rest,
            fired := (policy_loop H bench p insn (get_insn_type insn) pre v i).fired
              ++ [entry.policy],
            i := i + pre.length,
            trapped := false }
      ∧ ∀ (e0 : ptaxi_sim_t) (c : Nat) (rest1 : List ptaxi_policy_context_t),
          (determine_finish H e0 p c insn
              (policy_loop H bench p insn (get_insn_type insn) (pre ++ entry :: rest) v i)).returned
            = (determine_finish H e0 p c insn
              (policy_loop H bench p insn (get_insn_type insn) (pre ++ entry :: rest1) v i)).returned
          ∧ (determine_finish H e0 p c insn
              (policy_loop H bench p insn (get_insn_type insn) (pre ++ entry :: rest) v i)).proc
            = (determine_finish H e0 p c insn
              (policy_loop H bench p insn (get_insn_type insn) (pre ++ entry :: rest1) v i)).proc := by
  have key : ∀ rest2 : List ptaxi_policy_context_t,
      policy_loop H bench p insn (get_insn_type insn) (pre ++ entry :: rest2) v i
        = { vars := (policy_step H bench p insn (get_insn_type insn)
              (policy_loop H bench p insn (get_insn_type insn) pre v i).vars entry).vars,
            entries := (policy_loop H bench p insn (get_insn_type insn) pre v i).entries
              ++ (policy_step H bench p insn (get_insn_type insn)
                  (policy_loop H bench p insn (get_insn_type insn) pre v i).vars
                  entry).entry_after entry :: rest2,
            fired := (policy_loop H bench p insn (get_insn_type insn) pre v i).fired
              ++ [entry.policy],
            i := i + pre.length,
            trapped := false } := by
    intro rest2
    rw [policy_loop_append, if_pos hpre, policy_loop_cons, policy_step_fired_eq _ _ _ _ _ _ _ hfire]
    simp only [loop_continue, hact, decide_True, if_true, step_result.vars,
      step_result.entry_after]
  refine ⟨key rest, fun e0 c rest1 => ?_⟩
  rw [key rest, key rest1]
  exact determine_finish_congr H e0 p c insn _ _ rfl rfl

theorem block_allow_ends_loop_witness :
    ((policy_loop spec_host false (user_proc tagged_x7 (fun _ => 0)) sb_x7_0_x6
          (get_insn_type sb_x7_0_x6) [⟨copy_policy, 0⟩] (loop_init 0 0) 0).trapped = false
      ∧ (policy_loop spec_host false (user_proc tagged_x7 (fun _ => 0)) sb_x7_0_x6
          (get_insn_type sb_x7_0_x6) [⟨copy_policy, 0⟩] (loop_init 0 0) 0).i
          = 0 + [(⟨copy_policy, 0⟩ : ptaxi_policy_context_t)].length)
    ∧ (policy_step spec_host false (user_proc tagged_x7 (fun _ => 0)) sb_x7_0_x6
          (get_insn_type sb_x7_0_x6)
          (policy_loop spec_host false (user_proc tagged_x7 (fun _ => 0)) sb_x7_0_x6
            (get_insn_type sb_x7_0_x6) [⟨copy_policy, 0⟩] (loop_init 0 0) 0).vars
          ⟨block_tagged_store, 0⟩).is_fired = true
    ∧ block_tagged_store.action = spec_host.PTAXI_ACTION_BLOCK
    ∧ (policy_loop spec_host false (user_proc tagged_x7 (fun _ => 0)) sb_x7_0_x6
          (get_insn_type sb_x7_0_x6)
          ([⟨copy_policy, 0⟩] ++ ⟨block_tagged_store, 0⟩ :: [⟨block_tagged_store, 0⟩])
          (loop_init 0 0) 0).entries
        = [⟨copy_policy, 0⟩, ⟨block_tagged_store, 1⟩, ⟨block_tagged_store, 0⟩] :=
  ⟨by decide, by decide, by decide,
    by
      rw [(block_allow_ends_loop spec_host false (user_proc tagged_x7 (fun _ => 0)) sb_x7_0_x6
        [⟨copy_policy, 0⟩] [⟨block_tagged_store, 0⟩] ⟨block_tagged_store, 0⟩ (loop_init 0 0) 0
        (by decide) (by decide) (Or.inl (by decide))).1]
      decide⟩


/-! ## Privilege bits -/

/-- Evaluating the predicates of a policy changes neither `priv_bits` nor the
running action. -/
theorem policy_match_frame {M : Type} (H : host_t M) (bench : Bool) (p : processor_t M)
    (insn : insn_t) (ty : ptaxi_insn_type_t) (policy : ptaxi_policy_t) (m1 : Bool)
    (v v1 : loop_vars) (h : policy_match H bench p insn ty v policy = .ok m1 v1) :
    v1.priv_bits = v.priv_bits ∧ v1.action = v.action := by
  unfold policy_match at h
  cases h1 : match_tag_arg1 H bench p insn ty policy
      (match_fields H p insn ty v.priv_bits policy) v with
  | trap va => rw [h1] at h; simp at h
  | ok ma va =>
    rw [h1] at h
    simp only [] at h
    cases h2 : match_tag_arg2 H bench p insn ty policy ma va with
    | trap vb => rw [h2] at h; simp at h
    | ok mb vb =>
      rw [h2] at h
      simp only [] at h
      have f1 := match_tag_arg1_frame H bench p insn ty policy _ _ _ _ h1
      have f2 := match_tag_arg2_frame H bench p insn ty policy _ _ _ _ h2
      have f3 : v1.priv_bits = vb.priv_bits ∧ v1.action = vb.action := by
        unfold match_tag_out at h
        by_cases c1 : mb = true ∧ (policy.tag_out_mask ≠ 0 ∨ policy.tag_out_tomodify ≠ 0)
        · rw [if_pos c1] at h
          by_cases c2 : vb.is_load_tag_out = true
          · rw [if_pos c2] at h; cases h; exact ⟨rfl, rfl⟩
          · rw [if_neg c2] at h
            cases hg : get_or_set_tag H p insn ty insn_var_type_t.INSN_OUT false 0 with
            | trap => rw [hg] at h; simp at h
            | ok a =>
              obtain ⟨t, p1⟩ := a
              rw [hg] at h
              cases h
              exact ⟨rfl, rfl⟩
        · rw [if_neg c1] at h; cases h; exact ⟨rfl, rfl⟩
      exact ⟨by rw [f3.1, f2.2.2.2.1, f1.2.2.2.1], by rw [f3.2, f2.2.2.2.2.1, f1.2.2.2.2.1]⟩

/-- C7 as stated fails: `priv_set_only` fires on `ADDI x5, x6, 0` with
`priv_tomodify = 0` and `priv_set = 1` in context 1, whose `priv_bits` is 0; the
stated update gives `(0 & ~0) | 1 = 1`, the code leaves `priv_bits` at 0. -/
theorem priv_bits_counterexample :
    (determine_ptaxi_action spec_host (one_context [⟨priv_set_only, 0⟩])
        (user_proc (fun _ => 0) (fun _ => 0)) addi_x5_x6_0).fired = [priv_set_only]
    ∧ (state_at (one_context [⟨priv_set_only, 0⟩]) 1).priv_bits = 0
    ∧ mask_update 0 priv_set_only.priv_tomodify priv_set_only.priv_set = 1
    ∧ (state_at (determine_ptaxi_action spec_host (one_context [⟨priv_set_only, 0⟩])
        (user_proc (fun _ => 0) (fun _ => 0)) addi_x5_x6_0).engine 1).priv_bits = 0 := by
  refine ⟨by decide, by decide, by decide, by decide⟩

/-- C7, amended. When an entry fires, the `priv_bits` of the current context right
after the firing are `(priv_bits & ~priv_tomodify) | priv_set` of those before it
if `priv_tomodify` is non-zero, and are unchanged if `priv_tomodify` is zero
(whatever `priv_set` is); the action of the policy is or-ed into the running
action. -/
theorem priv_bits_after_firing {M : Type} (H : host_t M) (bench : Bool) (p : processor_t M)
    (insn : insn_t) (ty : ptaxi_insn_type_t) (v : loop_vars) (entry : ptaxi_policy_context_t)
    (h : (policy_step H bench p insn ty v entry).is_fired = true) :
    (entry.policy.priv_tomodify ≠ 0 →
        (policy_step H bench p insn ty v entry).vars.priv_bits
          = mask_update v.priv_bits entry.policy.priv_tomodify entry.policy.priv_set)
    ∧ (entry.policy.priv_tomodify = 0 →
        (policy_step H bench p insn ty v entry).vars.priv_bits = v.priv_bits)
    ∧ (policy_step H bench p insn ty v entry).vars.action = v.action ||| entry.policy.action := by
  rw [policy_step_eq] at h ⊢
  revert h
  cases hm : policy_match H bench p insn ty v entry.policy with
  | trap v1 => intro h; simp [step_result.is_fired] at h
  | ok m v1 =>
    obtain ⟨hp, ha⟩ := policy_match_frame H bench p insn ty entry.policy m v v1 hm
    cases m
    · intro h; simp [step_result.is_fired] at h
    · intro h
      simp only [] at h ⊢
      by_cases hk : entry.match_count + 1 ≤ entry.policy.ignore_count
      · rw [if_pos hk] at h; simp [step_result.is_fired] at h
      · rw [if_neg hk]
        refine ⟨fun h0 => ?_, fun h0 => ?_, ?_⟩
        · simp only [step_result.vars, fire, hp]; rw [if_pos h0]
        · simp only [step_result.vars, fire, hp]; rw [if_neg (by simpa using h0)]
        · simp only [step_result.vars, fire, ha]

theorem priv_bits_after_firing_witness :
    (policy_step spec_host false (user_proc (fun _ => 0) (fun _ => 0)) addi_x5_x6_0
        (get_insn_type addi_x5_x6_0) (loop_init 6 0) ⟨priv_policy, 0⟩).is_fired = true
    ∧ (policy_step spec_host false (user_proc (fun _ => 0) (fun _ => 0)) addi_x5_x6_0
        (get_insn_type addi_x5_x6_0) (loop_init 6 0) ⟨priv_policy, 0⟩).vars.priv_bits = 1 :=
  ⟨by decide,
    ((priv_bits_after_firing spec_host false (user_proc (fun _ => 0) (fun _ => 0)) addi_x5_x6_0
      (get_insn_type addi_x5_x6_0) (loop_init 6 0) ⟨priv_policy, 0⟩ (by decide)).1
        (by decide)).trans (by decide)⟩


/-! ## When a policy matches -/

theorem guarded_iff (m : Bool) (mask : Nat) (c : Bool) :
    guarded m mask c = true ↔ m = true ∧ (mask ≠ 0 → c = true) := by
  unfold guarded
  by_cases hm : m = true <;> by_cases hk : mask = 0 <;> simp [hm, hk]

theorem match_fields_iff {M : Type} (H : host_t M) (p : processor_t M) (insn : insn_t)
    (ty : ptaxi_insn_type_t) (priv_bits : Nat) (policy : ptaxi_policy_t) :
    match_fields H p insn ty priv_bits policy = true
      ↔ (H.insn_type_code ty = policy.insn_type
        ∧ (policy.rs1_mask ≠ 0 → insn.rs1 &&& policy.rs1_mask = policy.rs1_match)
        ∧ (policy.rs2_mask ≠ 0 → insn.rs2 &&& policy.rs2_mask = policy.rs2_match)
        ∧ (policy.priv_mask ≠ 0 → priv_bits &&& policy.priv_mask = policy.priv_match)
        ∧ (policy.rs1val_mask ≠ 0 →
            p.XPR insn.rs1 &&& policy.rs1val_mask = policy.rs1val_match)
        ∧ (policy.rs2val_mask ≠ 0 →
            p.XPR insn.rs2 &&& policy.rs2val_mask = policy.rs2val_match)) := by
  unfold match_fields
  simp only [guarded_iff, decide_eq_true_eq, and_assoc]

theorem tag_ok_inj {M : Type} {r : tag_result (Nat × processor_t M)} {a b : Nat}
    {p : processor_t M} (h1 : r = .ok (a, p)) (h2 : r = .ok (b, p)) : a = b := by
  rw [h1] at h2
  simp only [tag_result.ok.injEq, Prod.mk.injEq] at h2
  exact h2.1

theorem match_tag_arg1_spec {M : Type} (H : host_t M) (bench : Bool) (p : processor_t M)
    (insn : insn_t) (policy : ptaxi_policy_t) (m : Bool) (v : loop_vars) (t1 : Nat)
    (hc : caches_ok H p insn v)
    (h1 : policy.tag_arg1_mask ≠ 0 →
      get_or_set_tag H p insn (get_insn_type insn) .INSN_ARG1 false 0 = .ok (t1, p)) :
    ∃ m1 v1, match_tag_arg1 H bench p insn (get_insn_type insn) policy m v = .ok m1 v1
      ∧ (m1 = true ↔ m = true
          ∧ (policy.tag_arg1_mask ≠ 0 → t1 &&& policy.tag_arg1_mask = policy.tag_arg1_match))
      ∧ caches_ok H p insn v1 ∧ v1.priv_bits = v.priv_bits := by
  unfold match_tag_arg1
  by_cases c1 : m = true ∧ policy.tag_arg1_mask ≠ 0
  · rw [if_pos c1]
    have hread := h1 c1.2
    by_cases c2 : v.is_load_tag_arg1 = true
    · rw [if_pos c2]
      have ht : v.tag_arg1 = t1 := tag_ok_inj (hc.1 c2) hread
      refine ⟨_, _, rfl, ?_, hc, rfl⟩
      simp [c1.1, c1.2, ht]
    · rw [if_neg c2, hread]
      refine ⟨_, _, rfl, ?_, ⟨fun _ => hread, hc.2.1, hc.2.2⟩, rfl⟩
      simp [c1.1, c1.2]
  · rw [if_neg c1]
    refine ⟨_, _, rfl, ?_, hc, rfl⟩
    constructor
    · intro hm
      exact ⟨hm, fun hk => absurd ⟨hm, hk⟩ c1⟩
    · intro h; exact h.1

theorem match_tag_arg2_spec {M : Type} (H : host_t M) (bench : Bool) (p : processor_t M)
    (insn : insn_t) (policy : ptaxi_policy_t) (m : Bool) (v : loop_vars) (t2 : Nat)
    (hc : caches_ok H p insn v)
    (h2 : policy.tag_arg2_mask ≠ 0 →
      get_or_set_tag H p insn (get_insn_type insn) .INSN_ARG2 false 0 = .ok (t2, p)) :
    ∃ m1 v1, match_tag_arg2 H bench p insn (get_insn_type insn) policy m v = .ok m1 v1
      ∧ (m1 = true ↔ m = true
          ∧ (policy.tag_arg2_mask ≠ 0 → t2 &&& policy.tag_arg2_mask = policy.tag_arg2_match))
      ∧ caches_ok H p insn v1 ∧ v1.priv_bits = v.priv_bits := by
  unfold match_tag_arg2
  by_cases c1 : m = true ∧ policy.tag_arg2_mask ≠ 0
  · rw [if_pos c1]
    have hread := h2 c1.2
    by_cases c2 : v.is_load_tag_arg2 = true
    · rw [if_pos c2]
      have ht : v.tag_arg2 = t2 := tag_ok_inj (hc.2.1 c2) hread
      refine ⟨_, _, rfl, ?_, hc, rfl⟩
      simp [c1.1, c1.2, ht]
    · rw [if_neg c2, hread]
      refine ⟨_, _, rfl, ?_, ⟨hc.1, fun _ => hread, hc.2.2⟩, rfl⟩
      simp [c1.1, c1.2]
  · rw [if_neg c1]
    refine ⟨_, _, rfl, ?_, hc, rfl⟩
    constructor
    · intro hm
      exact ⟨hm, fun hk => absurd ⟨hm, hk⟩ c1⟩
    · intro h; exact h.1

theorem match_tag_out_spec {M : Type} (H : host_t M) (bench : Bool) (p : processor_t M)
    (insn : insn_t) (policy : ptaxi_policy_t) (m : Bool) (v : loop_vars) (tout : Nat)
    (hc : caches_ok H p insn v)
    (h3 : policy.tag_out_mask ≠ 0 ∨ policy.tag_out_tomodify ≠ 0 →
      get_or_set_tag H p insn (get_insn_type insn) .INSN_OUT false 0 = .ok (tout, p)) :
    ∃ m1 v1, match_tag_out H bench p insn (get_insn_type insn) policy m v = .ok m1 v1
      ∧ (m1 = true ↔ m = true
          ∧ (policy.tag_out_mask ≠ 0 ∨ policy.tag_out_tomodify ≠ 0 →
              tout &&& policy.tag_out_mask = policy.tag_out_match))
      ∧ caches_ok H p insn v1 ∧ v1.priv_bits = v.priv_bits := by
  unfold match_tag_out
  by_cases c1 : m = true ∧ (policy.tag_out_mask ≠ 0 ∨ policy.tag_out_tomodify ≠ 0)
  · rw [if_pos c1]
    have hread := h3 c1.2
    by_cases c2 : v.is_load_tag_out = true
    · rw [if_pos c2]
      have ht : v.tag_out = tout := tag_ok_inj (hc.2.2 c2) hread
      refine ⟨_, _, rfl, ?_, hc, rfl⟩
      simp only [Bool.and_eq_true, decide_eq_true_eq, ht]
      exact ⟨fun h => ⟨h.1, fun _ => h.2⟩, fun h => ⟨h.1, h.2 c1.2⟩⟩
    · rw [if_neg c2, hread]
      refine ⟨_, _, rfl, ?_, ⟨hc.1, hc.2.1, fun _ => hread⟩, rfl⟩
      simp only [Bool.and_eq_true, decide_eq_true_eq]
      exact ⟨fun h => ⟨h.1, fun _ => h.2⟩, fun h => ⟨h.1, h.2 c1.2⟩⟩
  · rw [if_neg c1]
    refine ⟨_, _, rfl, ?_, hc, rfl⟩
    constructor
    · intro hm
      exact ⟨hm, fun hk => absurd ⟨hm, hk⟩ c1⟩
    · intro h; exact h.1

theorem caches_ok_init {M : Type} (H : host_t M) (p : processor_t M) (insn : insn_t)
    (priv_bits tag_read : Nat) : caches_ok H p insn (loop_init priv_bits tag_read) := by
  refine ⟨fun h => ?_, fun h => ?_, fun h => ?_⟩ <;> simp [loop_init] at h

/-- C6 as stated fails: on `ADDI x5, x6, 0` (kind COPY, every operand valid, all
tags 0) the policy `unmasked_out_policy` has the kind of the instruction and all
its masks are zero, so by the stated rule it matches; the code compares
`tag_out & 0` with `tag_out_match = 1` because `tag_out_tomodify` is non-zero, and
the policy does not match. -/
theorem policy_match_counterexample :
    matches_as_stated spec_host (user_proc (fun _ => 0) (fun _ => 0)) addi_x5_x6_0 0 0 0 0
        unmasked_out_policy
    ∧ (⟨false, user_proc (fun _ => 0) (fun _ => 0), addi_x5_x6_0, loop_init 0 0⟩ :
        evaluation (Nat → Nat)).matched spec_host unmasked_out_policy = false
    ∧ (determine_ptaxi_action spec_host (one_context [⟨unmasked_out_policy, 0⟩])
        (user_proc (fun _ => 0) (fun _ => 0)) addi_x5_x6_0).returned = some 0
    ∧ (state_at (determine_ptaxi_action spec_host (one_context [⟨unmasked_out_policy, 0⟩])
        (user_proc (fun _ => 0) (fun _ => 0)) addi_x5_x6_0).engine 1).policy_contexts
        = [⟨unmasked_out_policy, 0⟩] := by
  refine ⟨?_, by decide, by decide, by decide⟩
  unfold matches_as_stated
  decide

/-- C6, amended. In an iteration of the loop whose cached tags are those of the
operands, for a policy whose referenced operands can be read (`tag_arg1` when
`tag_arg1_mask` is non-zero, `tag_arg2` when `tag_arg2_mask` is, the destination
when `tag_out_mask` or `tag_out_tomodify` is), the predicates are evaluated
without a trap and the policy matches if and only if its `insn_type` is the kind
of the instruction and `(value & mask) == match` holds for each of `rs1`, `rs2`,
`priv`, `rs1val`, `rs2val`, `tag_arg1`, `tag_arg2` whose mask is non-zero, and for
`tag_out` when `tag_out_mask` or `tag_out_tomodify` is non-zero. -/
theorem policy_match_iff {M : Type} (H : host_t M) (bench : Bool) (p : processor_t M)
    (insn : insn_t) (policy : ptaxi_policy_t) (v : loop_vars) (t1 t2 tout : Nat)
    (hc : caches_ok H p insn v)
    (h1 : policy.tag_arg1_mask ≠ 0 →
      get_or_set_tag H p insn (get_insn_type insn) .INSN_ARG1 false 0 = .ok (t1, p))
    (h2 : policy.tag_arg2_mask ≠ 0 →
      get_or_set_tag H p insn (get_insn_type insn) .INSN_ARG2 false 0 = .ok (t2, p))
    (h3 : policy.tag_out_mask ≠ 0 ∨ policy.tag_out_tomodify ≠ 0 →
      get_or_set_tag H p insn (get_insn_type insn) .INSN_OUT false 0 = .ok (tout, p)) :
    ∃ m v1, policy_match H bench p insn (get_insn_type insn) v policy = .ok m v1
      ∧ (m = true ↔ matches_amended H p insn v.priv_bits t1 t2 tout policy)
      ∧ caches_ok H p insn v1 := by
  obtain ⟨ma, va, e1, i1, c1, _⟩ := match_tag_arg1_spec H bench p insn policy
    (match_fields H p insn (get_insn_type insn) v.priv_bits policy) v t1 hc h1
  obtain ⟨mb, vb, e2, i2, c2, _⟩ := match_tag_arg2_spec H bench p insn policy ma va t2 c1 h2
  obtain ⟨mc, vc, e3, i3, c3, _⟩ := match_tag_out_spec H bench p insn policy mb vb tout c2 h3
  refine ⟨mc, vc, ?_, ?_, c3⟩
  · unfold policy_match
    rw [e1]; simp only []
    rw [e2]; simp only []
    exact e3
  · rw [i3, i2, i1, match_fields_iff]
    unfold matches_amended
    simp only [and_assoc]

theorem policy_match_iff_witness :
    caches_ok spec_host (user_proc tagged_x6 (fun _ => 0)) addi_x5_x6_0 (loop_init 0 0)
    ∧ get_or_set_tag spec_host (user_proc tagged_x6 (fun _ => 0)) addi_x5_x6_0
        (get_insn_type addi_x5_x6_0) .INSN_ARG1 false 0
        = .ok (2, user_proc tagged_x6 (fun _ => 0))
    ∧ get_or_set_tag spec_host (user_proc tagged_x6 (fun _ => 0)) addi_x5_x6_0
        (get_insn_type addi_x5_x6_0) .INSN_OUT false 0
        = .ok (0, user_proc tagged_x6 (fun _ => 0))
    ∧ ∃ m v1, policy_match spec_host false (user_proc tagged_x6 (fun _ => 0)) addi_x5_x6_0
          (get_insn_type addi_x5_x6_0) (loop_init 0 0) copy_policy = .ok m v1
        ∧ (m = true ↔ matches_amended spec_host (user_proc tagged_x6 (fun _ => 0))
            addi_x5_x6_0 (loop_init 0 0).priv_bits 2 0 0 copy_policy)
        ∧ caches_ok spec_host (user_proc tagged_x6 (fun _ => 0)) addi_x5_x6_0 v1 :=
  ⟨caches_ok_init _ _ _ _ _, rfl, rfl,
    policy_match_iff spec_host false (user_proc tagged_x6 (fun _ => 0)) addi_x5_x6_0
      copy_policy (loop_init 0 0) 2 0 0 (caches_ok_init _ _ _ _ _) (fun _ => rfl)
      (fun h => absurd rfl h) (fun _ => rfl)⟩


/-! ## What the verbs do to the context store -/

theorem exec_changed_refl (s : ptaxi_context_state_t) : exec_changed s s := ⟨rfl, rfl⟩

theorem exec_changed_trans (a b c : ptaxi_context_state_t) (h1 : exec_changed a b)
    (h2 : exec_changed b c) : exec_changed a c :=
  ⟨h2.1.trans h1.1, h2.2.trans h1.2⟩

theorem exec_changed_of_eq (a b : ptaxi_context_state_t) (h : b = a) : exec_changed a b := by
  rw [h]; exact exec_changed_refl a

theorem exec_kept_trans (e e1 e2 : ptaxi_sim_t)
    (h1 : contexts_kept (fun _ => exec_changed) e e1)
    (h2 : contexts_kept (fun _ => exec_changed) e1 e2) :
    contexts_kept (fun _ => exec_changed) e e2 :=
  contexts_kept_trans _ (fun _ => exec_changed_trans) _ _ _ h1 h2

theorem exec_kept_get_ptaxi_context_id {M : Type} (H : host_t M) (e : ptaxi_sim_t)
    (p : processor_t M) (b : Bool) :
    contexts_kept (fun _ => exec_changed) e (get_ptaxi_context_id H e p b).2.1 :=
  contexts_kept_mono _ _ (fun _ a b h => exec_changed_of_eq a b h) _ _
    (contexts_kept_get_ptaxi_context_id H e p b)

theorem determine_ptaxi_action_exec_kept {M : Type} (H : host_t M) (e : ptaxi_sim_t)
    (p : processor_t M) (insn : insn_t) :
    contexts_kept (fun _ => exec_changed) e (determine_ptaxi_action H e p insn).engine :=
  contexts_kept_mono _ _ (fun _ _ _ h => ⟨h.1, h.2.2⟩) _ _
    (determine_ptaxi_action_engine H e p insn).1

theorem action_debug_block_kept {M : Type} (H : host_t M) (e : ptaxi_sim_t)
    (p : processor_t M) (a : Nat) :
    contexts_kept (fun _ => exec_changed) e (action_debug_block H e p a).2.1 := by
  unfold action_debug_block
  split_ifs
  · exact contexts_kept_refl _ (fun _ => exec_changed_refl) e
  · exact exec_kept_trans _ _ _ (exec_kept_get_ptaxi_context_id H e p true)
      (exec_kept_get_ptaxi_context_id H _ _ true)
  · exact exec_kept_get_ptaxi_context_id H e p true
  · exact exec_kept_get_ptaxi_context_id H e p true
  · exact contexts_kept_refl _ (fun _ => exec_changed_refl) e

theorem set_lowest_kept (e : ptaxi_sim_t) (c sp : Nat) :
    contexts_kept (fun _ => exec_changed) e
      (set_state e c { state_at e c with lowest_sp_addr := sp }) :=
  contexts_kept_set (fun _ => exec_changed) (fun _ => exec_changed_refl) e
    (set_state e c { state_at e c with lowest_sp_addr := sp }) c
    { state_at e c with lowest_sp_addr := sp } ⟨rfl, rfl⟩ rfl

theorem action_gc_kept {M : Type} (H : host_t M) (fuel : Nat) (e e1 : ptaxi_sim_t)
    (p p1 : processor_t M) (a : Nat) (h : action_gc H fuel e p a = some (e1, p1)) :
    contexts_kept (fun _ => exec_changed) e e1 := by
  unfold action_gc at h
  split_ifs at h
  · rw [get_ptaxi_context_id_false] at h
    simp only [] at h
    cases hs : scrub_loop H ((p.XPR REG_SP + WORD - 8) % WORD) fuel
        (((state_at { e with states := grow_states e.states (status_id H e p) }
          (status_id H e p)).lowest_sp_addr + WORD - 8) % WORD) p.mem with
    | none => rw [hs] at h; simp at h
    | some m =>
      rw [hs] at h
      simp only [Option.some.injEq, Prod.mk.injEq] at h
      rw [← h.1]
      refine exec_kept_trans _ _ _ ?_ (set_lowest_kept _ _ _)
      have := exec_kept_get_ptaxi_context_id H e p false
      rw [get_ptaxi_context_id_false] at this
      exact this
  · simp only [Option.some.injEq, Prod.mk.injEq] at h
    rw [← h.1]
    exact contexts_kept_refl _ (fun _ => exec_changed_refl) e

theorem track_sp_kept {M : Type} (H : host_t M) (e : ptaxi_sim_t) (p : processor_t M)
    (insn : insn_t) : contexts_kept (fun _ => exec_changed) e (track_sp H e p insn).1 := by
  have hg := exec_kept_get_ptaxi_context_id H e p false
  rw [get_ptaxi_context_id_false] at hg
  unfold track_sp
  rw [get_ptaxi_context_id_false]
  simp only []
  split_ifs
  · exact exec_kept_trans _ _ _ hg (set_lowest_kept _ _ _)
  · exact hg
  · exact hg
  · exact contexts_kept_refl _ (fun _ => exec_changed_refl) e

/-- Whatever way `execute_insn` ends, every context is kept with its `is_enable`
flag and its policy records. -/
theorem execute_insn_kept {M : Type} (H : host_t M) (fuel : Nat) (e e1 : ptaxi_sim_t)
    (p : processor_t M) (insn : insn_t) (func : func_t M)
    (h : (execute_insn H fuel e p insn func).engine = some e1) :
    contexts_kept (fun _ => exec_changed) e e1 := by
  have hd := determine_ptaxi_action_exec_kept H e p insn
  unfold execute_insn at h
  simp only [] at h
  cases hdet : determine_ptaxi_action H e p insn with
  | trap d ea pa =>
    rw [hdet] at h hd
    simp only [exec_result.engine, Option.some.injEq] at h
    rw [← h]; exact hd
  | ok a idx d ea pa =>
    rw [hdet] at h hd
    simp only [action_result.engine] at hd
    simp only [] at h
    have hb := action_debug_block_kept H ea pa a
    cases hadb : action_debug_block H ea pa a with
    | mk blocked ep =>
      obtain ⟨eb, pb⟩ := ep
      rw [hadb] at h hb
      simp only [] at hb
      have hdb := exec_kept_trans _ _ _ hd hb
      cases blocked
      · simp only [] at h
        cases hgc : action_gc H fuel eb pb a with
        | none => rw [hgc] at h; simp [exec_result.engine] at h
        | some ep2 =>
          obtain ⟨ec, pc⟩ := ep2
          rw [hgc] at h
          simp only [] at h
          have hc := exec_kept_trans _ _ _ hdb (action_gc_kept H fuel eb ec pb pc a hgc)
          cases hf : func (action_gettag H pc insn (get_insn_type insn) a
              (if get_insn_type insn = ptaxi_insn_type_t.PTAXI_INSN_TYPE_TAGCMD ∧ insn.rd ≠ 0
                then p.XPR_tag insn.rs2 else 0)) with
          | mk res pd =>
            rw [hf] at h
            cases res
            · simp only [exec_result.engine, Option.some.injEq] at h
              rw [← h]; exact hc
            · simp only [exec_result.engine, Option.some.injEq] at h
              rw [← h]
              exact exec_kept_trans _ _ _ hc (track_sp_kept H ec pd insn)
      · simp only [exec_result.engine, Option.some.injEq] at h
        rw [← h]; exact hdb


theorem state_at_get_ptaxi_context_id {M : Type} (H : host_t M) (e : ptaxi_sim_t)
    (p : processor_t M) (b : Bool) (i : Nat)
    (hi : i < (get_ptaxi_context_id H e p b).2.1.states.length) :
    state_at (get_ptaxi_context_id H e p b).2.1 i
      = if i < e.states.length then state_at e i else state_at e 0 := by
  obtain ⟨k, hk⟩ := get_ptaxi_context_id_states H e p b
  rw [hk] at hi ⊢
  simp only [List.length_append, List.length_replicate] at hi
  simp only [state_at]
  split_ifs with h
  · exact List.getD_append _ _ _ _ h
  · rw [List.getD_append_right _ _ _ _ (by omega), List.getD_eq_getElem?_getD,
      List.getElem?_replicate]
    have : i - e.states.length < k := by omega
    simp [this]

theorem add_policy_eq {M : Type} (H : host_t M) (e : ptaxi_sim_t) (p : processor_t M)
    (a b c : Nat) :
    (add_policy H e p a b c).1
      = set_state (get_ptaxi_context_id H e p true).2.1 (get_ptaxi_context_id H e p true).1
          { state_at (get_ptaxi_context_id H e p true).2.1 (get_ptaxi_context_id H e p true).1
            with policy_contexts :=
              (state_at (get_ptaxi_context_id H e p true).2.1
                (get_ptaxi_context_id H e p true).1).policy_contexts
              ++ [⟨H.deserialize a b c, 0⟩] } := rfl

theorem run_tag_command_eq {M : Type} (H : host_t M) (e : ptaxi_sim_t) (p : processor_t M)
    (cmd : Nat) :
    (run_tag_command H e p cmd).1
      = if cmd = 0 then
          set_state (get_ptaxi_context_id H e p true).2.1 (get_ptaxi_context_id H e p true).1
            { state_at (get_ptaxi_context_id H e p true).2.1
                (get_ptaxi_context_id H e p true).1 with is_enable := true }
        else (get_ptaxi_context_id H e p true).2.1 := by
  unfold run_tag_command
  split_ifs <;> rfl

/-- C8. Every verb of the engine keeps every context and, in each, the policy
records it had as a prefix of those it has afterwards (in fact `execute_insn`,
`run_tag_command`, `start_benchmark` and `stop_benchmark` keep the records as they
are).  `add_policy` appends exactly one entry, with match count 0, at the end of
the list of the current context (the id `get_ptaxi_context_id(p, true)` returns;
when that context is new it starts as a copy of context 0), and leaves every
other context as it was. -/
theorem policy_lists_append_only {M : Type} (H : host_t M) (e : ptaxi_sim_t)
    (p : processor_t M) (op : engine_op M) (e1 : ptaxi_sim_t) (p1 : processor_t M)
    (h : op.run H e p = some (e1, p1)) :
    contexts_kept (fun _ s s1 => policy_records s <+: policy_records s1) e e1
    ∧ ∀ a b c, op = .add_policy a b c →
        (state_at e1 (get_ptaxi_context_id H e p true).1).policy_contexts
          = (if (get_ptaxi_context_id H e p true).1 < e.states.length then
              (state_at e (get_ptaxi_context_id H e p true).1).policy_contexts
             else (state_at e 0).policy_contexts) ++ [⟨H.deserialize a b c, 0⟩]
        ∧ ∀ i, i < e.states.length → i ≠ (get_ptaxi_context_id H e p true).1 →
            state_at e1 i = state_at e i := by
  have hexec : ∀ e2 : ptaxi_sim_t, contexts_kept (fun _ => exec_changed) e e2 →
      contexts_kept (fun _ s s1 => policy_records s <+: policy_records s1) e e2 :=
    fun e2 hk => contexts_kept_mono _ _ (fun _ _ _ hc => by rw [hc.2]) _ _ hk
  cases op with
  | execute_insn fuel insn func =>
    refine ⟨?_, fun a b c hop => by cases hop⟩
    apply hexec
    apply execute_insn_kept H fuel e e1 p insn func
    simp only [engine_op.run] at h
    cases hx : execute_insn H fuel e p insn func with
    | retired res e2 p2 => rw [hx] at h; simp at h; rw [h.1]; rfl
    | trap_tag_violation e2 p2 => rw [hx] at h; simp at h; rw [h.1]; rfl
    | trap_func e2 p2 => rw [hx] at h; simp at h; rw [h.1]; rfl
    | running => rw [hx] at h; simp at h
  | add_policy a b c =>
    simp only [engine_op.run, Option.some.injEq] at h
    have he1 : e1 = (add_policy H e p a b c).1 := by rw [h]
    have hlt := get_ptaxi_context_id_lt H e p true
    have hst := state_at_get_ptaxi_context_id H e p true _ hlt
    have hkept := contexts_kept_get_ptaxi_context_id H e p true
    rw [he1, add_policy_eq]
    refine ⟨⟨?_, fun i hi => ?_⟩, fun a1 b1 c1 hop => ⟨?_, fun i hi hne => ?_⟩⟩
    · rw [length_set_state]; exact hkept.1
    · rw [state_at_set_state]
      split_ifs with hc
      · rw [← hc.1] at hi ⊢
        have := hkept.2 _ hi
        simp only [] at this
        simp only [policy_records, this, List.map_append]
        exact List.prefix_append _ _
      · rw [hkept.2 i hi]
    · cases hop
      rw [state_at_set_state, if_pos ⟨rfl, hlt⟩, hst]
      split_ifs <;> rfl
    · rw [state_at_set_state, if_neg (fun hc => hne hc.1.symm)]
      exact hkept.2 i hi
  | run_tag_command cmd =>
    refine ⟨?_, fun a b c hop => by cases hop⟩
    simp only [engine_op.run, Option.some.injEq] at h
    have he1 : e1 = (run_tag_command H e p cmd).1 := by rw [h]
    have hkept := contexts_kept_get_ptaxi_context_id H e p true
    rw [he1, run_tag_command_eq]
    split_ifs
    · refine ⟨by rw [length_set_state]; exact hkept.1, fun i hi => ?_⟩
      rw [state_at_set_state]
      split_ifs with hc
      · rw [← hc.1] at hi ⊢
        have := hkept.2 _ hi
        simp only [] at this
        simp only [policy_records, this]
        exact List.prefix_refl _
      · rw [hkept.2 i hi]
    · exact contexts_kept_mono _ _ (fun _ _ _ hc => by rw [hc]) _ _ hkept
  | start_benchmark =>
    refine ⟨?_, fun a b c hop => by cases hop⟩
    simp only [engine_op.run, Option.some.injEq, Prod.mk.injEq] at h
    rw [← h.1]
    refine ⟨?_, fun i _ => ?_⟩
    · unfold start_benchmark; split_ifs <;> exact Nat.le_refl _
    · have : state_at (start_benchmark e) i = state_at e i := by
        unfold start_benchmark state_at; split_ifs <;> rfl
      rw [this]
  | stop_benchmark =>
    refine ⟨?_, fun a b c hop => by cases hop⟩
    simp only [engine_op.run, Option.some.injEq, Prod.mk.injEq] at h
    rw [← h.1]
    refine ⟨?_, fun i _ => ?_⟩
    · unfold stop_benchmark; split_ifs <;> exact Nat.le_refl _
    · have : state_at (stop_benchmark e) i = state_at e i := by
        unfold stop_benchmark state_at; split_ifs <;> rfl
      rw [this]

theorem policy_lists_append_only_witness :
    (state_at (add_policy spec_host (one_context [⟨copy_policy, 0⟩])
        (user_proc (fun _ => 0) (fun _ => 0)) 6 0 0).1 1).policy_contexts
      = [⟨copy_policy, 0⟩, ⟨spec_host.deserialize 6 0 0, 0⟩]
    ∧ contexts_kept (fun _ s s1 => policy_records s <+: policy_records s1)
        (one_context [⟨copy_policy, 0⟩])
        (add_policy spec_host (one_context [⟨copy_policy, 0⟩])
          (user_proc (fun _ => 0) (fun _ => 0)) 6 0 0).1 :=
  ⟨by decide,
    (policy_lists_append_only spec_host (one_context [⟨copy_policy, 0⟩])
      (user_proc (fun _ => 0) (fun _ => 0)) (.add_policy 6 0 0)
      (add_policy spec_host (one_context [⟨copy_policy, 0⟩])
        (user_proc (fun _ => 0) (fun _ => 0)) 6 0 0).1
      (add_policy spec_host (one_context [⟨copy_policy, 0⟩])
        (user_proc (fun _ => 0) (fun _ => 0)) 6 0 0).2 rfl).1⟩

/-- C9. `run_tag_command(cmd)` keeps every context with its `priv_bits`,
`lowest_sp_addr` and policy list, and with its `is_enable` flag unless `cmd` is 0
and the context is the current one (the id that `get_ptaxi_context_id(p, true)`
returns); with `cmd == 0` the flag of the current context is true afterwards. -/
theorem run_tag_command_effect {M : Type} (H : host_t M) (e : ptaxi_sim_t)
    (p : processor_t M) (cmd : Nat) :
    contexts_kept
        (fun i s s1 => s1.priv_bits = s.priv_bits ∧ s1.lowest_sp_addr = s.lowest_sp_addr
          ∧ s1.policy_contexts = s.policy_contexts
          ∧ (cmd ≠ 0 ∨ i ≠ (get_ptaxi_context_id H e p true).1 → s1.is_enable = s.is_enable))
        e (run_tag_command H e p cmd).1
    ∧ (get_ptaxi_context_id H e p true).1 < (run_tag_command H e p cmd).1.states.length
    ∧ (cmd = 0 →
        (state_at (run_tag_command H e p cmd).1 (get_ptaxi_context_id H e p true).1).is_enable
          = true) := by
  have hlt := get_ptaxi_context_id_lt H e p true
  have hkept := contexts_kept_get_ptaxi_context_id H e p true
  rw [run_tag_command_eq]
  by_cases hcmd : cmd = 0
  · rw [if_pos hcmd]
    refine ⟨⟨by rw [length_set_state]; exact hkept.1, fun i hi => ?_⟩,
      by rw [length_set_state]; exact hlt, fun _ => ?_⟩
    · rw [state_at_set_state]
      split_ifs with hc
      · rw [← hc.1] at hi ⊢
        have := hkept.2 _ hi
        simp only [] at this
        rw [← this]
        exact ⟨rfl, rfl, rfl, fun hor => by
          rcases hor with h1 | h1
          · exact absurd hcmd h1
          · exact absurd rfl h1⟩
      · rw [hkept.2 i hi]
        exact ⟨rfl, rfl, rfl, fun _ => rfl⟩
    · rw [state_at_set_state, if_pos ⟨rfl, hlt⟩]
  · rw [if_neg hcmd]
    refine ⟨⟨hkept.1, fun i hi => ?_⟩, hlt, fun h0 => absurd h0 hcmd⟩
    rw [hkept.2 i hi]
    exact ⟨rfl, rfl, rfl, fun _ => rfl⟩


/-! ## Context 0 -/

theorem reachable_run_tag_command {M : Type} (H : host_t M) (e : ptaxi_sim_t)
    (p : processor_t M) (cmd : Nat) (h : reachable H e) :
    reachable H (run_tag_command H e p cmd).1 :=
  reachable.step e p (.run_tag_command cmd) _ (run_tag_command H e p cmd).2 h rfl

theorem fill_store_spec (n : Nat) (hn : n ≤ 127) :
    reachable spec_host (fill_store n) ∧ (fill_store n).states.length = n + 1
      ∧ (fill_store n).benchmark_mode = false := by
  induction n with
  | zero => exact ⟨reachable.new false zero_counters, rfl, rfl⟩
  | succ n ih =>
    obtain ⟨hr, hl, hb⟩ := ih (by omega)
    have hid : status_id spec_host (fill_store n) zero_id_proc = 0 := by
      simp only [status_id, hb]
      decide
    have hget : get_ptaxi_context_id spec_host (fill_store n) zero_id_proc true
        = ((fill_store n).states.length,
            { fill_store n with
              states := grow_states (fill_store n).states (fill_store n).states.length },
            { zero_id_proc with
              sr := zero_id_proc.sr ||| ((fill_store n).states.length <<< SR_TAG_SHIFT) }) := by
      rw [get_ptaxi_context_id_true, if_pos hid, if_neg (by rw [hl]; omega)]
    refine ⟨reachable_run_tag_command spec_host _ zero_id_proc 1 hr, ?_, ?_⟩
    · show (run_tag_command spec_host (fill_store n) zero_id_proc 1).1.states.length = n + 1 + 1
      rw [run_tag_command_eq, if_neg (by decide), hget]
      simp only [length_grow_states, hl]
      omega
    · show (run_tag_command spec_host (fill_store n) zero_id_proc 1).1.benchmark_mode = false
      rw [run_tag_command_eq, if_neg (by decide), hget]
      exact hb

/-- C10 as stated fails: after 127 allocations the store holds 128 contexts; the
next `run_tag_command(0)` made with context id 0 in the status register gets id 0
back from `get_ptaxi_context_id` and sets the `is_enable` flag of context 0. -/
theorem context0_counterexample :
    reachable spec_host full_store_enabled
    ∧ (state_at full_store_enabled 0).is_enable = true := by
  obtain ⟨hr, hl, hb⟩ := fill_store_spec 127 (Nat.le_refl _)
  refine ⟨reachable_run_tag_command spec_host _ zero_id_proc 0 hr, ?_⟩
  have hid : status_id spec_host (fill_store 127) zero_id_proc = 0 := by
    simp only [status_id, hb]
    decide
  have hget : get_ptaxi_context_id spec_host (fill_store 127) zero_id_proc true
      = (0, fill_store 127, zero_id_proc) := by
    rw [get_ptaxi_context_id_true, if_pos hid, if_pos (by omega)]
  unfold full_store_enabled
  rw [run_tag_command_eq, if_pos rfl, hget, state_at_set_state]
  simp [hl]

theorem get_ptaxi_context_id_zero {M : Type} (H : host_t M) (e : ptaxi_sim_t)
    (p : processor_t M) (h0 : 0 < e.states.length)
    (h : (get_ptaxi_context_id H e p true).1 = 0) :
    128 ≤ (get_ptaxi_context_id H e p true).2.1.states.length := by
  rw [get_ptaxi_context_id_true] at h ⊢
  split_ifs at h ⊢ with h1 h2
  · exact h2
  · simp only at h; omega
  · simp only at h; exact absurd h h1

theorem add_policy_kept {M : Type} (H : host_t M) (e : ptaxi_sim_t) (p : processor_t M)
    (a b c : Nat) :
    contexts_kept (fun _ s s1 => s1.is_enable = s.is_enable) e (add_policy H e p a b c).1 := by
  have hkept := contexts_kept_get_ptaxi_context_id H e p true
  rw [add_policy_eq]
  refine ⟨by rw [length_set_state]; exact hkept.1, fun i hi => ?_⟩
  rw [state_at_set_state]
  split_ifs with hc
  · rw [← hc.1] at hi ⊢
    have := hkept.2 _ hi
    simp only [] at this
    rw [← this]
  · rw [hkept.2 i hi]

theorem run_tag_command_flag_kept {M : Type} (H : host_t M) (e : ptaxi_sim_t)
    (p : processor_t M) (cmd : Nat) :
    contexts_kept
      (fun i s s1 => cmd ≠ 0 ∨ i ≠ (get_ptaxi_context_id H e p true).1 →
        s1.is_enable = s.is_enable)
      e (run_tag_command H e p cmd).1 := by
  have hkept := contexts_kept_get_ptaxi_context_id H e p true
  rw [run_tag_command_eq]
  by_cases hcmd : cmd = 0
  · rw [if_pos hcmd]
    refine ⟨by rw [length_set_state]; exact hkept.1, fun i hi hor => ?_⟩
    have hne : (get_ptaxi_context_id H e p true).1 ≠ i := by
      rcases hor with h1 | h1
      · exact absurd hcmd h1
      · exact fun h => h1 h.symm
    rw [state_at_set_state, if_neg (fun hc => hne hc.1), hkept.2 i hi]
  · rw [if_neg hcmd]
    exact ⟨hkept.1, fun i hi _ => by rw [hkept.2 i hi]⟩

/-- C10, amended. In every state reachable from a freshly constructed engine by
calls of `execute_insn`, `add_policy`, `run_tag_command`, `start_benchmark` and
`stop_benchmark`, on any processor states, context 0 exists, and its `is_enable`
flag is false as long as the store holds fewer than 128 contexts. -/
theorem context0_invariant {M : Type} (H : host_t M) (e : ptaxi_sim_t) (h : reachable H e) :
    0 < e.states.length ∧ (e.states.length < 128 → (state_at e 0).is_enable = false) := by
  induction h with
  | new bm c => exact ⟨Nat.zero_lt_one, fun _ => rfl⟩
  | step e p op e1 p1 _ hrun ih =>
    obtain ⟨hpos, hflag⟩ := ih
    have hgen : contexts_kept (fun _ s s1 => s1.is_enable = s.is_enable) e e1 →
        0 < e1.states.length ∧ (e1.states.length < 128 → (state_at e1 0).is_enable = false) :=
      fun hk => ⟨Nat.lt_of_lt_of_le hpos hk.1, fun hl => by
        rw [hk.2 0 hpos]; exact hflag (Nat.lt_of_le_of_lt hk.1 hl)⟩
    cases op with
    | execute_insn fuel insn func =>
      apply hgen
      refine contexts_kept_mono _ _ (fun _ _ _ hc => hc.1) _ _
        (execute_insn_kept H fuel e e1 p insn func ?_)
      simp only [engine_op.run] at hrun
      cases hx : execute_insn H fuel e p insn func with
      | retired res e2 p2 => rw [hx] at hrun; simp at hrun; rw [hrun.1]; rfl
      | trap_tag_violation e2 p2 => rw [hx] at hrun; simp at hrun; rw [hrun.1]; rfl
      | trap_func e2 p2 => rw [hx] at hrun; simp at hrun; rw [hrun.1]; rfl
      | running => rw [hx] at hrun; simp at hrun
    | add_policy a b c =>
      simp only [engine_op.run, Option.some.injEq] at hrun
      have he1 : e1 = (add_policy H e p a b c).1 := by rw [hrun]
      rw [he1]
      have hk := add_policy_kept H e p a b c
      exact ⟨Nat.lt_of_lt_of_le hpos hk.1, fun hl => by
        rw [hk.2 0 hpos]; exact hflag (Nat.lt_of_le_of_lt hk.1 hl)⟩
    | run_tag_command cmd =>
      simp only [engine_op.run, Option.some.injEq] at hrun
      have he1 : e1 = (run_tag_command H e p cmd).1 := by rw [hrun]
      have hk := run_tag_command_flag_kept H e p cmd
      rw [he1]
      refine ⟨Nat.lt_of_lt_of_le hpos hk.1, fun hl => ?_⟩
      have hne : cmd ≠ 0 ∨ 0 ≠ (get_ptaxi_context_id H e p true).1 := by
        by_cases hc : (get_ptaxi_context_id H e p true).1 = 0
        · left
          intro hcmd
          have h128 := get_ptaxi_context_id_zero H e p hpos hc
          rw [run_tag_command_eq, if_pos hcmd, length_set_state] at hl
          omega
        · right; exact fun h => hc h.symm
      rw [hk.2 0 hpos hne]
      exact hflag (Nat.lt_of_le_of_lt hk.1 hl)
    | start_benchmark =>
      simp only [engine_op.run, Option.some.injEq, Prod.mk.injEq] at hrun
      rw [← hrun.1]
      have : (start_benchmark e).states = e.states := by
        unfold start_benchmark; split_ifs <;> rfl
      simp only [state_at, this]
      exact ⟨hpos, hflag⟩
    | stop_benchmark =>
      simp only [engine_op.run, Option.some.injEq, Prod.mk.injEq] at hrun
      rw [← hrun.1]
      have : (stop_benchmark e).states = e.states := by
        unfold stop_benchmark; split_ifs <;> rfl
      simp only [state_at, this]
      exact ⟨hpos, hflag⟩

theorem context0_invariant_witness :
    reachable spec_host
        (run_tag_command spec_host (ptaxi_sim_new false zero_counters) zero_id_proc 0).1
    ∧ 0 < (run_tag_command spec_host (ptaxi_sim_new false zero_counters)
        zero_id_proc 0).1.states.length
    ∧ ((run_tag_command spec_host (ptaxi_sim_new false zero_counters)
          zero_id_proc 0).1.states.length < 128 →
        (state_at (run_tag_command spec_host (ptaxi_sim_new false zero_counters)
          zero_id_proc 0).1 0).is_enable = false) :=
  ⟨reachable_run_tag_command spec_host _ zero_id_proc 0 (reachable.new false zero_counters),
    context0_invariant spec_host _
      (reachable_run_tag_command spec_host _ zero_id_proc 0 (reachable.new false zero_counters))⟩


/-- Scenario 4 of the spec on the engine: the tag of x5 stays 0 after the first
and the second execution, is 2 after the third and the fourth, and the match
count is 4 at the end. -/
theorem ignore_count_scenario :
    (repeat_matcher 1).2.XPR_tag 5 = 0 ∧ (repeat_matcher 2).2.XPR_tag 5 = 0
    ∧ (repeat_matcher 3).2.XPR_tag 5 = 2 ∧ (repeat_matcher 4).2.XPR_tag 5 = 2
    ∧ (state_at (repeat_matcher 4).1 1).policy_contexts = [⟨ignore2_policy, 4⟩] := by
  refine ⟨by decide, by decide, by decide, by decide, by decide⟩

theorem run_tag_command_effect_witness :
    (get_ptaxi_context_id spec_host (one_context []) zero_id_proc true).1 = 2
    ∧ (state_at (run_tag_command spec_host (one_context []) zero_id_proc 0).1 2).is_enable = true
    ∧ (state_at (run_tag_command spec_host (one_context []) zero_id_proc 0).1 0).is_enable
        = false
    ∧ (state_at (run_tag_command spec_host (one_context []) zero_id_proc 7).1 2).is_enable
        = false :=
  ⟨by decide,
    (run_tag_command_effect spec_host (one_context []) zero_id_proc 0).2.2 rfl,
    by decide, by decide⟩


/-! ## The cached tags -/

theorem get_or_set_tag_read_eq {M : Type} (H : host_t M) (p p1 : processor_t M)
    (insn : insn_t) (ty : ptaxi_insn_type_t) (var : insn_var_type_t) (t : Nat)
    (h : get_or_set_tag H p insn ty var false 0 = .ok (t, p1)) :
    get_or_set_tag H p insn ty var false 0 = .ok (t, p) := by
  have := (get_or_set_tag_frame H p insn ty var false 0 t p1 h).2.2.2 rfl
  rw [this] at h
  exact h

theorem match_tag_arg1_caches {M : Type} (H : host_t M) (bench : Bool) (p : processor_t M)
    (insn : insn_t) (policy : ptaxi_policy_t) (m m1 : Bool) (v v1 : loop_vars)
    (h : match_tag_arg1 H bench p insn (get_insn_type insn) policy m v = .ok m1 v1)
    (hc : caches_ok H p insn v) : caches_ok H p insn v1 := by
  unfold match_tag_arg1 at h
  by_cases c1 : m = true ∧ policy.tag_arg1_mask ≠ 0
  · rw [if_pos c1] at h
    by_cases c2 : v.is_load_tag_arg1 = true
    · rw [if_pos c2] at h; cases h; exact hc
    · rw [if_neg c2] at h
      cases hg : get_or_set_tag H p insn (get_insn_type insn) insn_var_type_t.INSN_ARG1
          false 0 with
      | trap => rw [hg] at h; simp at h
      | ok a =>
        obtain ⟨t, p1⟩ := a
        rw [hg] at h
        cases h
        exact ⟨fun _ => get_or_set_tag_read_eq H p p1 insn _ _ t hg, hc.2.1, hc.2.2⟩
  · rw [if_neg c1] at h; cases h; exact hc

theorem match_tag_arg2_caches {M : Type} (H : host_t M) (bench : Bool) (p : processor_t M)
    (insn : insn_t) (policy : ptaxi_policy_t) (m m1 : Bool) (v v1 : loop_vars)
    (h : match_tag_arg2 H bench p insn (get_insn_type insn) policy m v = .ok m1 v1)
    (hc : caches_ok H p insn v) : caches_ok H p insn v1 := by
  unfold match_tag_arg2 at h
  by_cases c1 : m = true ∧ policy.tag_arg2_mask ≠ 0
  · rw [if_pos c1] at h
    by_cases c2 : v.is_load_tag_arg2 = true
    · rw [if_pos c2] at h; cases h; exact hc
    · rw [if_neg c2] at h
      cases hg : get_or_set_tag H p insn (get_insn_type insn) insn_var_type_t.INSN_ARG2
          false 0 with
      | trap => rw [hg] at h; simp at h
      | ok a =>
        obtain ⟨t, p1⟩ := a
        rw [hg] at h
        cases h
        exact ⟨hc.1, fun _ => get_or_set_tag_read_eq H p p1 insn _ _ t hg, hc.2.2⟩
  · rw [if_neg c1] at h; cases h; exact hc

theorem match_tag_out_caches {M : Type} (H : host_t M) (bench : Bool) (p : processor_t M)
    (insn : insn_t) (policy : ptaxi_policy_t) (m m1 : Bool) (v v1 : loop_vars)
    (h : match_tag_out H bench p insn (get_insn_type insn) policy m v = .ok m1 v1)
    (hc : caches_ok H p insn v) : caches_ok H p insn v1 := by
  unfold match_tag_out at h
  by_cases c1 : m = true ∧ (policy.tag_out_mask ≠ 0 ∨ policy.tag_out_tomodify ≠ 0)
  · rw [if_pos c1] at h
    by_cases c2 : v.is_load_tag_out = true
    · rw [if_pos c2] at h; cases h; exact hc
    · rw [if_neg c2] at h
      cases hg : get_or_set_tag H p insn (get_insn_type insn) insn_var_type_t.INSN_OUT
          false 0 with
      | trap => rw [hg] at h; simp at h
      | ok a =>
        obtain ⟨t, p1⟩ := a
        rw [hg] at h
        cases h
        exact ⟨hc.1, hc.2.1, fun _ => get_or_set_tag_read_eq H p p1 insn _ _ t hg⟩
  · rw [if_neg c1] at h; cases h; exact hc

theorem policy_match_caches {M : Type} (H : host_t M) (bench : Bool) (p : processor_t M)
    (insn : insn_t) (policy : ptaxi_policy_t) (m : Bool) (v v1 : loop_vars)
    (h : policy_match H bench p insn (get_insn_type insn) v policy = .ok m v1)
    (hc : caches_ok H p insn v) : caches_ok H p insn v1 := by
  unfold policy_match at h
  cases h1 : match_tag_arg1 H bench p insn (get_insn_type insn) policy
      (match_fields H p insn (get_insn_type insn) v.priv_bits policy) v with
  | trap va => rw [h1] at h; simp at h
  | ok ma va =>
    rw [h1] at h
    simp only [] at h
    cases h2 : match_tag_arg2 H bench p insn (get_insn_type insn) policy ma va with
    | trap vb => rw [h2] at h; simp at h
    | ok mb vb =>
      rw [h2] at h
      simp only [] at h
      exact match_tag_out_caches H bench p insn policy mb m vb v1 h
        (match_tag_arg2_caches H bench p insn policy ma mb va vb h2
          (match_tag_arg1_caches H bench p insn policy _ ma v va h1 hc))

/-- An iteration of the loop that does not throw leaves the cached tags those of
the operands. -/
theorem policy_step_caches {M : Type} (H : host_t M) (bench : Bool) (p : processor_t M)
    (insn : insn_t) (v : loop_vars) (entry : ptaxi_policy_context_t)
    (hc : caches_ok H p insn v) :
    match policy_step H bench p insn (get_insn_type insn) v entry with
    | .trap _ => True
    | .no_match v1 => caches_ok H p insn v1
    | .ignored v1 _ => caches_ok H p insn v1
    | .fired v1 _ _ => caches_ok H p insn v1 := by
  rw [policy_step_eq]
  cases hm : policy_match H bench p insn (get_insn_type insn) v entry.policy with
  | trap v1 => trivial
  | ok m v1 =>
    have h1 := policy_match_caches H bench p insn entry.policy m v v1 hm hc
    cases m
    · exact h1
    · simp only []
      split_ifs
      · exact h1
      · exact h1

/-- Wherever the policy loop is left without a trap, and so on arrival at every
entry it reaches, the cached tags are those of the operands. -/
theorem policy_loop_caches {M : Type} (H : host_t M) (bench : Bool) (p : processor_t M)
    (insn : insn_t) (l : List ptaxi_policy_context_t) :
    ∀ (v : loop_vars) (i : Nat), caches_ok H p insn v →
      (policy_loop H bench p insn (get_insn_type insn) l v i).trapped = false →
      caches_ok H p insn (policy_loop H bench p insn (get_insn_type insn) l v i).vars := by
  induction l with
  | nil => intro v i hc _; rw [policy_loop_nil]; exact hc
  | cons entry rest ih =>
    intro v i hc
    have hs := policy_step_caches H bench p insn v entry hc
    rw [policy_loop_cons]
    cases hstep : policy_step H bench p insn (get_insn_type insn) v entry with
    | trap v1 => intro ht; simp [loop_continue] at ht
    | no_match v1 =>
      rw [hstep] at hs
      simp only [loop_continue, loop_result.cons]
      exact ih v1 (i + 1) hs
    | ignored v1 entry1 =>
      rw [hstep] at hs
      simp only [loop_continue, loop_result.cons]
      exact ih v1 (i + 1) hs
    | fired v1 entry1 b =>
      rw [hstep] at hs
      cases b
      · simp only [loop_continue, loop_result.cons, Bool.false_eq_true, if_false]
        exact ih v1 (i + 1) hs
      · simp only [loop_continue, if_true]
        intro _; exact hs


/-! ## The classifier and the operand resolver -/

/-- C15: `get_insn_type` returns a kind for every instruction, and the kind is the
one the table of the specification gives for the opcode, the width sub-code, the
I-immediate, `rs1` and `rd`. -/
theorem get_insn_type_table (insn : insn_t) :
    get_insn_type insn = insn_type_table insn.opcode insn.rm insn.i_imm insn.rs1 insn.rd := by
  symm
  unfold insn_type_table
  split <;>
    simp_all [get_insn_type, OPCODE_LOAD, OPCODE_STORE, OPCODE_OP, OPCODE_OPIMM, OPCODE_JAL,
      OPCODE_JALR, OPCODE_TAGCMD, OPCODE_TAGPOLICY]

theorem add_imm_lt (a : Nat) (i : Int) : add_imm a i < WORD := by
  unfold add_imm
  have h : (0 : Int) < (WORD : Int) := by unfold WORD; norm_num
  have h1 := Int.emod_lt_of_pos ((a : Int) + i) h
  have h2 := Int.emod_nonneg ((a : Int) + i) (ne_of_gt h)
  omega

theorem add_imm_modEq (a : Nat) (i : Int) :
    ((add_imm a i : Nat) : Int) % (WORD : Int) = ((a : Int) + i) % (WORD : Int) := by
  unfold add_imm
  have h : (0 : Int) < (WORD : Int) := by unfold WORD; norm_num
  have h2 := Int.emod_nonneg ((a : Int) + i) (ne_of_gt h)
  rw [Int.toNat_of_nonneg h2, Int.emod_emod_of_dvd _ (dvd_refl _)]

theorem clear_bit0 (a : Nat) (h : a < WORD) : a &&& (WORD - 2) = 2 * (a / 2) := by
  apply Nat.eq_of_testBit_eq
  intro i
  rw [Nat.testBit_and]
  cases i with
  | zero =>
    have h2 : (WORD - 2) % 2 = 0 := by decide
    simp [Nat.testBit_zero, h2]
  | succ j =>
    have h3 : (WORD - 2) / 2 = 2 ^ 63 - 1 := by decide
    have h4 : 2 * (a / 2) / 2 = a / 2 := by omega
    rw [Nat.testBit_succ, Nat.testBit_succ, Nat.testBit_succ, h3, h4,
      Nat.testBit_two_pow_sub_one]
    by_cases hj : j < 63
    · simp [hj]
    · have h5 : a / 2 < 2 ^ j := by
        have h6 : a / 2 < 2 ^ 63 := by unfold WORD at h; omega
        exact lt_of_lt_of_le h6 (Nat.pow_le_pow_right (by decide) (by omega))
      simp [hj, Nat.testBit_lt_two_pow h5]

theorem resolve_operand_table {M : Type} (p : processor_t M) (insn : insn_t)
    (insn_type : ptaxi_insn_type_t) (var_type : insn_var_type_t)
    (h1 : insn.rs1 < 32) (h2 : insn.rs2 < 32) (hd : insn.rd < 32) :
    resolve_operand p insn insn_type var_type
      = operand_table (p.XPR insn.rs1) insn insn_type var_type := by
  have e1 : insn.rs1 % 256 = insn.rs1 := Nat.mod_eq_of_lt (by omega)
  have e2 : insn.rs2 % 256 = insn.rs2 := Nat.mod_eq_of_lt (by omega)
  have ed : insn.rd % 256 = insn.rd := Nat.mod_eq_of_lt (by omega)
  have ec := clear_bit0 (add_imm (p.XPR insn.rs1) insn.i_imm) (add_imm_lt _ _)
  cases insn_type <;> cases var_type <;>
    simp [resolve_operand, operand_table, ptaxi_insn_type_t.is_load,
      ptaxi_insn_type_t.is_store, ptaxi_insn_type_t.is_jalr, ptaxi_insn_type_t.no_operand,
      e1, e2, ed, ec]

/-- C19: for every kind and role `get_or_set_tag` resolves the operand as the
table of the specification says (register indices are 5-bit fields); the
addresses are sums modulo 2^64; and on an invalid resolution the call throws,
whether it was to read or to write, before anything is written. -/
theorem operand_resolution {M : Type} (H : host_t M) (p : processor_t M) (insn : insn_t)
    (insn_type : ptaxi_insn_type_t) (var_type : insn_var_type_t)
    (h1 : insn.rs1 < 32) (h2 : insn.rs2 < 32) (hd : insn.rd < 32) :
    resolve_operand p insn insn_type var_type
        = operand_table (p.XPR insn.rs1) insn insn_type var_type
      ∧ (∀ imm : Int, add_imm (p.XPR insn.rs1) imm < 2 ^ 64
          ∧ ((add_imm (p.XPR insn.rs1) imm : Nat) : Int) % 2 ^ 64
              = ((p.XPR insn.rs1 : Int) + imm) % 2 ^ 64)
      ∧ (operand_table (p.XPR insn.rs1) insn insn_type var_type = .invalid →
          ∀ (set_tag : Bool) (tag_val : Nat),
            get_or_set_tag H p insn insn_type var_type set_tag tag_val = .trap) := by
  have ht := resolve_operand_table p insn insn_type var_type h1 h2 hd
  refine ⟨ht, ?_, ?_⟩
  · intro imm
    have ha := add_imm_lt (p.XPR insn.rs1) imm
    have hb := add_imm_modEq (p.XPR insn.rs1) imm
    unfold WORD at ha hb
    exact ⟨ha, by exact_mod_cast hb⟩
  · intro hi set_tag tag_val
    unfold get_or_set_tag
    rw [ht, hi]

theorem operand_resolution_witness :
    resolve_operand (user_proc tagged_x6 (fun _ => 4097)) jalr_x1_8_x6 .PTAXI_INSN_TYPE_JALR
        .INSN_ARG2 = .mem 4104
      ∧ get_or_set_tag spec_host (user_proc tagged_x6 (fun _ => 4097)) jalr_x1_8_x6
          .PTAXI_INSN_TYPE_JAL .INSN_ARG2 true 3 = .trap :=
  ⟨(operand_resolution spec_host (user_proc tagged_x6 (fun _ => 4097)) jalr_x1_8_x6
      .PTAXI_INSN_TYPE_JALR .INSN_ARG2 (by decide) (by decide) (by decide)).1.trans (by decide),
   (operand_resolution spec_host (user_proc tagged_x6 (fun _ => 4097)) jalr_x1_8_x6
      .PTAXI_INSN_TYPE_JAL .INSN_ARG2 (by decide) (by decide) (by decide)).2.2 (by decide)
      true 3⟩

/-- C16: when the operand of a role resolves to register index 0, a read of its
tag returns 0 and a write of any tag value returns without a trap, and either
leaves the processor, so every register tag and every memory tag, as it was. -/
theorem register_zero_access {M : Type} (H : host_t M) (p : processor_t M) (insn : insn_t)
    (insn_type : ptaxi_insn_type_t) (var_type : insn_var_type_t)
    (h : resolve_operand p insn insn_type var_type = .reg 0) (tag_val : Nat) :
    get_or_set_tag H p insn insn_type var_type false tag_val = .ok (0, p)
      ∧ get_or_set_tag H p insn insn_type var_type true tag_val = .ok (0, p) := by
  unfold get_or_set_tag
  rw [h]
  simp

theorem register_zero_access_witness :
    resolve_operand zero_id_proc addi_x0_x6_0 .PTAXI_INSN_TYPE_COPY .INSN_OUT = .reg 0
      ∧ get_or_set_tag spec_host zero_id_proc addi_x0_x6_0 .PTAXI_INSN_TYPE_COPY .INSN_OUT
          false 9 = .ok (0, zero_id_proc)
      ∧ get_or_set_tag spec_host zero_id_proc addi_x0_x6_0 .PTAXI_INSN_TYPE_COPY .INSN_OUT
          true 9 = .ok (0, zero_id_proc) :=
  ⟨by decide, register_zero_access spec_host zero_id_proc addi_x0_x6_0 .PTAXI_INSN_TYPE_COPY
    .INSN_OUT (by decide) 9⟩

/-- C17, as amended: for a memory operand the width check goes by the direction
of the access, not by the kind of the instruction: a read of the tag throws
exactly when the width sub-code is outside 0..6, a write exactly when it is
outside 0..3. -/
theorem width_check_by_direction {M : Type} (H : host_t M) (p : processor_t M) (insn : insn_t)
    (insn_type : ptaxi_insn_type_t) (var_type : insn_var_type_t) (addr : Nat)
    (h : resolve_operand p insn insn_type var_type = .mem addr) (tag_val : Nat) :
    ((get_or_set_tag H p insn insn_type var_type false tag_val).trapped = true
        ↔ 6 < insn.rm % 256)
      ∧ ((get_or_set_tag H p insn insn_type var_type true tag_val).trapped = true
        ↔ 3 < insn.rm % 256) := by
  unfold get_or_set_tag
  rw [h]
  constructor
  · unfold load_tag_from_mem
    simp only [Bool.false_eq_true, if_false]
    split_ifs <;> simp [tag_result.trapped] <;> omega
  · unfold store_tag_to_mem
    simp only [if_true]
    split_ifs <;> simp [tag_result.trapped] <;> omega

theorem width_check_by_direction_witness :
    resolve_operand (user_proc tagged_x7 (fun _ => 64)) store_width5 .PTAXI_INSN_TYPE_STORE
        .INSN_OUT = .mem 64
      ∧ (((get_or_set_tag spec_host (user_proc tagged_x7 (fun _ => 64)) store_width5
            .PTAXI_INSN_TYPE_STORE .INSN_OUT false 0).trapped = true ↔ 6 < store_width5.rm % 256)
        ∧ ((get_or_set_tag spec_host (user_proc tagged_x7 (fun _ => 64)) store_width5
            .PTAXI_INSN_TYPE_STORE .INSN_OUT true 0).trapped = true
              ↔ 3 < store_width5.rm % 256)) :=
  ⟨by decide, width_check_by_direction spec_host (user_proc tagged_x7 (fun _ => 64))
    store_width5 .PTAXI_INSN_TYPE_STORE .INSN_OUT 64 (by decide) 0⟩

/-- C17, the claim as stated fails: a store-kind instruction with width sub-code
5, outside 0..3, has a memory operand whose tag is read without a trap (the write
does throw). -/
theorem width_check_counterexample :
    get_insn_type store_width5 = .PTAXI_INSN_TYPE_STORE
      ∧ ¬ store_width5.rm ≤ 3
      ∧ resolve_operand (user_proc tagged_x7 (fun _ => 64)) store_width5
          (get_insn_type store_width5) .INSN_OUT = .mem 64
      ∧ (get_or_set_tag spec_host (user_proc tagged_x7 (fun _ => 64)) store_width5
          (get_insn_type store_width5) .INSN_OUT false 0).trapped = false
      ∧ (get_or_set_tag spec_host (user_proc tagged_x7 (fun _ => 64)) store_width5
          (get_insn_type store_width5) .INSN_OUT true 0).trapped = true := by
  decide


/-! ## Instructions of a kind that no policy names -/

theorem policy_match_other_kind {M : Type} (H : host_t M) (bench : Bool) (p : processor_t M)
    (insn : insn_t) (ty : ptaxi_insn_type_t) (v : loop_vars) (policy : ptaxi_policy_t)
    (h : policy.insn_type ≠ H.insn_type_code ty) :
    policy_match H bench p insn ty v policy = .ok false v := by
  have hf : match_fields H p insn ty v.priv_bits policy = false := by
    have hd : decide (H.insn_type_code ty = policy.insn_type) = false :=
      decide_eq_false (fun e => h e.symm)
    simp [match_fields, guarded, hd]
  simp [policy_match, hf, match_tag_arg1, match_tag_arg2, match_tag_out]

theorem policy_loop_other_kind {M : Type} (H : host_t M) (bench : Bool) (p : processor_t M)
    (insn : insn_t) (ty : ptaxi_insn_type_t) (l : List ptaxi_policy_context_t) :
    ∀ (v : loop_vars) (i : Nat),
      (∀ entry ∈ l, entry.policy.insn_type ≠ H.insn_type_code ty) →
      policy_loop H bench p insn ty l v i
        = { vars := v, entries := l, fired := [], i := i + l.length, trapped := false } := by
  induction l with
  | nil => intro v i _; rw [policy_loop_nil]; rfl
  | cons entry rest ih =>
    intro v i h
    have h1 := policy_match_other_kind H bench p insn ty v entry.policy
      (h entry (List.mem_cons_self _ _))
    rw [policy_loop_cons]
    simp only [policy_step, h1, loop_continue]
    rw [ih v (i + 1) (fun x hx => h x (List.mem_cons_of_mem _ hx))]
    simp [loop_result.cons, Nat.add_assoc, Nat.add_comm 1]

theorem set_getD_self {α : Type} (l : List α) (i : Nat) (d : α) :
    l.set i (l.getD i d) = l := by
  apply List.ext_getElem?
  intro j
  rw [List.getElem?_set]
  split_ifs with h1 h2
  · subst h1
    rw [List.getD_eq_getElem?_getD, List.getElem?_eq_getElem h2]
    rfl
  · subst h1
    rw [List.getElem?_eq_none (by omega)]
  · rfl

/-- C18, as amended: for an instruction of kind UNKNOWN, when no policy of the
current context has the code of UNKNOWN as its `insn_type`, the matcher returns
action 0 without a trap, fires no policy, and leaves the processor (so every tag)
and every context (so `priv_bits` and every match count) as they were; the store
at most grows by copies of context 0. -/
theorem unknown_kind_no_match {M : Type} (H : host_t M) (e : ptaxi_sim_t) (p : processor_t M)
    (insn : insn_t) (hk : get_insn_type insn = .PTAXI_INSN_TYPE_UNKNOWN)
    (hp : ∀ entry ∈ (state_at (get_ptaxi_context_id H e p false).2.1
        (get_ptaxi_context_id H e p false).1).policy_contexts,
      entry.policy.insn_type ≠ H.insn_type_code .PTAXI_INSN_TYPE_UNKNOWN) :
    (determine_ptaxi_action H e p insn).returned = some 0
      ∧ (determine_ptaxi_action H e p insn).fired = []
      ∧ (determine_ptaxi_action H e p insn).proc = p
      ∧ (∃ k : Nat, (determine_ptaxi_action H e p insn).engine.states
          = e.states ++ List.replicate k (state_at e 0))
      ∧ ∀ i, i < e.states.length →
          state_at (determine_ptaxi_action H e p insn).engine i = state_at e i := by
  rw [get_ptaxi_context_id_false] at hp
  rw [determine_ptaxi_action_eq]
  by_cases hc : status_id H e p = 0
      ∨ (state_at { e with states := grow_states e.states (status_id H e p) }
          (status_id H e p)).is_enable = false
      ∨ p.supervisor = true
  · rw [if_pos hc]
    exact ⟨rfl, rfl, rfl, ⟨_, rfl⟩, fun i hi => getD_grow_states _ _ _ hi⟩
  · rw [if_neg hc]
    unfold determine_enforcing
    rw [hk, policy_loop_other_kind H _ p insn _ _ _ _ hp]
    have hst := (determine_finish_engine H
      { e with states := grow_states e.states (status_id H e p) } p (status_id H e p) insn
      { vars := loop_init
          (state_at { e with states := grow_states e.states (status_id H e p) }
            (status_id H e p)).priv_bits e.counters.tag_read,
        entries := (state_at { e with states := grow_states e.states (status_id H e p) }
            (status_id H e p)).policy_contexts,
        fired := [], i := 0 + (state_at { e with states := grow_states e.states (status_id H e p) }
            (status_id H e p)).policy_contexts.length, trapped := false }).1
    have hs : (grow_states e.states (status_id H e p)).set (status_id H e p)
        { state_at { e with states := grow_states e.states (status_id H e p) }
            (status_id H e p) with
          priv_bits := (state_at { e with states := grow_states e.states (status_id H e p) }
            (status_id H e p)).priv_bits,
          policy_contexts := (state_at { e with states := grow_states e.states (status_id H e p) }
            (status_id H e p)).policy_contexts }
        = grow_states e.states (status_id H e p) :=
      set_getD_self _ _ default_state
    simp only [loop_init] at hst
    rw [hs] at hst
    refine ⟨?_, ?_, ?_, ⟨_, hst⟩, ?_⟩
    · rw [determine_finish_returned_eq]; simp [loop_init]
    · rw [determine_finish_fired]
    · rw [determine_finish_proc_eq]; simp [loop_init]
    · intro i hi
      exact (congrArg (fun l => List.getD l i default_state) hst).trans
        (getD_grow_states _ _ _ hi)

theorem unknown_kind_no_match_witness :
    get_insn_type lui_x5 = .PTAXI_INSN_TYPE_UNKNOWN
      ∧ (determine_ptaxi_action spec_host (one_context [⟨copy_policy, 0⟩])
          (user_proc tagged_x6 (fun _ => 0)) lui_x5).returned = some 0
      ∧ (determine_ptaxi_action spec_host (one_context [⟨copy_policy, 0⟩])
          (user_proc tagged_x6 (fun _ => 0)) lui_x5).fired = [] :=
  ⟨by decide,
   (unknown_kind_no_match spec_host (one_context [⟨copy_policy, 0⟩])
      (user_proc tagged_x6 (fun _ => 0)) lui_x5 (by decide) (by decide)).1,
   (unknown_kind_no_match spec_host (one_context [⟨copy_policy, 0⟩])
      (user_proc tagged_x6 (fun _ => 0)) lui_x5 (by decide) (by decide)).2.1⟩

/-- C18, the claim as stated fails: in an enforcing context a policy whose
`insn_type` is the code of UNKNOWN matches an instruction of kind UNKNOWN; it
fires, its match count goes up, `priv_bits` changes and its action is returned;
and a policy of that type that compares an operand tag makes the matcher throw. -/
theorem unknown_kind_counterexample :
    get_insn_type lui_x5 = .PTAXI_INSN_TYPE_UNKNOWN
      ∧ (state_at (one_context [⟨unknown_kind_policy, 0⟩]) 1).is_enable = true
      ∧ (determine_ptaxi_action spec_host (one_context [⟨unknown_kind_policy, 0⟩])
          (user_proc tagged_x6 (fun _ => 0)) lui_x5).returned = some 4
      ∧ (determine_ptaxi_action spec_host (one_context [⟨unknown_kind_policy, 0⟩])
          (user_proc tagged_x6 (fun _ => 0)) lui_x5).fired = [unknown_kind_policy]
      ∧ state_at (determine_ptaxi_action spec_host (one_context [⟨unknown_kind_policy, 0⟩])
          (user_proc tagged_x6 (fun _ => 0)) lui_x5).engine 1
          = { is_enable := true, priv_bits := 1, lowest_sp_addr := 0,
              policy_contexts := [⟨unknown_kind_policy, 1⟩] }
      ∧ (determine_ptaxi_action spec_host (one_context [⟨unknown_kind_tag_policy, 0⟩])
          (user_proc tagged_x6 (fun _ => 0)) lui_x5).returned = none := by
  decide


/-! ## The size of the context store -/

theorem status_id_lt {M : Type} (H : host_t M) (hsr : H.SR_TAG = 127 <<< SR_TAG_SHIFT)
    (e : ptaxi_sim_t) (p : processor_t M) : status_id H e p < 128 := by
  unfold status_id
  split_ifs
  · decide
  · rw [hsr]
    have h1 : p.sr &&& (127 <<< SR_TAG_SHIFT) ≤ 127 <<< SR_TAG_SHIFT := Nat.and_le_right
    have h2 : (127 <<< SR_TAG_SHIFT : Nat) = 65024 := by decide
    rw [h2] at h1 ⊢
    rw [Nat.shiftRight_eq_div_pow]
    have h3 : (2 : Nat) ^ SR_TAG_SHIFT = 512 := by decide
    rw [h3]
    omega

theorem status_field_write (sr n : Nat) (h0 : (sr &&& (127 <<< SR_TAG_SHIFT)) >>> SR_TAG_SHIFT = 0)
    (hn : n < 128) :
    ((sr ||| (n <<< SR_TAG_SHIFT)) &&& (127 <<< SR_TAG_SHIFT)) >>> SR_TAG_SHIFT = n := by
  have hs : SR_TAG_SHIFT = 9 := rfl
  rw [hs] at h0 ⊢
  have hy : sr &&& (127 <<< 9) = 0 := by
    have h1 : (sr &&& (127 <<< 9)) &&& (2 ^ 9 - 1) = 0 := by
      rw [Nat.and_assoc]
      have : (127 <<< 9) &&& (2 ^ 9 - 1) = 0 := by decide
      rw [this, Nat.and_zero]
    rw [Nat.and_pow_two_sub_one_eq_mod] at h1
    rw [Nat.shiftRight_eq_div_pow] at h0
    have h3 := Nat.div_add_mod (sr &&& (127 <<< 9)) (2 ^ 9)
    rw [h0, h1] at h3
    omega
  have hx : (n <<< 9) &&& (127 <<< 9) = n <<< 9 := by
    interval_cases n <;> rfl
  rw [Nat.and_distrib_right, hy, hx, Nat.zero_or, Nat.shiftLeft_shiftRight]

theorem get_ptaxi_context_id_le {M : Type} (H : host_t M)
    (hsr : H.SR_TAG = 127 <<< SR_TAG_SHIFT) (e : ptaxi_sim_t) (p : processor_t M) (b : Bool) :
    (get_ptaxi_context_id H e p b).2.1.states.length ≤ max e.states.length 128 := by
  have hlt := status_id_lt H hsr e p
  cases b
  · rw [get_ptaxi_context_id_false]; simp only [length_grow_states]; omega
  · rw [get_ptaxi_context_id_true]
    split_ifs
    · simp only; omega
    · simp only [length_grow_states]; omega
    · simp only [length_grow_states]; omega

theorem get_ptaxi_context_id_ge {M : Type} (H : host_t M) (e : ptaxi_sim_t) (p : processor_t M)
    (b : Bool) : e.states.length ≤ (get_ptaxi_context_id H e p b).2.1.states.length :=
  (contexts_kept_get_ptaxi_context_id H e p b).1

theorem determine_ptaxi_action_le {M : Type} (H : host_t M)
    (hsr : H.SR_TAG = 127 <<< SR_TAG_SHIFT) (e : ptaxi_sim_t) (p : processor_t M)
    (insn : insn_t) :
    (determine_ptaxi_action H e p insn).engine.states.length ≤ max e.states.length 128 := by
  have hlt := status_id_lt H hsr e p
  rw [determine_ptaxi_action_eq]
  split_ifs
  · simp only [action_result.engine, length_grow_states]; omega
  · unfold determine_enforcing
    rw [(determine_finish_engine H _ _ _ _ _).1, List.length_set]
    simp only [length_grow_states]; omega

/-- A relation between the engine before and after that holds across each stage
of `execute_insn` holds across the whole call. -/
theorem execute_insn_stages {M : Type} (H : host_t M) (R : ptaxi_sim_t → ptaxi_sim_t → Prop)
    (htrans : ∀ a b c, R a b → R b c → R a c)
    (hdet : ∀ e p insn, R e (determine_ptaxi_action H e p insn).engine)
    (hblock : ∀ e p a, R e (action_debug_block H e p a).2.1)
    (hgc : ∀ fuel e p a e1 p1, action_gc H fuel e p a = some (e1, p1) → R e e1)
    (hsp : ∀ e p insn, R e (track_sp H e p insn).1)
    (fuel : Nat) (e e1 : ptaxi_sim_t) (p : processor_t M) (insn : insn_t) (func : func_t M)
    (h : (execute_insn H fuel e p insn func).engine = some e1) : R e e1 := by
  have hd := hdet e p insn
  unfold execute_insn at h
  simp only [] at h
  cases hdet1 : determine_ptaxi_action H e p insn with
  | trap d ea pa =>
    rw [hdet1] at h hd
    simp only [exec_result.engine, Option.some.injEq] at h
    rw [← h]; exact hd
  | ok a idx d ea pa =>
    rw [hdet1] at h hd
    simp only [action_result.engine] at hd
    simp only [] at h
    have hb := hblock ea pa a
    cases hadb : action_debug_block H ea pa a with
    | mk blocked ep =>
      obtain ⟨eb, pb⟩ := ep
      rw [hadb] at h hb
      simp only [] at hb
      have hdb := htrans _ _ _ hd hb
      cases blocked
      · simp only [] at h
        cases hgc1 : action_gc H fuel eb pb a with
        | none => rw [hgc1] at h; simp [exec_result.engine] at h
        | some ep2 =>
          obtain ⟨ec, pc⟩ := ep2
          rw [hgc1] at h
          simp only [] at h
          have hc := htrans _ _ _ hdb (hgc fuel eb pb a ec pc hgc1)
          cases hf : func (action_gettag H pc insn (get_insn_type insn) a
              (if get_insn_type insn = ptaxi_insn_type_t.PTAXI_INSN_TYPE_TAGCMD ∧ insn.rd ≠ 0
                then p.XPR_tag insn.rs2 else 0)) with
          | mk res pd =>
            rw [hf] at h
            cases res
            · simp only [exec_result.engine, Option.some.injEq] at h
              rw [← h]; exact hc
            · simp only [exec_result.engine, Option.some.injEq] at h
              rw [← h]
              exact htrans _ _ _ hc (hsp ec pd insn)
      · simp only [exec_result.engine, Option.some.injEq] at h
        rw [← h]; exact hdb

theorem action_debug_block_le {M : Type} (H : host_t M)
    (hsr : H.SR_TAG = 127 <<< SR_TAG_SHIFT) (e : ptaxi_sim_t) (p : processor_t M) (a : Nat) :
    (action_debug_block H e p a).2.1.states.length ≤ max e.states.length 128 := by
  unfold action_debug_block
  split_ifs
  · simp only; omega
  · have h1 := get_ptaxi_context_id_le H hsr e p true
    have h2 := get_ptaxi_context_id_le H hsr (get_ptaxi_context_id H e p true).2.1
      (get_ptaxi_context_id H e p true).2.2 true
    simp only [] at h2 ⊢
    omega
  · exact get_ptaxi_context_id_le H hsr e p true
  · exact get_ptaxi_context_id_le H hsr e p true
  · simp only; omega

theorem action_gc_le {M : Type} (H : host_t M) (hsr : H.SR_TAG = 127 <<< SR_TAG_SHIFT)
    (fuel : Nat) (e : ptaxi_sim_t) (p : processor_t M) (a : Nat) (e1 : ptaxi_sim_t)
    (p1 : processor_t M) (h : action_gc H fuel e p a = some (e1, p1)) :
    e1.states.length ≤ max e.states.length 128 := by
  have hg := get_ptaxi_context_id_le H hsr e p false
  unfold action_gc at h
  split_ifs at h
  · rw [get_ptaxi_context_id_false] at h hg
    simp only [] at h hg
    cases hs : scrub_loop H ((p.XPR REG_SP + WORD - 8) % WORD) fuel
        (((state_at { e with states := grow_states e.states (status_id H e p) }
          (status_id H e p)).lowest_sp_addr + WORD - 8) % WORD) p.mem with
    | none => rw [hs] at h; simp at h
    | some m =>
      rw [hs] at h
      simp only [Option.some.injEq, Prod.mk.injEq] at h
      rw [← h.1, length_set_state]
      exact hg
  · simp only [Option.some.injEq, Prod.mk.injEq] at h
    rw [← h.1]; omega

theorem track_sp_le {M : Type} (H : host_t M) (hsr : H.SR_TAG = 127 <<< SR_TAG_SHIFT)
    (e : ptaxi_sim_t) (p : processor_t M) (insn : insn_t) :
    (track_sp H e p insn).1.states.length ≤ max e.states.length 128 := by
  have hg := get_ptaxi_context_id_le H hsr e p false
  rw [get_ptaxi_context_id_false] at hg
  unfold track_sp
  rw [get_ptaxi_context_id_false]
  simp only [] at hg ⊢
  split_ifs
  · rw [length_set_state]; exact hg
  · exact hg
  · exact hg
  · exact le_max_left _ _

theorem engine_op_run_le {M : Type} (H : host_t M) (hsr : H.SR_TAG = 127 <<< SR_TAG_SHIFT)
    (e : ptaxi_sim_t) (p : processor_t M) (op : engine_op M) (e1 : ptaxi_sim_t)
    (p1 : processor_t M) (h : op.run H e p = some (e1, p1)) :
    e1.states.length ≤ max e.states.length 128 := by
  cases op with
  | execute_insn fuel insn func =>
    refine execute_insn_stages H (fun a b => b.states.length ≤ max a.states.length 128)
      (fun a b c h1 h2 => by simp only [] at h1 h2 ⊢; omega)
      (determine_ptaxi_action_le H hsr) (action_debug_block_le H hsr)
      (fun fuel e p a e1 p1 => action_gc_le H hsr fuel e p a e1 p1) (track_sp_le H hsr)
      fuel e e1 p insn func ?_
    simp only [engine_op.run] at h
    cases hx : execute_insn H fuel e p insn func with
    | retired res e2 p2 => rw [hx] at h; simp only [Option.some.injEq, Prod.mk.injEq] at h; rw [← h.1]; rfl
    | trap_tag_violation e2 p2 => rw [hx] at h; simp only [Option.some.injEq, Prod.mk.injEq] at h; rw [← h.1]; rfl
    | trap_func e2 p2 => rw [hx] at h; simp only [Option.some.injEq, Prod.mk.injEq] at h; rw [← h.1]; rfl
    | running => rw [hx] at h; simp at h
  | add_policy a b c =>
    simp only [engine_op.run, Option.some.injEq] at h
    have h1 := congrArg Prod.fst h
    simp only [] at h1
    rw [← h1, add_policy_eq, length_set_state]
    exact get_ptaxi_context_id_le H hsr e p true
  | run_tag_command cmd =>
    simp only [engine_op.run, Option.some.injEq] at h
    have h1 := congrArg Prod.fst h
    simp only [] at h1
    rw [← h1, run_tag_command_eq]
    split_ifs
    · rw [length_set_state]; exact get_ptaxi_context_id_le H hsr e p true
    · exact get_ptaxi_context_id_le H hsr e p true
  | start_benchmark =>
    simp only [engine_op.run, Option.some.injEq, Prod.mk.injEq] at h
    rw [← h.1]; unfold start_benchmark; split_ifs <;> simp
  | stop_benchmark =>
    simp only [engine_op.run, Option.some.injEq, Prod.mk.injEq] at h
    rw [← h.1]; unfold stop_benchmark; split_ifs <;> simp

theorem engine_op_run_ge {M : Type} (H : host_t M) (e : ptaxi_sim_t) (p : processor_t M)
    (op : engine_op M) (e1 : ptaxi_sim_t) (p1 : processor_t M)
    (h : op.run H e p = some (e1, p1)) : e.states.length ≤ e1.states.length := by
  cases op with
  | execute_insn fuel insn func =>
    refine (execute_insn_kept H fuel e e1 p insn func ?_).1
    simp only [engine_op.run] at h
    cases hx : execute_insn H fuel e p insn func with
    | retired res e2 p2 => rw [hx] at h; simp only [Option.some.injEq, Prod.mk.injEq] at h; rw [← h.1]; rfl
    | trap_tag_violation e2 p2 => rw [hx] at h; simp only [Option.some.injEq, Prod.mk.injEq] at h; rw [← h.1]; rfl
    | trap_func e2 p2 => rw [hx] at h; simp only [Option.some.injEq, Prod.mk.injEq] at h; rw [← h.1]; rfl
    | running => rw [hx] at h; simp at h
  | add_policy a b c =>
    simp only [engine_op.run, Option.some.injEq] at h
    have h1 := congrArg Prod.fst h
    simp only [] at h1
    rw [← h1]
    exact (add_policy_kept H e p a b c).1
  | run_tag_command cmd =>
    simp only [engine_op.run, Option.some.injEq] at h
    have h1 := congrArg Prod.fst h
    simp only [] at h1
    rw [← h1]
    exact (run_tag_command_flag_kept H e p cmd).1
  | start_benchmark =>
    simp only [engine_op.run, Option.some.injEq, Prod.mk.injEq] at h
    rw [← h.1]; unfold start_benchmark; split_ifs <;> simp
  | stop_benchmark =>
    simp only [engine_op.run, Option.some.injEq, Prod.mk.injEq] at h
    rw [← h.1]; unfold stop_benchmark; split_ifs <;> simp

theorem reachable_length_le {M : Type} (H : host_t M) (hsr : H.SR_TAG = 127 <<< SR_TAG_SHIFT)
    (e : ptaxi_sim_t) (h : reachable H e) : e.states.length ≤ 128 := by
  induction h with
  | new bm c => simp [ptaxi_sim_new]
  | step e p op e1 p1 _ hrun ih =>
    have := engine_op_run_le H hsr e p op e1 p1 hrun
    omega

/-- C11: `get_ptaxi_context_id(p, true)` with benchmark mode off and a zero
context field in the status register (the 7-bit field at offset 9).  With fewer
than 128 contexts it returns the size of the store, at most 127 and greater than
the id any call returned while the store was no larger than it is now (so any
earlier call, as the store never shrinks), leaves that id in the status field and
appends one copy of context 0, which is the context of the new id.  With 128
contexts or more it returns 0 and leaves the engine and the processor as they
were.  No call and no verb of the engine makes the store smaller, and a store the
host can bring about never has more than 128 contexts. -/
theorem context_allocation {M : Type} (H : host_t M) (hsr : H.SR_TAG = 127 <<< SR_TAG_SHIFT)
    (e : ptaxi_sim_t) (p : processor_t M) (hbm : e.benchmark_mode = false)
    (hz : (p.sr &&& H.SR_TAG) >>> SR_TAG_SHIFT = 0) :
    (e.states.length < 128 →
        (get_ptaxi_context_id H e p true).1 = e.states.length
        ∧ (get_ptaxi_context_id H e p true).1 ≤ 127
        ∧ (∀ (e0 : ptaxi_sim_t) (p0 : processor_t M) (b : Bool),
            (get_ptaxi_context_id H e0 p0 b).2.1.states.length ≤ e.states.length →
            (get_ptaxi_context_id H e0 p0 b).1 < (get_ptaxi_context_id H e p true).1)
        ∧ ((get_ptaxi_context_id H e p true).2.2.sr &&& H.SR_TAG) >>> SR_TAG_SHIFT
            = (get_ptaxi_context_id H e p true).1
        ∧ (get_ptaxi_context_id H e p true).2.1.states = e.states ++ [state_at e 0]
        ∧ state_at (get_ptaxi_context_id H e p true).2.1 (get_ptaxi_context_id H e p true).1
            = state_at e 0)
      ∧ (128 ≤ e.states.length → get_ptaxi_context_id H e p true = (0, e, p))
      ∧ (∀ (e2 : ptaxi_sim_t) (p2 : processor_t M) (b : Bool),
          e2.states.length ≤ (get_ptaxi_context_id H e2 p2 b).2.1.states.length)
      ∧ (∀ (e2 : ptaxi_sim_t) (p2 : processor_t M) (op : engine_op M) (e3 : ptaxi_sim_t)
          (p3 : processor_t M), op.run H e2 p2 = some (e3, p3) →
          e2.states.length ≤ e3.states.length)
      ∧ (∀ e2 : ptaxi_sim_t, reachable H e2 → e2.states.length ≤ 128) := by
  have hid : status_id H e p = 0 := by simp only [status_id, hbm]; exact hz
  refine ⟨fun hlt => ?_, fun hge => ?_, fun e2 p2 b => get_ptaxi_context_id_ge H e2 p2 b,
    fun e2 p2 op e3 p3 h => engine_op_run_ge H e2 p2 op e3 p3 h,
    fun e2 h => reachable_length_le H hsr e2 h⟩
  · have hget : get_ptaxi_context_id H e p true
        = (e.states.length, { e with states := grow_states e.states e.states.length },
            { p with sr := p.sr ||| (e.states.length <<< SR_TAG_SHIFT) }) := by
      rw [get_ptaxi_context_id_true, if_pos hid, if_neg (by omega)]
    have hgrow : grow_states e.states e.states.length = e.states ++ [state_at e 0] := by
      have h1 : e.states.length + 1 - e.states.length = 1 := by omega
      simp [grow_states, h1, state_at]
    rw [hget]
    refine ⟨rfl, by simp only; omega, fun e0 p0 b hle => ?_, ?_, hgrow, ?_⟩
    · have := get_ptaxi_context_id_lt H e0 p0 b
      simp only; omega
    · simp only []
      rw [hsr] at hz ⊢
      exact status_field_write p.sr e.states.length hz hlt
    · simp only [state_at]
      rw [hgrow, List.getD_append_right _ _ _ _ (le_refl _)]
      simp [state_at, List.getD_eq_getElem?_getD]
  · rw [get_ptaxi_context_id_true, if_pos hid, if_pos hge]

theorem context_allocation_witness :
    (get_ptaxi_context_id spec_host (fill_store 2) zero_id_proc true).1 = 3
      ∧ ((get_ptaxi_context_id spec_host (fill_store 2) zero_id_proc true).2.2.sr
          &&& spec_host.SR_TAG) >>> SR_TAG_SHIFT = 3
      ∧ (get_ptaxi_context_id spec_host (fill_store 2) zero_id_proc true).2.1.states
          = (fill_store 2).states ++ [state_at (fill_store 2) 0] :=
  ⟨((context_allocation spec_host rfl (fill_store 2) zero_id_proc rfl (by decide)).1
      (by decide)).1.trans (by decide),
   (((context_allocation spec_host rfl (fill_store 2) zero_id_proc rfl (by decide)).1
      (by decide)).2.2.2.1).trans (by decide),
   ((context_allocation spec_host rfl (fill_store 2) zero_id_proc rfl (by decide)).1
      (by decide)).2.2.2.2.1⟩


/-! ## The two halves of `execute_insn` -/

theorem execute_insn_eq {M : Type} (H : host_t M) (fuel : Nat) (e : ptaxi_sim_t)
    (p : processor_t M) (insn : insn_t) (func : func_t M) :
    execute_insn H fuel e p insn func
      = match before_func H fuel e p insn with
        | .error r => r
        | .ok (_, e3, q) => after_func H e3 q insn func := by
  unfold execute_insn before_func after_func
  simp only []
  cases determine_ptaxi_action H e p insn with
  | trap d ea pa => rfl
  | ok a idx d ea pa =>
    simp only []
    cases action_debug_block H ea pa a with
    | mk blocked ep =>
      obtain ⟨eb, pb⟩ := ep
      cases blocked
      · simp only []
        cases action_gc H fuel eb pb a with
        | none => rfl
        | some ep2 => rfl
      · rfl

theorem action_debug_block_proc {M : Type} (H : host_t M) (e : ptaxi_sim_t)
    (p : processor_t M) (a : Nat) :
    (action_debug_block H e p a).2.2.XPR = p.XPR
      ∧ (action_debug_block H e p a).2.2.XPR_tag = p.XPR_tag
      ∧ (action_debug_block H e p a).2.2.mem = p.mem
      ∧ (action_debug_block H e p a).2.2.supervisor = p.supervisor := by
  have hg : ∀ (e : ptaxi_sim_t) (p : processor_t M),
      (get_ptaxi_context_id H e p true).2.2.XPR = p.XPR
      ∧ (get_ptaxi_context_id H e p true).2.2.XPR_tag = p.XPR_tag
      ∧ (get_ptaxi_context_id H e p true).2.2.mem = p.mem
      ∧ (get_ptaxi_context_id H e p true).2.2.supervisor = p.supervisor := by
    intro e p
    rw [get_ptaxi_context_id_true]
    split_ifs <;> exact ⟨rfl, rfl, rfl, rfl⟩
  unfold action_debug_block
  split_ifs
  · exact ⟨rfl, rfl, rfl, rfl⟩
  · have h1 := hg e p
    have h2 := hg (get_ptaxi_context_id H e p true).2.1 (get_ptaxi_context_id H e p true).2.2
    exact ⟨h2.1.trans h1.1, h2.2.1.trans h1.2.1, h2.2.2.1.trans h1.2.2.1,
      h2.2.2.2.trans h1.2.2.2⟩
  · exact hg e p
  · exact hg e p
  · exact ⟨rfl, rfl, rfl, rfl⟩

theorem action_gc_proc {M : Type} (H : host_t M) (fuel : Nat) (e : ptaxi_sim_t)
    (p : processor_t M) (a : Nat) (e1 : ptaxi_sim_t) (p1 : processor_t M)
    (h : action_gc H fuel e p a = some (e1, p1)) :
    p1.XPR = p.XPR ∧ p1.XPR_tag = p.XPR_tag ∧ p1.sr = p.sr ∧ p1.supervisor = p.supervisor := by
  unfold action_gc at h
  split_ifs at h
  · rw [get_ptaxi_context_id_false] at h
    simp only [] at h
    cases hs : scrub_loop H ((p.XPR REG_SP + WORD - 8) % WORD) fuel
        (((state_at { e with states := grow_states e.states (status_id H e p) }
          (status_id H e p)).lowest_sp_addr + WORD - 8) % WORD) p.mem with
    | none => rw [hs] at h; simp at h
    | some m =>
      rw [hs] at h
      simp only [Option.some.injEq, Prod.mk.injEq] at h
      rw [← h.2]
      exact ⟨rfl, rfl, rfl, rfl⟩
  · simp only [Option.some.injEq, Prod.mk.injEq] at h
    rw [← h.2]
    exact ⟨rfl, rfl, rfl, rfl⟩

/-- The matcher's action and the register values with which the functional step
is reached. -/
theorem before_func_ok {M : Type} (H : host_t M) (fuel : Nat) (e : ptaxi_sim_t)
    (p : processor_t M) (insn : insn_t) (a : Nat) (e3 : ptaxi_sim_t) (q : processor_t M)
    (h : before_func H fuel e p insn = .ok (a, e3, q)) :
    (determine_ptaxi_action H e p insn).returned = some a
      ∧ ∃ p3 : processor_t M, p3.XPR = p.XPR ∧ p3.supervisor = p.supervisor
        ∧ q = action_gettag H p3 insn (get_insn_type insn) a
            (if get_insn_type insn = .PTAXI_INSN_TYPE_TAGCMD ∧ insn.rd ≠ 0
              then p.XPR_tag insn.rs2 else 0) := by
  obtain ⟨_, hsup, hxpr⟩ := determine_ptaxi_action_proc H e p insn
  unfold before_func at h
  simp only [] at h
  cases hdet : determine_ptaxi_action H e p insn with
  | trap d ea pa => rw [hdet] at h; cases h
  | ok a1 idx d ea pa =>
    rw [hdet] at h hxpr hsup
    simp only [action_result.proc] at hxpr hsup
    simp only [] at h
    obtain ⟨hb1, _, _, hb2⟩ := action_debug_block_proc H ea pa a1
    cases hadb : action_debug_block H ea pa a1 with
    | mk blocked ep =>
      obtain ⟨eb, pb⟩ := ep
      rw [hadb] at h hb1 hb2
      simp only [] at hb1 hb2
      cases blocked
      · simp only [] at h
        cases hgc : action_gc H fuel eb pb a1 with
        | none => rw [hgc] at h; cases h
        | some ep2 =>
          obtain ⟨ec, pc⟩ := ep2
          rw [hgc] at h
          simp only [Except.ok.injEq, Prod.mk.injEq] at h
          obtain ⟨hg1, _, _, hg2⟩ := action_gc_proc H fuel eb pb a1 ec pc hgc
          refine ⟨by rw [← h.1]; rfl, pc, hg1.trans (hb1.trans hxpr),
            hg2.trans (hb2.trans hsup), ?_⟩
          rw [← h.2.2, ← h.1]
      · cases h

/-- C13: for a TAGCMD with `rd != 0`, when `execute_insn` gets to the functional
step, the processor it hands to that step has in `rd` the tag that register `rs2`
had when `execute_insn` was entered (before the matcher ran) if the matcher's
action has the GETTAG bit, and otherwise the data value of `rs2`; the other
registers hold the values they had. -/
theorem gettag_writes_rd {M : Type} (H : host_t M) (fuel : Nat) (e : ptaxi_sim_t)
    (p : processor_t M) (insn : insn_t) (a : Nat) (e3 : ptaxi_sim_t) (q : processor_t M)
    (hk : get_insn_type insn = .PTAXI_INSN_TYPE_TAGCMD) (hrd : insn.rd ≠ 0)
    (h : before_func H fuel e p insn = .ok (a, e3, q)) :
    (determine_ptaxi_action H e p insn).returned = some a
      ∧ q.XPR insn.rd
          = (if a &&& H.PTAXI_ACTION_GETTAG ≠ 0 then p.XPR_tag insn.rs2 else p.XPR insn.rs2)
      ∧ (∀ r, r ≠ insn.rd → q.XPR r = p.XPR r)
      ∧ ∀ func : func_t M, execute_insn H fuel e p insn func = after_func H e3 q insn func := by
  obtain ⟨hret, p3, hx, _, hq⟩ := before_func_ok H fuel e p insn a e3 q h
  refine ⟨hret, ?_, ?_, fun func => by rw [execute_insn_eq, h]⟩
  · rw [hq]
    simp only [action_gettag, hk, hrd, ne_eq, not_false_eq_true, and_self, if_true]
    split_ifs <;> simp [WRITE_RD, hx]
  · intro r hr
    rw [hq]
    simp only [action_gettag, hk, hrd, ne_eq, not_false_eq_true, and_self, if_true]
    split_ifs <;> simp [WRITE_RD, hx, hr]

theorem gettag_writes_rd_witness :
    ∃ (e3 : ptaxi_sim_t) (q : processor_t (Nat → Nat)),
      before_func spec_host 0 (one_context [⟨gettag_policy, 0⟩])
          (user_proc tagged_x9 (fun _ => 77)) tagcmd_x9_x9 = .ok (4, e3, q)
      ∧ q.XPR 9 = 3 ∧ q.XPR_tag 9 = 0 :=
  ⟨_, _, rfl,
    (gettag_writes_rd spec_host 0 (one_context [⟨gettag_policy, 0⟩])
      (user_proc tagged_x9 (fun _ => 77)) tagcmd_x9_x9 4 _ _ (by decide) (by decide)
      rfl).2.1.trans (by decide), by decide⟩


/-! ## The stack-pointer watermark -/

theorem lowest_kept_refl (e : ptaxi_sim_t) : lowest_kept e e :=
  ⟨le_refl _, rfl, fun i hi => by simp [lowest_before, hi]⟩

theorem lowest_before_of_kept (e e1 : ptaxi_sim_t) (h0 : 0 < e.states.length)
    (h : lowest_kept e e1) (i : Nat) : lowest_before e1 i = lowest_before e i := by
  obtain ⟨hl, _, hi⟩ := h
  unfold lowest_before at hi ⊢
  by_cases h1 : i < e1.states.length
  · rw [if_pos h1]; exact hi i h1
  · rw [if_neg h1, if_neg (by omega), hi 0 (by omega), if_pos h0]

theorem lowest_kept_trans (a b c : ptaxi_sim_t) (h0 : 0 < a.states.length)
    (h1 : lowest_kept a b) (h2 : lowest_kept b c) : lowest_kept a c :=
  ⟨le_trans h1.1 h2.1, h2.2.1.trans h1.2.1, fun i hi => by
    rw [h2.2.2 i hi]; exact lowest_before_of_kept a b h0 h1 i⟩

theorem lowest_kept_grow (e : ptaxi_sim_t) (c : Nat) :
    lowest_kept e { e with states := grow_states e.states c } := by
  refine ⟨by simp only [length_grow_states]; omega, rfl, fun i hi => ?_⟩
  simp only [length_grow_states] at hi
  unfold lowest_before
  simp only [state_at]
  split_ifs with h
  · rw [getD_grow_states _ _ _ h]
  · rw [getD_grow_states_new _ _ _ (by omega) (by omega)]

theorem lowest_kept_get_ptaxi_context_id {M : Type} (H : host_t M) (e : ptaxi_sim_t)
    (p : processor_t M) (b : Bool) : lowest_kept e (get_ptaxi_context_id H e p b).2.1 := by
  cases b
  · rw [get_ptaxi_context_id_false]; exact lowest_kept_grow e _
  · rw [get_ptaxi_context_id_true]
    split_ifs
    · exact lowest_kept_refl e
    · exact lowest_kept_grow e _
    · exact lowest_kept_grow e _

theorem lowest_kept_set (e : ptaxi_sim_t) (c : Nat) (s : ptaxi_context_state_t)
    (hs : s.lowest_sp_addr = (state_at e c).lowest_sp_addr) (e1 : ptaxi_sim_t)
    (h1 : e1.states = e.states.set c s) (hb : e1.benchmark_mode = e.benchmark_mode) :
    lowest_kept e e1 := by
  refine ⟨by rw [h1, List.length_set], hb, fun i hi => ?_⟩
  rw [h1, List.length_set] at hi
  unfold lowest_before
  rw [if_pos hi]
  simp only [state_at] at hs ⊢
  rw [h1, getD_set_eq]
  split_ifs with h
  · rw [hs, h.1]
  · rfl

theorem determine_ptaxi_action_lowest {M : Type} (H : host_t M) (e : ptaxi_sim_t)
    (p : processor_t M) (insn : insn_t) (h0 : 0 < e.states.length) :
    lowest_kept e (determine_ptaxi_action H e p insn).engine := by
  rw [determine_ptaxi_action_eq]
  split_ifs
  · exact lowest_kept_grow e _
  · unfold determine_enforcing
    refine lowest_kept_trans _ _ _ h0 (lowest_kept_grow e (status_id H e p)) ?_
    obtain ⟨hst, hbm⟩ := determine_finish_engine H
      { e with states := grow_states e.states (status_id H e p) } p (status_id H e p) insn
      (policy_loop H e.benchmark_mode p insn (get_insn_type insn)
        (state_at { e with states := grow_states e.states (status_id H e p) }
          (status_id H e p)).policy_contexts
        (loop_init (state_at { e with states := grow_states e.states (status_id H e p) }
          (status_id H e p)).priv_bits e.counters.tag_read) 0)
    refine lowest_kept_set _ _ _ ?_ _ hst hbm
    rfl

theorem action_debug_block_lowest {M : Type} (H : host_t M) (e : ptaxi_sim_t)
    (p : processor_t M) (a : Nat) (h0 : 0 < e.states.length) :
    lowest_kept e (action_debug_block H e p a).2.1 := by
  unfold action_debug_block
  split_ifs
  · exact lowest_kept_refl e
  · exact lowest_kept_trans _ _ _ h0 (lowest_kept_get_ptaxi_context_id H e p true)
      (lowest_kept_get_ptaxi_context_id H _ _ true)
  · exact lowest_kept_get_ptaxi_context_id H e p true
  · exact lowest_kept_get_ptaxi_context_id H e p true
  · exact lowest_kept_refl e

theorem before_func_lowest {M : Type} (H : host_t M) (fuel : Nat) (e : ptaxi_sim_t)
    (p : processor_t M) (insn : insn_t) (h0 : 0 < e.states.length)
    (hgc : ∀ a, (determine_ptaxi_action H e p insn).returned = some a →
      a &&& H.PTAXI_ACTION_GC = 0) :
    (∀ r, before_func H fuel e p insn = .error r →
        ∃ e1 p1, r = .trap_tag_violation e1 p1 ∧ lowest_kept e e1)
      ∧ ∀ a e3 q, before_func H fuel e p insn = .ok (a, e3, q) → lowest_kept e e3 := by
  have hd := determine_ptaxi_action_lowest H e p insn h0
  unfold before_func
  simp only []
  cases hdet : determine_ptaxi_action H e p insn with
  | trap d ea pa =>
    rw [hdet] at hd
    refine ⟨fun r hr => ?_, fun a e3 q hq => by cases hq⟩
    simp only [Except.error.injEq] at hr
    exact ⟨ea, pa, hr.symm, hd⟩
  | ok a1 idx d ea pa =>
    rw [hdet] at hd hgc
    simp only [action_result.engine] at hd
    have hg0 : a1 &&& H.PTAXI_ACTION_GC = 0 := hgc a1 rfl
    have hb := action_debug_block_lowest H ea pa a1 (Nat.lt_of_lt_of_le h0 hd.1)
    simp only []
    cases hadb : action_debug_block H ea pa a1 with
    | mk blocked ep =>
      obtain ⟨eb, pb⟩ := ep
      rw [hadb] at hb
      simp only [] at hb
      have hdb := lowest_kept_trans _ _ _ h0 hd hb
      cases blocked
      · have hgc1 : action_gc H fuel eb pb a1 = some (eb, pb) := by
          unfold action_gc
          rw [if_neg (by rw [hg0]; simp)]
        simp only []
        rw [hgc1]
        refine ⟨fun r hr => (by cases hr), fun a e3 q hq => ?_⟩
        simp only [Except.ok.injEq, Prod.mk.injEq] at hq
        rw [← hq.2.1]; exact hdb
      · simp only []
        refine ⟨fun r hr => ?_, fun a e3 q hq => by cases hq⟩
        simp only [Except.error.injEq] at hr
        exact ⟨eb, pb, hr.symm, hdb⟩

theorem track_sp_lowest {M : Type} (H : host_t M) (e : ptaxi_sim_t) (p : processor_t M)
    (insn : insn_t) :
    (track_sp H e p insn).2 = p
      ∧ e.states.length ≤ (track_sp H e p insn).1.states.length
      ∧ (insn.rd = REG_SP ∧ p.supervisor = false ∧ status_id H e p ≠ 0 →
          (state_at (track_sp H e p insn).1 (status_id H e p)).lowest_sp_addr
              = (if lowest_before e (status_id H e p) = 0 then p.XPR REG_SP
                 else min (lowest_before e (status_id H e p)) (p.XPR REG_SP))
            ∧ ∀ i, i < (track_sp H e p insn).1.states.length → i ≠ status_id H e p →
                (state_at (track_sp H e p insn).1 i).lowest_sp_addr = lowest_before e i)
      ∧ (¬ (insn.rd = REG_SP ∧ p.supervisor = false ∧ status_id H e p ≠ 0) →
          ∀ i, i < (track_sp H e p insn).1.states.length →
            (state_at (track_sp H e p insn).1 i).lowest_sp_addr = lowest_before e i) := by
  have hg := lowest_kept_grow e (status_id H e p)
  have hc : status_id H e p < (grow_states e.states (status_id H e p)).length := by
    rw [length_grow_states]; omega
  have hlc := hg.2.2 (status_id H e p) hc
  unfold track_sp
  rw [get_ptaxi_context_id_false]
  simp only []
  by_cases h1 : insn.rd = REG_SP ∧ p.supervisor = false
  · rw [if_pos h1]
    by_cases h2 : status_id H e p ≠ 0
    · rw [if_pos h2]
      by_cases h3 : p.XPR REG_SP
            < (state_at { e with states := grow_states e.states (status_id H e p) }
                (status_id H e p)).lowest_sp_addr
          ∨ (state_at { e with states := grow_states e.states (status_id H e p) }
                (status_id H e p)).lowest_sp_addr = 0
      · rw [if_pos h3]
        refine ⟨rfl, by rw [length_set_state]; exact hg.1, fun _ => ⟨?_, fun i hi hne => ?_⟩,
          fun hn => absurd ⟨h1.1, h1.2, h2⟩ hn⟩
        · rw [state_at_set_state, if_pos ⟨rfl, hc⟩]
          rw [hlc] at h3
          simp only []
          split_ifs with h4
          · rfl
          · rcases h3 with h3 | h3
            · omega
            · exact absurd h3 h4
        · rw [length_set_state] at hi
          rw [state_at_set_state, if_neg (fun hh => hne hh.1.symm)]
          exact hg.2.2 i hi
      · rw [if_neg h3]
        refine ⟨rfl, hg.1, fun _ => ⟨?_, fun i hi _ => hg.2.2 i hi⟩,
          fun hn => absurd ⟨h1.1, h1.2, h2⟩ hn⟩
        rw [hlc] at h3 ⊢
        push_neg at h3
        rw [if_neg h3.2]
        omega
    · rw [if_neg h2]
      exact ⟨rfl, hg.1, fun hh => absurd hh.2.2 h2, fun _ i hi => hg.2.2 i hi⟩
  · rw [if_neg h1]
    exact ⟨rfl, le_refl _, fun hh => absurd ⟨hh.1, hh.2.1⟩ h1,
      fun _ i hi => (lowest_kept_refl e).2.2 i hi⟩

theorem status_id_congr {M : Type} (H : host_t M) (e e1 : ptaxi_sim_t) (p : processor_t M)
    (h : e1.benchmark_mode = e.benchmark_mode) : status_id H e1 p = status_id H e p := by
  simp only [status_id, h]

/-- C14: an `execute_insn` call whose action has no GC bit ends (it returns or
throws).  If it returns, `rd` is x2, the processor is then not in supervisor mode
and the context id `c` then current is non-zero, context `c` is left with the
watermark `min(old, new_sp)` when `old != 0` and `new_sp` when `old == 0`, where
`new_sp` is x2 after the functional step and `old` the watermark of `c` before
the call (that of context 0 when `c` is new); every other context, and in every
other case every context, keeps its watermark.  So a non-zero watermark does not
increase. -/
theorem watermark_update {M : Type} (H : host_t M) (fuel : Nat) (e : ptaxi_sim_t)
    (p : processor_t M) (insn : insn_t) (func : func_t M) (h0 : 0 < e.states.length)
    (hgc : ∀ a, (determine_ptaxi_action H e p insn).returned = some a →
      a &&& H.PTAXI_ACTION_GC = 0) :
    ∃ (e1 : ptaxi_sim_t) (p1 : processor_t M),
      (execute_insn H fuel e p insn func).engine = some e1
      ∧ (execute_insn H fuel e p insn func).proc = some p1
      ∧ e.states.length ≤ e1.states.length
      ∧ ((execute_insn H fuel e p insn func).is_retired = true ∧ insn.rd = REG_SP
            ∧ p1.supervisor = false ∧ status_id H e p1 ≠ 0 →
          (state_at e1 (status_id H e p1)).lowest_sp_addr
              = (if lowest_before e (status_id H e p1) = 0 then p1.XPR REG_SP
                 else min (lowest_before e (status_id H e p1)) (p1.XPR REG_SP))
            ∧ ∀ i, i < e1.states.length → i ≠ status_id H e p1 →
                (state_at e1 i).lowest_sp_addr = lowest_before e i)
      ∧ (¬ ((execute_insn H fuel e p insn func).is_retired = true ∧ insn.rd = REG_SP
            ∧ p1.supervisor = false ∧ status_id H e p1 ≠ 0) →
          ∀ i, i < e1.states.length → (state_at e1 i).lowest_sp_addr = lowest_before e i)
      ∧ ∀ i, i < e.states.length → (state_at e i).lowest_sp_addr ≠ 0 →
          (state_at e1 i).lowest_sp_addr ≤ (state_at e i).lowest_sp_addr := by
  obtain ⟨herr, hok⟩ := before_func_lowest H fuel e p insn h0 hgc
  have hsame : ∀ e1 : ptaxi_sim_t, e.states.length ≤ e1.states.length →
      (∀ i, i < e1.states.length → (state_at e1 i).lowest_sp_addr = lowest_before e i) →
      ∀ i, i < e.states.length → (state_at e i).lowest_sp_addr ≠ 0 →
        (state_at e1 i).lowest_sp_addr ≤ (state_at e i).lowest_sp_addr := by
    intro e1 hl hk i hi _
    rw [hk i (by omega)]
    simp [lowest_before, hi]
  rw [execute_insn_eq]
  cases hbf : before_func H fuel e p insn with
  | error r =>
    obtain ⟨e1, p1, hr, hk⟩ := herr r hbf
    subst hr
    refine ⟨e1, p1, rfl, rfl, hk.1, fun hh => ?_, fun _ => hk.2.2, hsame e1 hk.1 hk.2.2⟩
    simp [exec_result.is_retired] at hh
  | ok x =>
    obtain ⟨a, e3, q⟩ := x
    have hk := hok a e3 q hbf
    simp only [after_func]
    cases hf : func q with
    | mk res p4 =>
      cases res with
      | none =>
        refine ⟨e3, p4, rfl, rfl, hk.1, fun hh => ?_, fun _ => hk.2.2, hsame e3 hk.1 hk.2.2⟩
        simp [exec_result.is_retired] at hh
      | some v =>
        obtain ⟨hp, hlen, hpos, hneg⟩ := track_sp_lowest H e3 p4 insn
        have hid := status_id_congr H e e3 p4 hk.2.1
        have hlb := lowest_before_of_kept e e3 h0 hk
        rw [hid] at hpos hneg
        simp only [hlb] at hpos hneg
        refine ⟨(track_sp H e3 p4 insn).1, p4, rfl, by simp only [exec_result.proc, hp],
          le_trans hk.1 hlen, fun hh => hpos hh.2, fun hh => hneg (fun h3 => hh ⟨rfl, h3⟩), ?_⟩
        intro i hi hne
        by_cases hc : insn.rd = REG_SP ∧ p4.supervisor = false ∧ status_id H e p4 ≠ 0
        · obtain ⟨h1, h2⟩ := hpos hc
          have hlbi : lowest_before e i = (state_at e i).lowest_sp_addr := by
            simp [lowest_before, hi]
          by_cases hic : i = status_id H e p4
          · rw [hic, h1, ← hic, hlbi, if_neg hne]
            exact min_le_left _ _
          · rw [h2 i (Nat.lt_of_lt_of_le hi (le_trans hk.1 hlen)) hic, hlbi]
        · exact hsame _ (le_trans hk.1 hlen) (hneg hc) i hi hne

theorem watermark_update_witness :
    ∃ e1 : ptaxi_sim_t,
      (execute_insn spec_host 0 (watermark_context 4096) (user_proc (fun _ => 0) (fun _ => 4096))
        addi_sp_m16 addi_sp_m16_func).engine = some e1
      ∧ (state_at e1 1).lowest_sp_addr = 4080
      ∧ (state_at e1 0).lowest_sp_addr = 0 := by
  obtain ⟨e1, p1, h1, h2, hlen, h3, _, _⟩ :=
    watermark_update spec_host 0 (watermark_context 4096)
      (user_proc (fun _ => 0) (fun _ => 4096)) addi_sp_m16 addi_sp_m16_func (by decide)
      (fun a h => by
        have h4 : some 0 = some a := h
        cases h4
        rfl)
  have hp : some (addi_sp_m16_func (user_proc (fun _ => 0) (fun _ => 4096))).2 = some p1 := h2
  cases hp
  have hc : status_id spec_host (watermark_context 4096)
      (addi_sp_m16_func (user_proc (fun _ => 0) (fun _ => 4096))).2 = 1 := by decide
  rw [hc] at h3
  obtain ⟨h5, h6⟩ := h3 ⟨by decide, by decide, by decide, by decide⟩
  have hpos : 0 < (watermark_context 4096).states.length := by decide
  exact ⟨e1, h1, h5.trans (by decide),
    (h6 0 (Nat.lt_of_lt_of_le hpos hlen) (by decide)).trans (by decide)⟩


/-! ## The scrub loop of the GC action -/

theorem scrub_loop_ends {M : Type} (H : host_t M) (clean_to : Nat)
    (hto : clean_to ≤ WORD - 8) :
    ∀ (fuel clean_at : Nat) (m : M), (clean_to - clean_at + 7) / 8 ≤ fuel →
      scrub_loop H clean_to fuel clean_at m
        = some (clear_tags H m
            ((List.range ((clean_to - clean_at + 7) / 8)).map (fun k => clean_at + 8 * k))) := by
  have hW : WORD = 18446744073709551616 := by decide
  intro fuel
  induction fuel with
  | zero =>
    intro clean_at m h
    have h1 : ¬ clean_at < clean_to := by omega
    have h2 : (clean_to - clean_at + 7) / 8 = 0 := by omega
    simp [scrub_loop, h1, h2, clear_tags]
  | succ fuel ih =>
    intro clean_at m h
    by_cases h1 : clean_at < clean_to
    · have h2 : (clean_at + 8) % WORD = clean_at + 8 := Nat.mod_eq_of_lt (by omega)
      have h3 : (clean_to - clean_at + 7) / 8 = (clean_to - (clean_at + 8) + 7) / 8 + 1 := by
        omega
      simp only [scrub_loop, if_pos h1, h2]
      rw [ih (clean_at + 8) _ (by omega), h3, List.range_succ_eq_map]
      simp only [List.map_cons, List.map_map, clear_tags, List.foldl_cons, Nat.mul_zero,
        Nat.add_zero]
      congr 2
      apply List.map_congr_left
      intro k _
      simp only [Function.comp]
      omega
    · have h2 : (clean_to - clean_at + 7) / 8 = 0 := by omega
      simp [scrub_loop, h1, h2, clear_tags]

theorem scrub_loop_runs {M : Type} (H : host_t M) (clean_to : Nat)
    (hto : WORD - 8 < clean_to) :
    ∀ (fuel clean_at : Nat) (m : M), clean_at % 8 = 0 → clean_at < WORD →
      scrub_loop H clean_to fuel clean_at m = none := by
  have hW : WORD = 18446744073709551616 := by decide
  intro fuel
  induction fuel with
  | zero =>
    intro clean_at m h1 h2
    have h3 : clean_at < clean_to := by omega
    simp [scrub_loop, h3]
  | succ fuel ih =>
    intro clean_at m h1 h2
    have h3 : clean_at < clean_to := by omega
    simp only [scrub_loop, if_pos h3]
    exact ih _ _ (by rw [hW]; omega) (Nat.mod_lt _ (by omega))

theorem mem_scrub_addresses (lowest cur_sp addr : Nat) :
    addr ∈ scrub_addresses lowest cur_sp
      ↔ (lowest + WORD - 8) % WORD ≤ addr ∧ addr < (cur_sp + WORD - 8) % WORD
          ∧ (addr - (lowest + WORD - 8) % WORD) % 8 = 0 := by
  simp only [scrub_addresses, List.mem_map, List.mem_range]
  constructor
  · rintro ⟨k, hk, rfl⟩
    omega
  · rintro ⟨h1, h2, h3⟩
    exact ⟨(addr - (lowest + WORD - 8) % WORD) / 8, by omega, by omega⟩

/-- The GC action when `cur_sp - 8` does not wrap past the last multiple of 8:
the scrub loop ends within as many iterations as there are addresses to clear,
sets the tag to 0 at the addresses `lowest - 8, lowest, ...` below `cur_sp - 8`
and nowhere else, and the watermark becomes `cur_sp`. -/
theorem action_gc_scrubs {M : Type} (H : host_t M) (fuel : Nat) (e : ptaxi_sim_t)
    (p : processor_t M) (a : Nat) (hgc : a &&& H.PTAXI_ACTION_GC ≠ 0)
    (hsp : p.XPR REG_SP < WORD) (hS : p.XPR REG_SP = 0 ∨ 8 ≤ p.XPR REG_SP)
    (hfuel : (scrub_addresses
      (state_at (get_ptaxi_context_id H e p false).2.1
        (get_ptaxi_context_id H e p false).1).lowest_sp_addr (p.XPR REG_SP)).length ≤ fuel) :
    action_gc H fuel e p a
      = some (set_state (get_ptaxi_context_id H e p false).2.1
            (get_ptaxi_context_id H e p false).1
            { state_at (get_ptaxi_context_id H e p false).2.1
                (get_ptaxi_context_id H e p false).1 with lowest_sp_addr := p.XPR REG_SP },
          { p with
            mem := clear_tags H p.mem
                    (scrub_addresses
                      (state_at (get_ptaxi_context_id H e p false).2.1
                        (get_ptaxi_context_id H e p false).1).lowest_sp_addr
                      (p.XPR REG_SP)) }) := by
  have hW : WORD = 18446744073709551616 := by decide
  have hto : (p.XPR REG_SP + WORD - 8) % WORD ≤ WORD - 8 := by
    rw [hW] at hsp ⊢; omega
  rw [get_ptaxi_context_id_false] at hfuel ⊢
  simp only [scrub_addresses, List.length_map, List.length_range] at hfuel
  unfold action_gc
  rw [if_pos hgc, get_ptaxi_context_id_false]
  simp only []
  rw [scrub_loop_ends H _ hto fuel _ p.mem hfuel]
  rfl

theorem action_gc_scrubs_witness :
    scrub_addresses 0x1000 0x1040
        = [0x0FF8, 0x1000, 0x1008, 0x1010, 0x1018, 0x1020, 0x1028, 0x1030]
      ∧ ∃ (e1 : ptaxi_sim_t) (p1 : processor_t (Nat → Nat)),
          action_gc spec_host 8 (gc_context 0x1000) (user_proc (fun _ => 5) (fun _ => 0x1040)) 8
            = some (e1, p1)
          ∧ (state_at e1 1).lowest_sp_addr = 0x1040
          ∧ p1.mem 0x0FF8 = 0 ∧ p1.mem 0x1030 = 0 :=
  ⟨by decide, _, _,
    action_gc_scrubs spec_host 8 (gc_context 0x1000) (user_proc (fun _ => 5) (fun _ => 0x1040)) 8
      (by decide) (by decide) (by decide) (by decide),
    by decide, by decide, by decide⟩

/-- C12, the failing input: with the watermark at 0x1000 and the stack pointer at
4, an instruction whose action is GC never gets out of the scrub loop, because
`cur_sp - 8` wraps to 2^64 - 4 and no multiple of 8 reaches it: whatever the
number of iterations allowed, `execute_insn` is still running. -/
theorem scrub_loop_diverges :
    (determine_ptaxi_action spec_host (gc_context 0x1000) (user_proc (fun _ => 0) (fun _ => 4))
        addi_x5_x6_0).returned = some 8
      ∧ ∀ (fuel : Nat) (func : func_t (Nat → Nat)),
          (execute_insn spec_host fuel (gc_context 0x1000) (user_proc (fun _ => 0) (fun _ => 4))
            addi_x5_x6_0 func).engine = none := by
  refine ⟨by decide, fun fuel func => ?_⟩
  have hret : (determine_ptaxi_action spec_host (gc_context 0x1000)
      (user_proc (fun _ => 0) (fun _ => 4)) addi_x5_x6_0).returned = some 8 := by decide
  have h1 : (state_at (determine_ptaxi_action spec_host (gc_context 0x1000)
      (user_proc (fun _ => 0) (fun _ => 4)) addi_x5_x6_0).engine 1).lowest_sp_addr = 0x1000 := by
    decide
  have h2 : (determine_ptaxi_action spec_host (gc_context 0x1000)
      (user_proc (fun _ => 0) (fun _ => 4)) addi_x5_x6_0).engine.benchmark_mode = false := by
    decide
  have h3 : (determine_ptaxi_action spec_host (gc_context 0x1000)
      (user_proc (fun _ => 0) (fun _ => 4)) addi_x5_x6_0).engine.states.length = 2 := by
    decide
  have h4 : (determine_ptaxi_action spec_host (gc_context 0x1000)
      (user_proc (fun _ => 0) (fun _ => 4)) addi_x5_x6_0).proc.XPR REG_SP = 4 := by decide
  have h5 : (determine_ptaxi_action spec_host (gc_context 0x1000)
      (user_proc (fun _ => 0) (fun _ => 4)) addi_x5_x6_0).proc.sr = 1 <<< 9 := by decide
  rw [execute_insn_eq]
  unfold before_func
  simp only []
  cases hdet : determine_ptaxi_action spec_host (gc_context 0x1000)
      (user_proc (fun _ => 0) (fun _ => 4)) addi_x5_x6_0 with
  | trap d ea pa => rw [hdet] at hret; cases hret
  | ok a idx d ea pa =>
    rw [hdet] at hret h1 h2 h3 h4 h5
    simp only [action_result.returned, Option.some.injEq] at hret
    simp only [action_result.engine, action_result.proc] at h1 h2 h3 h4 h5
    subst hret
    have hb : action_debug_block spec_host ea pa 8 = (false, ea, pa) := by
      unfold action_debug_block
      rw [h2]
      rfl
    have hid : status_id spec_host ea pa = 1 := by
      simp only [status_id, h2, h5]
      decide
    have hgc : action_gc spec_host fuel ea pa 8 = none := by
      unfold action_gc
      rw [if_pos (by decide), get_ptaxi_context_id_false, hid,
        grow_states_of_lt _ _ (by omega)]
      simp only []
      have h6 : state_at { ea with states := ea.states } 1 = state_at ea 1 := rfl
      rw [h6, h1, h4, scrub_loop_runs spec_host _ (by decide) fuel _ pa.mem (by decide)
        (by decide)]
    simp only [hb, hgc]
    rfl


/-! ## Lazy loading of the operand tags -/

theorem match_tag_arg1_reads {M : Type} (H : host_t M) (bench : Bool) (p : processor_t M)
    (insn : insn_t) (ty : ptaxi_insn_type_t) (policy : ptaxi_policy_t) (m : Bool)
    (v : loop_vars) :
    (∀ R, (tag_reads policy m v .INSN_ARG1).count R + (v.is_load R).toNat
        = ((match_tag_arg1 H bench p insn ty policy m v).vars.is_load R).toNat)
      ∧ (∀ v1, match_tag_arg1 H bench p insn ty policy m v = .trap v1 →
          .INSN_ARG1 ∈ tag_reads policy m v .INSN_ARG1
            ∧ (get_or_set_tag H p insn ty .INSN_ARG1 false 0).trapped = true) := by
  unfold match_tag_arg1 tag_reads
  simp only [ptaxi_policy_t.references, decide_eq_true_eq, loop_vars.is_load]
  by_cases h1 : m = true ∧ policy.tag_arg1_mask ≠ 0
  · rw [if_pos h1, if_pos h1]
    by_cases h2 : v.is_load_tag_arg1 = true
    · rw [if_pos h2, if_pos h2]
      exact ⟨fun R => by cases R <;> simp [match_result.vars, loop_vars.is_load],
        fun v1 hv => by cases hv⟩
    · rw [if_neg h2, if_neg h2]
      simp only [Bool.not_eq_true] at h2
      cases hg : get_or_set_tag H p insn ty .INSN_ARG1 false 0 with
      | trap =>
        exact ⟨fun R => by cases R <;> simp [match_result.vars, loop_vars.is_load, h2],
          fun v1 _ => ⟨List.mem_singleton_self _, rfl⟩⟩
      | ok a =>
        obtain ⟨t, q⟩ := a
        exact ⟨fun R => by cases R <;> simp [match_result.vars, loop_vars.is_load, h2],
          fun v1 hv => by cases hv⟩
  · rw [if_neg h1, if_neg h1]
    exact ⟨fun R => by cases R <;> simp [match_result.vars, loop_vars.is_load],
      fun v1 hv => by cases hv⟩

theorem match_tag_arg2_reads {M : Type} (H : host_t M) (bench : Bool) (p : processor_t M)
    (insn : insn_t) (ty : ptaxi_insn_type_t) (policy : ptaxi_policy_t) (m : Bool)
    (v : loop_vars) :
    (∀ R, (tag_reads policy m v .INSN_ARG2).count R + (v.is_load R).toNat
        = ((match_tag_arg2 H bench p insn ty policy m v).vars.is_load R).toNat)
      ∧ (∀ v1, match_tag_arg2 H bench p insn ty policy m v = .trap v1 →
          .INSN_ARG2 ∈ tag_reads policy m v .INSN_ARG2
            ∧ (get_or_set_tag H p insn ty .INSN_ARG2 false 0).trapped = true) := by
  unfold match_tag_arg2 tag_reads
  simp only [ptaxi_policy_t.references, decide_eq_true_eq, loop_vars.is_load]
  by_cases h1 : m = true ∧ policy.tag_arg2_mask ≠ 0
  · rw [if_pos h1, if_pos h1]
    by_cases h2 : v.is_load_tag_arg2 = true
    · rw [if_pos h2, if_pos h2]
      exact ⟨fun R => by cases R <;> simp [match_result.vars, loop_vars.is_load],
        fun v1 hv => by cases hv⟩
    · rw [if_neg h2, if_neg h2]
      simp only [Bool.not_eq_true] at h2
      cases hg : get_or_set_tag H p insn ty .INSN_ARG2 false 0 with
      | trap =>
        exact ⟨fun R => by cases R <;> simp [match_result.vars, loop_vars.is_load, h2],
          fun v1 _ => ⟨List.mem_singleton_self _, rfl⟩⟩
      | ok a =>
        obtain ⟨t, q⟩ := a
        exact ⟨fun R => by cases R <;> simp [match_result.vars, loop_vars.is_load, h2],
          fun v1 hv => by cases hv⟩
  · rw [if_neg h1, if_neg h1]
    exact ⟨fun R => by cases R <;> simp [match_result.vars, loop_vars.is_load],
      fun v1 hv => by cases hv⟩

theorem match_tag_out_reads {M : Type} (H : host_t M) (bench : Bool) (p : processor_t M)
    (insn : insn_t) (ty : ptaxi_insn_type_t) (policy : ptaxi_policy_t) (m : Bool)
    (v : loop_vars) :
    (∀ R, (tag_reads policy m v .INSN_OUT).count R + (v.is_load R).toNat
        = ((match_tag_out H bench p insn ty policy m v).vars.is_load R).toNat)
      ∧ (∀ v1, match_tag_out H bench p insn ty policy m v = .trap v1 →
          .INSN_OUT ∈ tag_reads policy m v .INSN_OUT
            ∧ (get_or_set_tag H p insn ty .INSN_OUT false 0).trapped = true) := by
  unfold match_tag_out tag_reads
  simp only [ptaxi_policy_t.references, decide_eq_true_eq, loop_vars.is_load]
  by_cases h1 : m = true ∧ (policy.tag_out_mask ≠ 0 ∨ policy.tag_out_tomodify ≠ 0)
  · rw [if_pos h1, if_pos h1]
    by_cases h2 : v.is_load_tag_out = true
    · rw [if_pos h2, if_pos h2]
      exact ⟨fun R => by cases R <;> simp [match_result.vars, loop_vars.is_load],
        fun v1 hv => by cases hv⟩
    · rw [if_neg h2, if_neg h2]
      simp only [Bool.not_eq_true] at h2
      cases hg : get_or_set_tag H p insn ty .INSN_OUT false 0 with
      | trap =>
        exact ⟨fun R => by cases R <;> simp [match_result.vars, loop_vars.is_load, h2],
          fun v1 _ => ⟨List.mem_singleton_self _, rfl⟩⟩
      | ok a =>
        obtain ⟨t, q⟩ := a
        exact ⟨fun R => by cases R <;> simp [match_result.vars, loop_vars.is_load, h2],
          fun v1 hv => by cases hv⟩
  · rw [if_neg h1, if_neg h1]
    exact ⟨fun R => by cases R <;> simp [match_result.vars, loop_vars.is_load],
      fun v1 hv => by cases hv⟩

theorem mem_tag_reads (policy : ptaxi_policy_t) (m : Bool) (v : loop_vars)
    (role R : insn_var_type_t) (h : R ∈ tag_reads policy m v role) :
    R = role ∧ policy.references role = true := by
  unfold tag_reads at h
  split_ifs at h with h1 h2
  · cases h
  · exact ⟨List.mem_singleton.mp h, h1.2⟩
  · cases h

theorem policy_match_reads_spec {M : Type} (H : host_t M) (bench : Bool) (p : processor_t M)
    (insn : insn_t) (ty : ptaxi_insn_type_t) (v : loop_vars) (policy : ptaxi_policy_t) :
    (∀ R, (policy_match_reads H bench p insn ty v policy).count R + (v.is_load R).toNat
        = ((policy_match H bench p insn ty v policy).vars.is_load R).toNat)
      ∧ (∀ v1, policy_match H bench p insn ty v policy = .trap v1 →
          ∃ R ∈ policy_match_reads H bench p insn ty v policy,
            (get_or_set_tag H p insn ty R false 0).trapped = true)
      ∧ ∀ R ∈ policy_match_reads H bench p insn ty v policy, policy.references R = true := by
  obtain ⟨a1, a2⟩ := match_tag_arg1_reads H bench p insn ty policy
    (match_fields H p insn ty v.priv_bits policy) v
  unfold policy_match policy_match_reads
  cases h1 : match_tag_arg1 H bench p insn ty policy
      (match_fields H p insn ty v.priv_bits policy) v with
  | trap w1 =>
    rw [h1] at a1 a2
    simp only [List.append_nil]
    refine ⟨a1, fun v1 _ => ⟨_, (a2 w1 rfl).1, (a2 w1 rfl).2⟩, fun R hR => ?_⟩
    obtain ⟨e1, e2⟩ := mem_tag_reads _ _ _ _ _ hR
    rw [e1]; exact e2
  | ok m1 w1 =>
    rw [h1] at a1
    simp only [match_result.vars] at a1
    obtain ⟨b1, b2⟩ := match_tag_arg2_reads H bench p insn ty policy m1 w1
    simp only []
    cases h2 : match_tag_arg2 H bench p insn ty policy m1 w1 with
    | trap w2 =>
      rw [h2] at b1 b2
      simp only [List.append_nil]
      refine ⟨fun R => ?_, fun v1 _ => ⟨_, ?_, (b2 w2 rfl).2⟩, fun R hR => ?_⟩
      · rw [List.count_append, ← b1 R, ← a1 R]; omega
      · exact List.mem_append_right _ (b2 w2 rfl).1
      · rcases List.mem_append.mp hR with hR | hR
        · obtain ⟨e1, e2⟩ := mem_tag_reads _ _ _ _ _ hR
          rw [e1]; exact e2
        · obtain ⟨e1, e2⟩ := mem_tag_reads _ _ _ _ _ hR
          rw [e1]; exact e2
    | ok m2 w2 =>
      rw [h2] at b1
      simp only [match_result.vars] at b1
      obtain ⟨c1, c2⟩ := match_tag_out_reads H bench p insn ty policy m2 w2
      simp only []
      refine ⟨fun R => ?_, fun v1 hv => ⟨_, ?_, (c2 v1 hv).2⟩, fun R hR => ?_⟩
      · rw [List.count_append, List.count_append, ← c1 R, ← b1 R, ← a1 R]; omega
      · exact List.mem_append_right _ (List.mem_append_right _ (c2 v1 hv).1)
      · rcases List.mem_append.mp hR with hR | hR
        · obtain ⟨e1, e2⟩ := mem_tag_reads _ _ _ _ _ hR
          rw [e1]; exact e2
        · rcases List.mem_append.mp hR with hR | hR
          · obtain ⟨e1, e2⟩ := mem_tag_reads _ _ _ _ _ hR
            rw [e1]; exact e2
          · obtain ⟨e1, e2⟩ := mem_tag_reads _ _ _ _ _ hR
            rw [e1]; exact e2

theorem policy_step_reads {M : Type} (H : host_t M) (bench : Bool) (p : processor_t M)
    (insn : insn_t) (ty : ptaxi_insn_type_t) (v : loop_vars) (entry : ptaxi_policy_context_t) :
    (∀ R, (policy_step H bench p insn ty v entry).vars.is_load R
        = (policy_match H bench p insn ty v entry.policy).vars.is_load R)
      ∧ ∀ v1, policy_step H bench p insn ty v entry = .trap v1 →
          policy_match H bench p insn ty v entry.policy = .trap v1 := by
  unfold policy_step
  cases policy_match H bench p insn ty v entry.policy with
  | trap w => exact ⟨fun R => rfl, fun v1 hv => by cases hv; rfl⟩
  | ok m w =>
    cases m
    · exact ⟨fun R => rfl, fun v1 hv => by cases hv⟩
    · simp only []
      split_ifs
      · exact ⟨fun R => by cases R <;> rfl, fun v1 hv => by cases hv⟩
      · exact ⟨fun R => by cases R <;> rfl, fun v1 hv => by cases hv⟩

theorem policy_loop_reads_nil {M : Type} (H : host_t M) (bench : Bool) (p : processor_t M)
    (insn : insn_t) (ty : ptaxi_insn_type_t) (v : loop_vars) :
    policy_loop_reads H bench p insn ty [] v = [] := rfl

theorem policy_loop_reads_cons {M : Type} (H : host_t M) (bench : Bool) (p : processor_t M)
    (insn : insn_t) (ty : ptaxi_insn_type_t) (entry : ptaxi_policy_context_t)
    (rest : List ptaxi_policy_context_t) (v : loop_vars) :
    policy_loop_reads H bench p insn ty (entry :: rest) v
      = policy_match_reads H bench p insn ty v entry.policy
        ++ match (policy_step H bench p insn ty v entry).next with
          | none => []
          | some v1 => policy_loop_reads H bench p insn ty rest v1 := rfl

theorem policy_loop_reads_spec {M : Type} (H : host_t M) (bench : Bool) (p : processor_t M)
    (insn : insn_t) (ty : ptaxi_insn_type_t) (l : List ptaxi_policy_context_t) :
    ∀ (v : loop_vars) (i : Nat),
      (∀ R, (policy_loop_reads H bench p insn ty l v).count R + (v.is_load R).toNat
          = ((policy_loop H bench p insn ty l v i).vars.is_load R).toNat)
        ∧ ((policy_loop H bench p insn ty l v i).trapped = true →
            ∃ R ∈ policy_loop_reads H bench p insn ty l v,
              (get_or_set_tag H p insn ty R false 0).trapped = true)
        ∧ ∀ R ∈ policy_loop_reads H bench p insn ty l v,
            ∃ entry ∈ l, entry.policy.references R = true := by
  induction l with
  | nil =>
    intro v i
    rw [policy_loop_nil, policy_loop_reads_nil]
    refine ⟨fun R => ?_, fun h => (by cases h), fun R hR => ?_⟩
    · simp
    · cases hR
  | cons entry rest ih =>
    intro v i
    obtain ⟨m1, m2, m3⟩ := policy_match_reads_spec H bench p insn ty v entry.policy
    obtain ⟨s1, s2⟩ := policy_step_reads H bench p insn ty v entry
    have hsub : ∀ R ∈ policy_match_reads H bench p insn ty v entry.policy,
        ∃ en ∈ entry :: rest, en.policy.references R = true :=
      fun R hR => ⟨entry, List.mem_cons_self _ _, m3 R hR⟩
    have hgo : ∀ v1 : loop_vars,
        (∀ R, v1.is_load R = (policy_match H bench p insn ty v entry.policy).vars.is_load R) →
        (∀ R, (policy_match_reads H bench p insn ty v entry.policy
              ++ policy_loop_reads H bench p insn ty rest v1).count R + (v.is_load R).toNat
            = ((policy_loop H bench p insn ty rest v1 (i + 1)).vars.is_load R).toNat)
          ∧ ((policy_loop H bench p insn ty rest v1 (i + 1)).trapped = true →
              ∃ R ∈ policy_match_reads H bench p insn ty v entry.policy
                  ++ policy_loop_reads H bench p insn ty rest v1,
                (get_or_set_tag H p insn ty R false 0).trapped = true)
          ∧ ∀ R ∈ policy_match_reads H bench p insn ty v entry.policy
                ++ policy_loop_reads H bench p insn ty rest v1,
              ∃ en ∈ entry :: rest, en.policy.references R = true := by
      intro v1 hv1
      obtain ⟨i1, i2, i3⟩ := ih v1 (i + 1)
      refine ⟨fun R => ?_, fun ht => ?_, fun R hR => ?_⟩
      · rw [List.count_append, ← i1 R, hv1 R, ← m1 R]; omega
      · obtain ⟨R, hR, hRt⟩ := i2 ht
        exact ⟨R, List.mem_append_right _ hR, hRt⟩
      · rcases List.mem_append.mp hR with hR | hR
        · exact hsub R hR
        · obtain ⟨en, hen, href⟩ := i3 R hR
          exact ⟨en, List.mem_cons_of_mem _ hen, href⟩
    have hstop : ∀ v1 : loop_vars,
        (∀ R, v1.is_load R = (policy_match H bench p insn ty v entry.policy).vars.is_load R) →
        ∀ R, (policy_match_reads H bench p insn ty v entry.policy ++ []).count R
              + (v.is_load R).toNat = (v1.is_load R).toNat := by
      intro v1 hv1 R
      rw [List.append_nil, hv1 R, ← m1 R]
    rw [policy_loop_cons, policy_loop_reads_cons]
    cases hst : policy_step H bench p insn ty v entry with
    | trap v1 =>
      rw [hst] at s1 s2
      simp only [step_result.vars] at s1
      simp only [loop_continue, step_result.next]
      refine ⟨hstop v1 s1, fun _ => ?_, fun R hR => hsub R (by simpa using hR)⟩
      obtain ⟨R, hR, hRt⟩ := m2 v1 (s2 v1 rfl)
      exact ⟨R, by simpa using hR, hRt⟩
    | no_match v1 =>
      rw [hst] at s1
      simp only [step_result.vars] at s1
      simp only [loop_continue, step_result.next, loop_result.cons]
      exact hgo v1 s1
    | ignored v1 e1 =>
      rw [hst] at s1
      simp only [step_result.vars] at s1
      simp only [loop_continue, step_result.next, loop_result.cons]
      exact hgo v1 s1
    | fired v1 e1 brk =>
      rw [hst] at s1
      simp only [step_result.vars] at s1
      cases brk
      · simp only [loop_continue, step_result.next, loop_result.cons, Bool.false_eq_true,
          if_false]
        exact hgo v1 s1
      · simp only [loop_continue, step_result.next, if_true]
        exact ⟨hstop v1 s1, fun h => (by cases h), fun R hR => hsub R (by simpa using hR)⟩

theorem determine_finish_detail {M : Type} (H : host_t M) (e0 : ptaxi_sim_t)
    (p0 : processor_t M) (c : Nat) (insn : insn_t) (r : loop_result) :
    (determine_finish H e0 p0 c insn r).detail = some r := by
  unfold determine_finish
  simp only []
  split_ifs with h1 h2 h3 h3
  · rfl
  · cases get_or_set_tag H p0 insn (get_insn_type insn) insn_var_type_t.INSN_OUT true
      r.vars.tag_out_updated <;> rfl
  · cases get_or_set_tag H p0 insn (get_insn_type insn) insn_var_type_t.INSN_OUT true
      r.vars.tag_out_updated <;> rfl
  · rfl
  · rfl

theorem loop_init_is_load (a b : Nat) (R : insn_var_type_t) :
    (loop_init a b).is_load R = false := by
  cases R <;> rfl

/-- C20: in a call of `determine_ptaxi_action` the tag of each role is read (role
resolved, `get_or_set_tag` called to read) at most once; a role to which no policy
of the current context refers (for OUT: neither `tag_out_mask` nor
`tag_out_tomodify` is non-zero) is not read at all; a tag-violation trap thrown by
the call comes from a role that was read: its read threw, or it is OUT, read
before, and its write-back threw.  The flags `is_load_tag_*` the call ends with
say which roles were read. -/
theorem lazy_tag_loading {M : Type} (H : host_t M) (e : ptaxi_sim_t) (p : processor_t M)
    (insn : insn_t) :
    (∀ R, (determine_reads H e p insn).count R ≤ 1)
      ∧ (∀ R, (∀ entry ∈ (state_at (get_ptaxi_context_id H e p false).2.1
              (get_ptaxi_context_id H e p false).1).policy_contexts,
            entry.policy.references R = false) →
          R ∉ determine_reads H e p insn)
      ∧ ((determine_ptaxi_action H e p insn).returned = none →
          (∃ R ∈ determine_reads H e p insn,
              (get_or_set_tag H p insn (get_insn_type insn) R false 0).trapped = true)
            ∨ (.INSN_OUT ∈ determine_reads H e p insn
                ∧ ∃ t, (get_or_set_tag H p insn (get_insn_type insn) .INSN_OUT true t).trapped
                    = true))
      ∧ ∀ r, (determine_ptaxi_action H e p insn).detail = some r →
          ∀ R, r.vars.is_load R = true ↔ R ∈ determine_reads H e p insn := by
  unfold determine_reads
  rw [get_ptaxi_context_id_false, determine_ptaxi_action_eq]
  simp only []
  by_cases hc : status_id H e p = 0
      ∨ (state_at { e with states := grow_states e.states (status_id H e p) }
          (status_id H e p)).is_enable = false
      ∨ p.supervisor = true
  · rw [if_pos hc, if_pos hc]
    refine ⟨fun R => by simp, fun R _ hR => (by cases hR), fun h => (by cases h),
      fun r h => (by cases h)⟩
  · rw [if_neg hc, if_neg hc]
    obtain ⟨c1, c2, c3⟩ := policy_loop_reads_spec H e.benchmark_mode p insn (get_insn_type insn)
      (state_at { e with states := grow_states e.states (status_id H e p) }
        (status_id H e p)).policy_contexts
      (loop_init (state_at { e with states := grow_states e.states (status_id H e p) }
        (status_id H e p)).priv_bits e.counters.tag_read) 0
    simp only [loop_init_is_load, Bool.toNat_false, Nat.add_zero] at c1
    have hmem : ∀ R, (policy_loop H e.benchmark_mode p insn (get_insn_type insn)
          (state_at { e with states := grow_states e.states (status_id H e p) }
            (status_id H e p)).policy_contexts
          (loop_init (state_at { e with states := grow_states e.states (status_id H e p) }
            (status_id H e p)).priv_bits e.counters.tag_read) 0).vars.is_load R = true
        ↔ R ∈ policy_loop_reads H e.benchmark_mode p insn (get_insn_type insn)
          (state_at { e with states := grow_states e.states (status_id H e p) }
            (status_id H e p)).policy_contexts
          (loop_init (state_at { e with states := grow_states e.states (status_id H e p) }
            (status_id H e p)).priv_bits e.counters.tag_read) := by
      intro R
      rw [← List.count_pos_iff, c1 R]
      cases (policy_loop H e.benchmark_mode p insn (get_insn_type insn)
          (state_at { e with states := grow_states e.states (status_id H e p) }
            (status_id H e p)).policy_contexts
          (loop_init (state_at { e with states := grow_states e.states (status_id H e p) }
            (status_id H e p)).priv_bits e.counters.tag_read) 0).vars.is_load R <;> simp
    refine ⟨fun R => ?_, fun R hR hin => ?_, fun hret => ?_, fun r hr R => ?_⟩
    · rw [c1 R]
      exact Bool.toNat_le _
    · obtain ⟨en, hen, href⟩ := c3 R hin
      rw [hR en hen] at href
      cases href
    · unfold determine_enforcing at hret
      rw [determine_finish_returned_eq] at hret
      split_ifs at hret with h1 h2
      · exact Or.inl (c2 h1)
      · right
        simp only [Bool.and_eq_true] at h2
        cases hg : get_or_set_tag H p insn (get_insn_type insn) .INSN_OUT true
            (policy_loop H e.benchmark_mode p insn (get_insn_type insn)
              (state_at { e with states := grow_states e.states (status_id H e p) }
                (status_id H e p)).policy_contexts
              (loop_init (state_at { e with states := grow_states e.states (status_id H e p) }
                (status_id H e p)).priv_bits e.counters.tag_read) 0).vars.tag_out_updated with
        | trap =>
          exact ⟨(hmem .INSN_OUT).mp h2.1, _, congrArg tag_result.trapped hg⟩
        | ok a => rw [hg] at hret; cases hret
    · unfold determine_enforcing at hr
      rw [determine_finish_detail] at hr
      cases hr
      exact hmem R

theorem lazy_tag_loading_witness :
    determine_reads spec_host (one_context [⟨jal_out_policy, 0⟩, ⟨jal_out_policy, 0⟩])
        (user_proc tagged_x6 (fun _ => 0)) jal_x1 = [.INSN_OUT]
      ∧ resolve_operand (user_proc tagged_x6 (fun _ => 0)) jal_x1 (get_insn_type jal_x1)
          .INSN_ARG1 = .invalid
      ∧ (determine_ptaxi_action spec_host (one_context [⟨jal_out_policy, 0⟩, ⟨jal_out_policy, 0⟩])
          (user_proc tagged_x6 (fun _ => 0)) jal_x1).returned = some 0
      ∧ (determine_reads spec_host (one_context [⟨jal_out_policy, 0⟩, ⟨jal_out_policy, 0⟩])
          (user_proc tagged_x6 (fun _ => 0)) jal_x1).count .INSN_OUT ≤ 1
      ∧ .INSN_ARG1 ∉ determine_reads spec_host
          (one_context [⟨jal_out_policy, 0⟩, ⟨jal_out_policy, 0⟩])
          (user_proc tagged_x6 (fun _ => 0)) jal_x1 :=
  ⟨by decide, by decide, by decide,
    (lazy_tag_loading spec_host (one_context [⟨jal_out_policy, 0⟩, ⟨jal_out_policy, 0⟩])
      (user_proc tagged_x6 (fun _ => 0)) jal_x1).1 .INSN_OUT,
    (lazy_tag_loading spec_host (one_context [⟨jal_out_policy, 0⟩, ⟨jal_out_policy, 0⟩])
      (user_proc tagged_x6 (fun _ => 0)) jal_x1).2.1 .INSN_ARG1 (by decide)⟩


/-! ## Indexing the context store -/

theorem get_ptaxi_context_id_accesses_ok {M : Type} (H : host_t M) (e : ptaxi_sim_t)
    (p : processor_t M) (b : Bool) (h0 : 0 < e.states.length) :
    ∀ a ∈ get_ptaxi_context_id_accesses H e p b, a.index < a.size := by
  intro a ha
  simp only [get_ptaxi_context_id_accesses, List.mem_map, List.mem_range] at ha
  obtain ⟨k, _, rfl⟩ := ha
  simp only
  omega

theorem determine_accesses_ok {M : Type} (H : host_t M) (e : ptaxi_sim_t) (p : processor_t M)
    (h0 : 0 < e.states.length) : ∀ a ∈ determine_accesses H e p, a.index < a.size := by
  intro a ha
  unfold determine_accesses at ha
  rcases List.mem_append.mp ha with ha | ha
  · exact get_ptaxi_context_id_accesses_ok H e p false h0 a ha
  · have hlt := get_ptaxi_context_id_lt H e p false
    simp only [] at ha
    split_ifs at ha
    · cases ha
    · rw [List.mem_singleton.mp ha]
      exact hlt

theorem print_policies_accesses_ok (e : ptaxi_sim_t) (c : Nat) (h : c < e.states.length) :
    ∀ a ∈ print_policies_accesses e c, a.index < a.size := by
  intro a ha
  rw [List.mem_singleton.mp ha]
  exact h

theorem action_debug_block_accesses_ok {M : Type} (H : host_t M) (e : ptaxi_sim_t)
    (p : processor_t M) (action : Nat) (h0 : 0 < e.states.length) :
    ∀ a ∈ action_debug_block_accesses H e p action, a.index < a.size := by
  intro a ha
  have h1 : 0 < (get_ptaxi_context_id H e p true).2.1.states.length :=
    Nat.lt_of_lt_of_le h0 (get_ptaxi_context_id_ge H e p true)
  unfold action_debug_block_accesses at ha
  by_cases hb : e.benchmark_mode = true
  · rw [if_pos hb] at ha
    cases ha
  · rw [if_neg hb] at ha
    simp only [decide_eq_true_eq] at ha
    rcases List.mem_append.mp ha with ha | ha
    · split_ifs at ha
      · rcases List.mem_append.mp ha with ha | ha
        · exact get_ptaxi_context_id_accesses_ok H e p true h0 a ha
        · exact print_policies_accesses_ok _ _ (get_ptaxi_context_id_lt H e p true) a ha
      · cases ha
    · split_ifs at ha
      · rcases List.mem_append.mp ha with ha | ha
        · exact get_ptaxi_context_id_accesses_ok H _ _ true h1 a ha
        · exact print_policies_accesses_ok _ _ (get_ptaxi_context_id_lt H _ _ true) a ha
      · rcases List.mem_append.mp ha with ha | ha
        · exact get_ptaxi_context_id_accesses_ok H _ _ true h0 a ha
        · exact print_policies_accesses_ok _ _ (get_ptaxi_context_id_lt H _ _ true) a ha
      · cases ha

theorem action_gc_accesses_ok {M : Type} (H : host_t M) (e : ptaxi_sim_t)
    (p : processor_t M) (action : Nat) (h0 : 0 < e.states.length) :
    ∀ a ∈ action_gc_accesses H e p action, a.index < a.size := by
  intro a ha
  unfold action_gc_accesses at ha
  split_ifs at ha
  · rcases List.mem_append.mp ha with ha | ha
    · exact get_ptaxi_context_id_accesses_ok H e p false h0 a ha
    · rw [List.mem_singleton.mp ha]
      exact get_ptaxi_context_id_lt H e p false
  · cases ha

theorem track_sp_accesses_ok {M : Type} (H : host_t M) (e : ptaxi_sim_t)
    (p : processor_t M) (insn : insn_t) (h0 : 0 < e.states.length) :
    ∀ a ∈ track_sp_accesses H e p insn, a.index < a.size := by
  intro a ha
  unfold track_sp_accesses at ha
  split_ifs at ha
  · rcases List.mem_append.mp ha with ha | ha
    · exact get_ptaxi_context_id_accesses_ok H e p false h0 a ha
    · rw [List.mem_singleton.mp ha]
      exact get_ptaxi_context_id_lt H e p false
  · rcases List.mem_append.mp ha with ha | ha
    · exact get_ptaxi_context_id_accesses_ok H e p false h0 a ha
    · cases ha
  · cases ha

theorem execute_insn_accesses_ok {M : Type} (H : host_t M) (fuel : Nat) (e : ptaxi_sim_t)
    (p : processor_t M) (insn : insn_t) (func : func_t M) (h0 : 0 < e.states.length) :
    ∀ a ∈ execute_insn_accesses H fuel e p insn func, a.index < a.size := by
  intro a ha
  have hd := (determine_ptaxi_action_engine H e p insn).1.1
  unfold execute_insn_accesses at ha
  simp only [] at ha
  rcases List.mem_append.mp ha with ha | ha
  · exact determine_accesses_ok H e p h0 a ha
  · cases hdet : determine_ptaxi_action H e p insn with
    | trap d ea pa => rw [hdet] at ha; cases ha
    | ok a1 idx d ea pa =>
      rw [hdet] at ha hd
      simp only [action_result.engine] at hd
      simp only [] at ha
      have h1 : 0 < ea.states.length := Nat.lt_of_lt_of_le h0 hd
      rcases List.mem_append.mp ha with ha | ha
      · exact action_debug_block_accesses_ok H ea pa a1 h1 a ha
      · have hb := (action_debug_block_kept H ea pa a1).1
        cases hadb : action_debug_block H ea pa a1 with
        | mk blocked ep =>
          obtain ⟨eb, pb⟩ := ep
          rw [hadb] at ha hb
          simp only [] at hb
          have h2 : 0 < eb.states.length := Nat.lt_of_lt_of_le h1 hb
          cases blocked
          · simp only [] at ha
            rcases List.mem_append.mp ha with ha | ha
            · exact action_gc_accesses_ok H eb pb a1 h2 a ha
            · cases hgc : action_gc H fuel eb pb a1 with
              | none => rw [hgc] at ha; cases ha
              | some ep2 =>
                obtain ⟨ec, pc⟩ := ep2
                rw [hgc] at ha
                simp only [] at ha
                have h3 : 0 < ec.states.length :=
                  Nat.lt_of_lt_of_le h2 (action_gc_kept H fuel eb ec pb pc a1 hgc).1
                cases hf : func (action_gettag H pc insn (get_insn_type insn) a1
                    (if get_insn_type insn = ptaxi_insn_type_t.PTAXI_INSN_TYPE_TAGCMD
                        ∧ insn.rd ≠ 0
                      then p.XPR_tag insn.rs2 else 0)) with
                | mk res pd =>
                  rw [hf] at ha
                  cases res
                  · cases ha
                  · exact track_sp_accesses_ok H ec pd insn h3 a ha
          · cases ha

theorem reachable_length_pos {M : Type} (H : host_t M) (e : ptaxi_sim_t) (h : reachable H e) :
    0 < e.states.length := by
  induction h with
  | new bm c => exact Nat.zero_lt_one
  | step e p op e1 p1 _ hrun ih => exact Nat.lt_of_lt_of_le ih (engine_op_run_ge H e p op e1 p1 hrun)

/-- Every indexing of the context store made by a verb on an engine the host can
bring about is within the store, but for `stop_benchmark`, whose indexing with the
benchmark id is within the store exactly when the store has more than 42
contexts. -/
theorem engine_op_accesses_ok {M : Type} (H : host_t M) (e : ptaxi_sim_t) (h : reachable H e)
    (p : processor_t M) (op : engine_op M) :
    (∀ a ∈ op.accesses H e p, a.index < a.size)
      ∨ (e.benchmark_mode = true ∧ e.states.length ≤ PTAXI_DEBUG_MODE_CONTEXT_ID
          ∧ op.accesses H e p
            = [{ index := PTAXI_DEBUG_MODE_CONTEXT_ID, size := e.states.length }]) := by
  have h0 := reachable_length_pos H e h
  cases op with
  | execute_insn fuel insn func => exact Or.inl (execute_insn_accesses_ok H fuel e p insn func h0)
  | add_policy a b c =>
    left
    intro x hx
    simp only [engine_op.accesses, add_policy_accesses] at hx
    rcases List.mem_append.mp hx with hx | hx
    · exact get_ptaxi_context_id_accesses_ok H e p true h0 x hx
    · rw [List.mem_singleton.mp hx]
      exact get_ptaxi_context_id_lt H e p true
  | run_tag_command cmd =>
    left
    intro x hx
    simp only [engine_op.accesses, run_tag_command_accesses] at hx
    rcases List.mem_append.mp hx with hx | hx
    · rcases List.mem_append.mp hx with hx | hx
      · exact get_ptaxi_context_id_accesses_ok H e p true h0 x hx
      · split_ifs at hx
        · rw [List.mem_singleton.mp hx]
          exact get_ptaxi_context_id_lt H e p true
        · cases hx
    · exact print_policies_accesses_ok _ _ (get_ptaxi_context_id_lt H e p true) x hx
  | start_benchmark =>
    left
    intro x hx
    cases hx
  | stop_benchmark =>
    simp only [engine_op.accesses, stop_benchmark_accesses]
    by_cases hb : e.benchmark_mode = false
    · left
      rw [if_pos hb]
      intro x hx
      cases hx
    · rw [if_neg hb]
      simp only [Bool.not_eq_false] at hb
      by_cases hl : PTAXI_DEBUG_MODE_CONTEXT_ID < e.states.length
      · exact Or.inl (print_policies_accesses_ok _ _ hl)
      · exact Or.inr ⟨hb, by omega, rfl⟩

/-- In benchmark mode every call of `get_ptaxi_context_id` leaves a store with more
than 42 contexts. -/
theorem get_ptaxi_context_id_benchmark {M : Type} (H : host_t M) (e : ptaxi_sim_t)
    (p : processor_t M) (b : Bool) (hb : e.benchmark_mode = true) :
    PTAXI_DEBUG_MODE_CONTEXT_ID < (get_ptaxi_context_id H e p b).2.1.states.length := by
  have hid : status_id H e p = PTAXI_DEBUG_MODE_CONTEXT_ID := by simp [status_id, hb]
  have h0 : status_id H e p ≠ 0 := by rw [hid]; decide
  have hlt := get_ptaxi_context_id_lt H e p b
  cases b
  · rw [get_ptaxi_context_id_false] at hlt ⊢
    simp only [] at hlt ⊢
    rw [hid] at hlt ⊢
    exact hlt
  · rw [get_ptaxi_context_id_true, if_neg h0] at hlt ⊢
    simp only [] at hlt ⊢
    rw [hid] at hlt ⊢
    exact hlt

/-- C21, the failing input: on a fresh engine, `start_benchmark` followed by
`stop_benchmark` makes `print_policies` index the store with the benchmark id 42
while the store holds one context. -/
theorem stop_benchmark_out_of_bounds :
    reachable spec_host benchmark_started
      ∧ benchmark_started.benchmark_mode = true
      ∧ engine_op.accesses spec_host benchmark_started zero_id_proc .stop_benchmark
          = [{ index := 42, size := 1 }]
      ∧ ¬ (42 < benchmark_started.states.length) :=
  ⟨reachable.step (ptaxi_sim_new false zero_counters) zero_id_proc .start_benchmark
      benchmark_started zero_id_proc (reachable.new false zero_counters) rfl,
    by decide, by decide, by decide⟩

/-! ## Firing after the ignored matches -/

end Ptaxi
